import Mathlib

/-!
# Render server: scene registry, frame pacing and output-buffer layout

A shallow embedding of `src/server.cpp` (`RenderServiceImpl`, `RenderServer`,
`VulkanCudaBuffer`).  Stateful code is written as functions from a `Server`
value to the next `Server` value together with the outcome of the request.

Conventions of the embedding

* `int` locals are `Int`; an `int` product that the validated range of camera
  sizes can push past 31 bits is reduced with `toInt32` (two's complement).
* Unsigned 64-bit quantities (`rs_id_t`, `size_t`, `vk::DeviceSize`, frame
  counters) are `Nat`: no population that fits in memory brings a byte count or
  a counter to 2^64.  The conversion of an `int` to them is `toSizeT`.  The
  offset of a camera is the exception: it is a product with the stride, which
  after the `int` overflow is close to 2^64, so it is reduced modulo 2^64.
* `server.h` is not part of the sources.  The fields it declares are read off
  their uses in `server.cpp`; the scene index and the camera sizes are held as
  the values that `autoAllocateBuffers` reads into its `int` locals.
* Shared pointers are identifiers: a slot of `mSceneList` holds the id of the
  scene it points to, `cameraList` holds camera ids, a `vk::Buffer` handle is
  the position of its buffer in `mBuffers`.
* Calls into Vulkan, svulkan2 and gRPC succeed unless a theorem says
  otherwise; their results that the code branches on (`waitSemaphores`, a
  raising `render`) are parameters.
-/

namespace RenderServer

/-! ## Machine integers -/

/-- Two's complement reduction of an integer to the range of a 32-bit `int`. -/
def toInt32 (i : Int) : Int := (i + 2147483648) % 4294967296 - 2147483648

/-- Product of two `int` values as the hardware computes it. -/
def mul32 (a b : Int) : Int := toInt32 (a * b)

/-- Conversion of an `int` to `size_t`: a negative value has 2^64 added. -/
def toSizeT (i : Int) : Nat :=
  if 0 ≤ i then i.toNat else (18446744073709551616 + i).toNat

/-- The constant `INT32_MAX`. -/
def INT32_MAX : Int := 2147483647

/-! ## Failures -/

/-- What a request can end with instead of a result. -/
inductive Fault where
  /-- A `std::runtime_error` with its message. -/
  | runtimeError (msg : String)
  /-- A `std::out_of_range` from `at` or from a registry lookup. -/
  | outOfRange
  /-- A `std::invalid_argument` from `std::stoi`. -/
  | invalidArgument
  /-- A registry lookup of an identifier that is not registered. -/
  | notFound
  /-- A reply `Status(grpc::StatusCode::INTERNAL, msg)`. -/
  | internal (msg : String)
  /-- An unchecked access outside a container or through a null pointer. -/
  | undefinedBehaviour
  deriving DecidableEq, Repr

/-- Result codes of `waitSemaphores` that the code tells apart. -/
inductive VkResult where
  | eSuccess
  | eTimeout
  | eOther
  deriving DecidableEq, Repr

/-! ## Identifier-keyed registries -/

/-- Identifiers are unsigned 64-bit values. -/
abbrev rs_id_t := Nat

/-- Modelled from the spec: the class `IdMap` of `server.h` (section 4.1): a
mapping from identifier to value, here an association list in insertion
order. -/
abbrev IdMap (α : Type) := List (rs_id_t × α)

/-- Modelled from the spec: `IdMap::get`, absent for a missing identifier. -/
def IdMap.get? {α : Type} : IdMap α → rs_id_t → Option α
  | [], _ => none
  | (k, v) :: rest, id => if k = id then some v else IdMap.get? rest id

/-- Modelled from the spec: `IdMap::set`, which overwrites the entry of an
identifier that is present and adds one otherwise. -/
def IdMap.set {α : Type} : IdMap α → rs_id_t → α → IdMap α
  | [], id, v => [(id, v)]
  | (k, w) :: rest, id, v =>
    if k = id then (k, v) :: rest else (k, w) :: IdMap.set rest id v

/-- Modelled from the spec: `IdMap::erase`. -/
def IdMap.erase {α : Type} (m : IdMap α) (id : rs_id_t) : IdMap α :=
  m.filter fun kv => decide (kv.1 ≠ id)

/-! ## Output buffers -/

/-- The members of `VulkanCudaBuffer` that the layout depends on. -/
structure VulkanCudaBuffer where
  mType : String
  mShape : List Int
  mSize : Nat
  deriving DecidableEq, Repr

/-- The decimal digits at the head of a string, as a number. -/
def digitsValue (ds : List Char) : Nat :=
  ds.foldl (fun acc c => 10 * acc + (c.toNat - 48)) 0

/-- The function `std::stoi` in base 10: leading white space, an optional sign, then the
longest run of digits; no digit is `std::invalid_argument`, a value outside
`int` is `std::out_of_range`. -/
def stoi (s : List Char) : Except Fault Int :=
  let s1 := s.dropWhile Char.isWhitespace
  let signed : Bool × List Char :=
    match s1 with
    | '-' :: r => (true, r)
    | '+' :: r => (false, r)
    | r => (false, r)
  let ds := signed.2.takeWhile Char.isDigit
  if ds.isEmpty then .error Fault.invalidArgument
  else
    let v : Int := if signed.1 then -(digitsValue ds : Int) else (digitsValue ds : Int)
    if v < -2147483648 ∨ INT32_MAX < v then .error Fault.outOfRange else .ok v

/-- The byte size computed by the constructor's loop
`mSize = typeSize; for i: mSize *= shape[i]`. -/
def bufferBytes (typeSize : Int) (shape : List Int) : Nat :=
  shape.foldl (fun acc d => acc * toSizeT d) (toSizeT typeSize)

/-- The constructor `VulkanCudaBuffer::VulkanCudaBuffer(device, physicalDevice, type, shape)`:
the checks on the type string and on the size, before the Vulkan calls. -/
def VulkanCudaBuffer.create (type : String) (shape : List Int) :
    Except Fault VulkanCudaBuffer :=
  let cs := type.data
  if cs.length < 3 ∨ (cs.head? ≠ some '<' ∧ cs.head? ≠ some '>') then
    .error (Fault.runtimeError "invalid type")
  else
    match stoi (cs.drop 2) with
    | .error e => .error e
    | .ok typeSize =>
      if typeSize ≤ 0 then .error (Fault.runtimeError "invalid type")
      else
        let mSize := bufferBytes typeSize shape
        if mSize = 0 then .error (Fault.runtimeError "empty buffer is not allowed")
        else .ok { mType := type, mShape := shape, mSize := mSize }

/-! ## Scenes and cameras -/

/-- One triple of a camera's fill info: render-target name, destination
buffer, byte offset. -/
structure FillEntry where
  name : String
  buffer : Nat
  offset : Nat
  deriving DecidableEq, Repr

/-- A position and a rotation as sent in a request; the scalars are only
copied, never computed with. -/
structure Pose where
  p : List Int
  q : List Int
  deriving DecidableEq, Repr

/-- The lambda handed to the scene's single worker, with what it captures by
value: the camera (its semaphore, command buffer and renderer), the fill info
and the frame number. -/
inductive PictureTask where
  /-- The lambda of `TakePicture`. -/
  | takePicture (camera : rs_id_t) (fillInfo : List FillEntry) (frame : Nat)
  /-- The lambda of `UpdateRenderAndTakePictures`. -/
  | updateRenderAndTakePictures (camera : rs_id_t) (fillInfo : List FillEntry) (frame : Nat)
  deriving DecidableEq, Repr

/-- The struct `CameraInfo`. -/
structure CameraInfo where
  cameraIndex : Nat
  /-- The camera node in the scene graph. -/
  camera : Nat
  width : Nat
  height : Nat
  frameCounter : Nat
  fillInfo : List FillEntry
  deriving DecidableEq, Repr

/-- A node of the scene graph (an object or a camera of the scene library):
the pose last set on it and, for an object, the material of each shape of its
model. -/
structure Node where
  pose : Option Pose
  shapes : List Nat
  deriving DecidableEq, Repr

/-- The struct `SceneInfo`.  The scene graph is the list of its nodes under
their handles; object and camera pointers are node handles, `none` is the null
pointer. -/
structure SceneInfo where
  sceneIndex : Nat
  sceneId : rs_id_t
  nextNode : Nat
  nodes : List (Nat × Node)
  objectMap : IdMap (Option Nat)
  objectMaterialIdMap : IdMap (List rs_id_t)
  cameraMap : IdMap CameraInfo
  cameraList : List rs_id_t
  orderedObjects : List (Option Nat)
  orderedCameras : List Nat
  /-- The tasks submitted to the single worker, oldest first. -/
  threadRunner : List PictureTask
  deriving DecidableEq, Repr

/-- The state of `RenderServer` together with its `RenderServiceImpl`. -/
structure Server where
  /-- Modelled from the spec: the next value of `generateId`. -/
  nextId : rs_id_t
  /-- The next material object of the resource library. -/
  nextMaterial : Nat
  mSceneMap : IdMap SceneInfo
  mMaterialMap : IdMap Nat
  /-- The weak registry of per-shape materials. -/
  mObjectMaterialMap : IdMap Nat
  mSceneList : List (Option rs_id_t)
  mBuffers : List VulkanCudaBuffer
  mMaxCameraCount : Int
  mRenderTargets : List String
  mRenderTargetBuffers : List Nat
  mRenderTargetStrides : List Nat
  deriving DecidableEq, Repr

/-- The server right after `RenderServer::start`. -/
def Server.empty : Server :=
  { nextId := 1, nextMaterial := 0, mSceneMap := [], mMaterialMap := [],
    mObjectMaterialMap := [], mSceneList := [], mBuffers := [],
    mMaxCameraCount := 0, mRenderTargets := [], mRenderTargetBuffers := [],
    mRenderTargetStrides := [] }

/-- Modelled from the spec: `generateId` of `server.h`, a process-unique
monotonically generated identifier. -/
def generateId (s : Server) : rs_id_t × Server :=
  (s.nextId, { s with nextId := s.nextId + 1 })

/-! ## The output-buffer allocator -/

/-- The `int` locals of `autoAllocateBuffers` that the scan over the scenes
and cameras fills in. -/
structure Layout where
  maxSceneIndex : Int
  minCameraCount : Int
  maxCameraCount : Int
  maxCameraWidth : Int
  maxCameraHeight : Int
  minCameraWidth : Int
  minCameraHeight : Int
  deriving DecidableEq, Repr

/-- The values the locals are initialised with. -/
def Layout.init : Layout :=
  { maxSceneIndex := 0, minCameraCount := INT32_MAX, maxCameraCount := 0,
    maxCameraWidth := 0, maxCameraHeight := 0,
    minCameraWidth := INT32_MAX, minCameraHeight := INT32_MAX }

/-- The body of the inner loop over `kv.second->cameraMap`. -/
def scanCamera (l : Layout) (c : CameraInfo) : Layout :=
  { l with
    maxCameraHeight := max l.maxCameraHeight (c.height : Int)
    maxCameraWidth := max l.maxCameraWidth (c.width : Int)
    minCameraHeight := min l.minCameraHeight (c.height : Int)
    minCameraWidth := min l.minCameraWidth (c.width : Int) }

/-- The body of the outer loop over `mSceneMap.flat()`. -/
def scanScene (l : Layout) (sc : SceneInfo) : Layout :=
  (sc.cameraMap.map Prod.snd).foldl scanCamera
    { l with
      maxSceneIndex := max l.maxSceneIndex (sc.sceneIndex : Int)
      maxCameraCount := max l.maxCameraCount (sc.cameraMap.length : Int)
      minCameraCount := min l.minCameraCount (sc.cameraMap.length : Int) }

/-- The scan of `autoAllocateBuffers` over every scene and camera. -/
def scanScenes (s : Server) : Layout :=
  (s.mSceneMap.map Prod.snd).foldl scanScene Layout.init

/-- The four checks that follow the scan; the two warnings are no-ops. -/
def validateLayout (l : Layout) : Except Fault Unit :=
  if 1024 ≤ l.maxSceneIndex then
    .error (Fault.runtimeError ("The largest scene index is " ++ toString l.maxSceneIndex ++
      ". This is probably due to an error."))
  else if l.maxCameraCount = 0 then
    .error (Fault.runtimeError "No cameras are added.")
  else if l.minCameraWidth = 0 ∨ l.minCameraHeight = 0 then
    .error (Fault.runtimeError "Some camera has size 0")
  else if 16384 ≤ l.maxCameraWidth ∨ 16384 ≤ l.maxCameraHeight then
    .error (Fault.runtimeError "Some camera size is too large")
  else .ok ()

/-- What the chain of string comparisons selects for a target: the canonical
name, the buffer type, `channels` and `formatSize`. -/
def targetKind (target : String) : Option (String × String × Int × Int) :=
  if target = "color" ∨ target = "Color" then some ("Color", "<f4", 4, 4)
  else if target = "position" ∨ target = "Position" then some ("Position", "<f4", 4, 4)
  else if target = "segmentation" ∨ target = "Segmentation" then
    some ("Segmentation", "<i4", 4, 4)
  else none

/-- The method `RenderServer::allocateBuffer`: the buffer is constructed, then
pushed on `mBuffers`; the handle returned is its position. -/
def allocateBuffer (s : Server) (type : String) (shape : List Int) :
    Except Fault (Server × Nat) :=
  match VulkanCudaBuffer.create type shape with
  | .error e => .error e
  | .ok b => .ok ({ s with mBuffers := s.mBuffers ++ [b] }, s.mBuffers.length)

/-- The statement
`size_t stride = maxCameraWidth * maxCameraHeight * channels * formatSize`:
a product of four `int`s, converted afterwards. -/
def strideOf (l : Layout) (channels formatSize : Int) : Nat :=
  toSizeT (mul32 (mul32 (mul32 l.maxCameraWidth l.maxCameraHeight) channels) formatSize)

/-- The statement
`size_t offset = (sceneIndex * maxCameraCount + cameraIndex) * stride`: the
arithmetic is that of `size_t`, so the result is the product modulo 2^64. -/
def fillOffset (maxCameraCount stride sceneIndex cameraIndex : Nat) : Nat :=
  ((sceneIndex * maxCameraCount + cameraIndex) * stride) % 18446744073709551616

/-- The loop over `kv.second->cameraMap` that appends one entry to each
camera's fill info. -/
def pushFillInfoScene (target : String) (buffer : Nat) (maxCameraCount : Int)
    (stride : Nat) (sc : SceneInfo) : SceneInfo :=
  { sc with
    cameraMap := sc.cameraMap.map fun kv =>
      (kv.1, { kv.2 with
        fillInfo := kv.2.fillInfo ++
          [{ name := target, buffer := buffer,
             offset := fillOffset (toSizeT maxCameraCount) stride sc.sceneIndex
               kv.2.cameraIndex }] }) }

/-- The loop over `mSceneMap.flat()` inside the loop over the targets. -/
def pushFillInfo (s : Server) (target : String) (buffer : Nat) (maxCameraCount : Int)
    (stride : Nat) : Server :=
  { s with
    mSceneMap := s.mSceneMap.map fun kv =>
      (kv.1, pushFillInfoScene target buffer maxCameraCount stride kv.2) }

/-- The shape `{maxSceneCount, maxCameraCount, maxCameraHeight, maxCameraWidth,
channels}` handed to `allocateBuffer`, with `maxSceneCount = maxSceneIndex + 1`. -/
def layoutShape (l : Layout) (channels : Int) : List Int :=
  [l.maxSceneIndex + 1, l.maxCameraCount, l.maxCameraHeight, l.maxCameraWidth, channels]

/-- The loop `for (std::string target : renderTargets)`, with the buffers and
strides collected so far; a raise leaves the state as it is at that point. -/
def allocateTargets (l : Layout) :
    Server → List String → List Nat → List Nat → Server × Except Fault (List Nat × List Nat)
  | s, [], buffers, strides => (s, .ok (buffers, strides))
  | s, target :: rest, buffers, strides =>
    match targetKind target with
    | none =>
      (s, .error (Fault.runtimeError ("Target type " ++ target ++ " is not implemented")))
    | some (name, type, channels, formatSize) =>
      match allocateBuffer s type (layoutShape l channels) with
      | .error e => (s, .error e)
      | .ok (s1, buffer) =>
        let stride := strideOf l channels formatSize
        allocateTargets l (pushFillInfo s1 name buffer l.maxCameraCount stride) rest
          (buffers ++ [buffer]) (strides ++ [stride])

/-- The method `RenderServer::autoAllocateBuffers(renderTargets)`: the state
after the call and either the raise or the handles of the returned buffers. -/
def autoAllocateBuffers (s : Server) (renderTargets : List String) :
    Server × Except Fault (List Nat) :=
  if s.mBuffers.length ≠ 0 then
    (s, .error (Fault.runtimeError "auto allocate buffers must to be called twice"))
  else
    let l := scanScenes s
    match validateLayout l with
    | .error e => (s, .error e)
    | .ok _ =>
      match allocateTargets l s renderTargets [] [] with
      | (s1, .error e) => (s1, .error e)
      | (s1, .ok (buffers, strides)) =>
        ({ s1 with
            mMaxCameraCount := l.maxCameraCount
            mRenderTargets := renderTargets
            mRenderTargetBuffers := buffers
            mRenderTargetStrides := strides }, .ok buffers)

/-! ## Requests on the registry -/

/-- The `SceneInfo` that `CreateScene` builds. -/
def SceneInfo.fresh (index : Nat) (id : rs_id_t) : SceneInfo :=
  { sceneIndex := index, sceneId := id, nextNode := 0, nodes := [], objectMap := [],
    objectMaterialIdMap := [], cameraMap := [], cameraList := [], orderedObjects := [],
    orderedCameras := [], threadRunner := [] }

/-- The block of `CreateScene` under the write lock: `resize(index + 1, nullptr)`
when the table is not longer than `index`, then the store to slot `index`. -/
def storeSlot (slots : List (Option rs_id_t)) (index : Nat) (id : rs_id_t) :
    List (Option rs_id_t) :=
  (if slots.length ≤ index then slots ++ List.replicate (index + 1 - slots.length) none
    else slots).set index (some id)

/-- The handler `RenderServiceImpl::CreateScene`. -/
def CreateScene (s : Server) (index : Nat) : Server × Except Fault rs_id_t :=
  let g := generateId s
  ({ g.2 with
      mSceneMap := g.2.mSceneMap.set g.1 (SceneInfo.fresh index g.1)
      mSceneList := storeSlot g.2.mSceneList index g.1 }, .ok g.1)

/-- Whether a material object is still owned: by the material registry or by
a shape of an object of a registered scene. -/
def materialAlive (s : Server) (m : Nat) : Bool :=
  s.mMaterialMap.any (fun kv => kv.2 == m) ||
    s.mSceneMap.any fun kv => kv.2.nodes.any fun n => n.2.shapes.contains m

/-- The method `RenderServiceImpl::updateObjectMaterialMap`: the entries of
the weak registry whose material has expired are erased. -/
def updateObjectMaterialMap (s : Server) : Server :=
  { s with mObjectMaterialMap := s.mObjectMaterialMap.filter fun kv => materialAlive s kv.2 }

/-- The pairs (semaphore, value) gathered from `cameraMap`; a camera's
semaphore is named by the camera's identifier. -/
def sceneWaitPairs (sc : SceneInfo) : List (rs_id_t × Nat) :=
  sc.cameraMap.map fun kv => (kv.1, kv.2.frameCounter)

/-- The handler `RenderServiceImpl::RemoveScene`; `waitResult` is what
`waitSemaphores` returns. -/
def RemoveScene (s : Server) (id : rs_id_t) (waitResult : VkResult) :
    Server × Except Fault Unit :=
  match s.mSceneMap.get? id with
  | none => (s, .error Fault.notFound)
  | some info =>
    match s.mSceneList[info.sceneIndex]? with
    | none => (s, .error Fault.outOfRange)
    | some slot =>
      let s1 : Server :=
        if slot = some id then { s with mSceneList := s.mSceneList.set info.sceneIndex none }
        else s
      (updateObjectMaterialMap { s1 with mSceneMap := s1.mSceneMap.erase id },
        if waitResult ≠ VkResult.eSuccess then
          .error (Fault.internal "remove scene failed: waiting for camera failed")
        else .ok ())

/-- The handler `RenderServiceImpl::CreateMaterial`. -/
def CreateMaterial (s : Server) : Server × Except Fault rs_id_t :=
  let g := generateId s
  ({ g.2 with
      mMaterialMap := g.2.mMaterialMap.set g.1 g.2.nextMaterial
      nextMaterial := g.2.nextMaterial + 1 }, .ok g.1)

/-- The handler `RenderServiceImpl::RemoveMaterial`. -/
def RemoveMaterial (s : Server) (id : rs_id_t) : Server × Except Fault Unit :=
  ({ s with mMaterialMap := s.mMaterialMap.erase id }, .ok ())

/-- The method `RenderServiceImpl::getMaterial`. -/
def getMaterial (s : Server) (id : rs_id_t) : Except Fault Nat :=
  match s.mMaterialMap.get? id with
  | some m => .ok m
  | none =>
    match s.mObjectMaterialMap.get? id with
    | none => .error Fault.notFound
    | some m => if materialAlive s m then .ok m else .error Fault.outOfRange

/-- A scene with one more node in its graph, and the handle of the node. -/
def SceneInfo.addNode (sc : SceneInfo) (shapes : List Nat) : SceneInfo × Nat :=
  ({ sc with nodes := sc.nodes ++ [(sc.nextNode, { pose := none, shapes := shapes })]
             nextNode := sc.nextNode + 1 }, sc.nextNode)

/-- The handler `RenderServiceImpl::AddBodyMesh`; `shapeCount` is the number
of shapes of the model that the file holds, each with a material of its own. -/
def AddBodyMesh (s : Server) (scene_id : rs_id_t) (shapeCount : Nat) :
    Server × Except Fault rs_id_t :=
  let g := generateId s
  match g.2.mSceneMap.get? scene_id with
  | none => (g.2, .error Fault.notFound)
  | some info =>
    let added := info.addNode ((List.range shapeCount).map fun i => g.2.nextMaterial + i)
    ({ g.2 with
        nextMaterial := g.2.nextMaterial + shapeCount
        mSceneMap := g.2.mSceneMap.set scene_id
          { added.1 with objectMap := added.1.objectMap.set g.1 (some added.2) } }, .ok g.1)

/-- The enumeration `proto::PrimitiveType`, with the values outside it. -/
inductive PrimitiveType where
  | BOX
  | SPHERE
  | PLANE
  | CAPSULE
  | CYLINDER
  | unknown (value : Nat)
  deriving DecidableEq, Repr

/-- The handler `RenderServiceImpl::AddBodyPrimitive`. -/
def AddBodyPrimitive (s : Server) (scene_id : rs_id_t) (type : PrimitiveType)
    (material : rs_id_t) : Server × Except Fault rs_id_t :=
  let g := generateId s
  match getMaterial g.2 material with
  | .error e => (g.2, .error e)
  | .ok mat =>
    match g.2.mSceneMap.get? scene_id with
    | none => (g.2, .error Fault.notFound)
    | some info =>
      match type with
      | PrimitiveType.unknown _ =>
        (g.2, .error (Fault.runtimeError "this should never happen"))
      | _ =>
        let added := info.addNode [mat]
        ({ g.2 with
            mSceneMap := g.2.mSceneMap.set scene_id
              { added.1 with
                objectMap := added.1.objectMap.set g.1 (some added.2)
                objectMaterialIdMap := added.1.objectMaterialIdMap.set g.1 [material] } },
          .ok g.1)

/-- The handler `RenderServiceImpl::RemoveBody`; `find` on an unregistered
body gives the end iterator, which is then dereferenced. -/
def RemoveBody (s : Server) (scene_id body_id : rs_id_t) : Server × Except Fault Unit :=
  match s.mSceneMap.get? scene_id with
  | none => (s, .error Fault.notFound)
  | some info =>
    match info.objectMap.get? body_id with
    | none => (s, .error Fault.undefinedBehaviour)
    | some none => (s, .error Fault.undefinedBehaviour)
    | some (some node) =>
      (updateObjectMaterialMap
        { s with
          mSceneMap := s.mSceneMap.set scene_id
            { info with
              nodes := info.nodes.filter fun n => decide (n.1 ≠ node)
              objectMap := info.objectMap.erase body_id
              objectMaterialIdMap := info.objectMaterialIdMap.erase body_id } }, .ok ())

/-- Modelled from the spec: `getCameraFillInfo` of `server.h`, the fill info
of a camera created after the allocation: one triple per allocated render
target, at the offset of the layout formula. -/
def getCameraFillInfo (s : Server) (sceneIndex cameraIndex : Nat) : List FillEntry :=
  (s.mRenderTargets.zip (s.mRenderTargetBuffers.zip s.mRenderTargetStrides)).map fun e =>
    { name := e.1, buffer := e.2.1,
      offset := fillOffset (toSizeT s.mMaxCameraCount) e.2.2 sceneIndex cameraIndex }

/-- The handler `RenderServiceImpl::AddCamera`; every raise inside it is
caught and answered with an `INTERNAL` status. -/
def AddCamera (s : Server) (scene_id : rs_id_t) (width height : Nat) :
    Server × Except Fault rs_id_t :=
  let g := generateId s
  match g.2.mSceneMap.get? scene_id with
  | none => (g.2, .error (Fault.internal "not found"))
  | some sceneInfo =>
    let added := sceneInfo.addNode []
    let camInfo : CameraInfo :=
      { cameraIndex := sceneInfo.cameraMap.length, camera := added.2, width := width,
        height := height, frameCounter := 0,
        fillInfo := getCameraFillInfo g.2 sceneInfo.sceneIndex sceneInfo.cameraMap.length }
    ({ g.2 with
        mSceneMap := g.2.mSceneMap.set scene_id
          { added.1 with
            cameraMap := added.1.cameraMap.set g.1 camInfo
            cameraList := added.1.cameraList ++ [g.1] } }, .ok g.1)

/-- The handlers `AddPointLight` and `AddDirectionalLight`: an identifier is
generated, then the scene is looked up. -/
def AddLight (s : Server) (scene_id : rs_id_t) : Server × Except Fault rs_id_t :=
  let g := generateId s
  match g.2.mSceneMap.get? scene_id with
  | none => (g.2, .error Fault.notFound)
  | some _ => (g.2, .ok g.1)

/-! ## Render order and pose updates -/

/-- The loop `orderedObjects.push_back(info->objectMap[req->body_ids(i)])`;
the subscript adds a null entry for a body that is not registered. -/
def orderObjects : IdMap (Option Nat) → List rs_id_t → IdMap (Option Nat) × List (Option Nat)
  | m, [] => (m, [])
  | m, id :: rest =>
    match m.get? id with
    | some object => ((orderObjects m rest).1, object :: (orderObjects m rest).2)
    | none =>
      ((orderObjects (m.set id none) rest).1, none :: (orderObjects (m.set id none) rest).2)

/-- The loop `orderedCameras.push_back(info->cameraMap.at(id)->camera)`: the
cameras pushed, and the raise of `at` at the first unregistered id. -/
def orderCameras (m : IdMap CameraInfo) : List rs_id_t → List Nat × Except Fault Unit
  | [] => ([], .ok ())
  | id :: rest =>
    match m.get? id with
    | none => ([], .error Fault.outOfRange)
    | some cam => (cam.camera :: (orderCameras m rest).1, (orderCameras m rest).2)

/-- The handler `RenderServiceImpl::SetEntityOrder`. -/
def SetEntityOrder (s : Server) (scene_id : rs_id_t) (body_ids camera_ids : List rs_id_t) :
    Server × Except Fault Unit :=
  match s.mSceneMap.get? scene_id with
  | none => (s, .error Fault.notFound)
  | some info =>
    ({ s with
        mSceneMap := s.mSceneMap.set scene_id
          { info with
            objectMap := (orderObjects info.objectMap body_ids).1
            orderedObjects := (orderObjects info.objectMap body_ids).2
            orderedCameras := (orderCameras info.cameraMap camera_ids).1 } },
      (orderCameras info.cameraMap camera_ids).2)

/-- The calls `setPosition(p)` and `setRotation(q)` through a node pointer;
`none` when the pointer is not a node of the graph. -/
def setNodePose (nodes : List (Nat × Node)) (node : Nat) (pose : Pose) :
    Option (List (Nat × Node)) :=
  if nodes.any (fun n => n.1 == node) then
    some (nodes.map fun n => if n.1 = node then (n.1, { n.2 with pose := some pose }) else n)
  else none

/-- The loop `for i: ordered[i]->setPosition(p); ordered[i]->setRotation(q)`
from index `i` on.  The subscript is unchecked: an index past the end, a null
pointer and a pointer to a removed node are undefined behaviour. -/
def applyPoses (ordered : List (Option Nat)) :
    Nat → List Pose → List (Nat × Node) → Except Fault (List (Nat × Node))
  | _, [], nodes => .ok nodes
  | i, pose :: rest, nodes =>
    match ordered[i]? with
    | some (some node) =>
      match setNodePose nodes node pose with
      | some nodes1 => applyPoses ordered (i + 1) rest nodes1
      | none => .error Fault.undefinedBehaviour
    | _ => .error Fault.undefinedBehaviour

/-- The two pose loops shared by `UpdateRender` and
`UpdateRenderAndTakePictures`. -/
def updatePoses (info : SceneInfo) (body_poses camera_poses : List Pose) :
    Except Fault SceneInfo :=
  match applyPoses info.orderedObjects 0 body_poses info.nodes with
  | .error e => .error e
  | .ok nodes1 =>
    match applyPoses (info.orderedCameras.map some) 0 camera_poses nodes1 with
    | .error e => .error e
    | .ok nodes2 => .ok { info with nodes := nodes2 }

/-- The handler `RenderServiceImpl::UpdateRender`.  Where the behaviour is
undefined the state is returned as it was and nothing is claimed about it. -/
def UpdateRender (s : Server) (scene_id : rs_id_t) (body_poses camera_poses : List Pose) :
    Server × Except Fault Unit :=
  match s.mSceneMap.get? scene_id with
  | none => (s, .error Fault.notFound)
  | some info =>
    match updatePoses info body_poses camera_poses with
    | .error e => (s, .error e)
    | .ok info1 => ({ s with mSceneMap := s.mSceneMap.set scene_id info1 }, .ok ())

/-! ## Picture requests and the worker's tasks -/

/-- The loop over `req->camera_ids` of `UpdateRenderAndTakePictures`: for
each id the camera is looked up with `at`, its frame counter is incremented
and a task capturing the new value is submitted. -/
def takePictures : SceneInfo → List rs_id_t → SceneInfo × Except Fault Unit
  | sceneInfo, [] => (sceneInfo, .ok ())
  | sceneInfo, camera_id :: rest =>
    match sceneInfo.cameraMap.get? camera_id with
    | none => (sceneInfo, .error Fault.outOfRange)
    | some camInfo =>
      takePictures
        { sceneInfo with
          cameraMap := sceneInfo.cameraMap.set camera_id
            { camInfo with frameCounter := camInfo.frameCounter + 1 }
          threadRunner := sceneInfo.threadRunner ++
            [PictureTask.updateRenderAndTakePictures camera_id camInfo.fillInfo
              (camInfo.frameCounter + 1)] }
        rest

/-- The handler `RenderServiceImpl::UpdateRenderAndTakePictures`. -/
def UpdateRenderAndTakePictures (s : Server) (scene_id : rs_id_t)
    (body_poses camera_poses : List Pose) (camera_ids : List rs_id_t) :
    Server × Except Fault Unit :=
  match s.mSceneMap.get? scene_id with
  | none => (s, .error Fault.notFound)
  | some sceneInfo =>
    match updatePoses sceneInfo body_poses camera_poses with
    | .error e => (s, .error e)
    | .ok info1 =>
      ({ s with mSceneMap := s.mSceneMap.set scene_id (takePictures info1 camera_ids).1 },
        (takePictures info1 camera_ids).2)

/-- The handler `RenderServiceImpl::TakePicture`. -/
def TakePicture (s : Server) (scene_id camera_id : rs_id_t) : Server × Except Fault Unit :=
  match s.mSceneMap.get? scene_id with
  | none => (s, .error Fault.notFound)
  | some sceneInfo =>
    match sceneInfo.cameraMap.get? camera_id with
    | none => (s, .error Fault.outOfRange)
    | some camInfo =>
      ({ s with
          mSceneMap := s.mSceneMap.set scene_id
            { sceneInfo with
              cameraMap := sceneInfo.cameraMap.set camera_id
                { camInfo with frameCounter := camInfo.frameCounter + 1 }
              threadRunner := sceneInfo.threadRunner ++
                [PictureTask.takePicture camera_id camInfo.fillInfo
                  (camInfo.frameCounter + 1)] } }, .ok ())

/-- What a task does on the device, in order.  A camera's semaphore and
command buffer are named by the camera's identifier. -/
inductive GpuEvent where
  | waitSemaphores (sem : rs_id_t) (value : Nat)
  | reset (cb : rs_id_t)
  | begin (cb : rs_id_t)
  | render (camera : rs_id_t)
  | recordCopyToBuffer (cb : rs_id_t) (name : String) (buffer offset : Nat)
  | endCommandBuffer (cb : rs_id_t)
  | submit (cb sem : rs_id_t) (signalValue : Nat)
  deriving DecidableEq, Repr

/-- The loop `for (auto &entry : fillInfo)` of a task. -/
def copyEvents (cb : rs_id_t) (fillInfo : List FillEntry) : List GpuEvent :=
  fillInfo.map fun entry => GpuEvent.recordCopyToBuffer cb entry.name entry.buffer entry.offset

/-- The body of a task, run by the worker: the device events in order and
how the lambda ends.  `waitResult` is what `waitSemaphores` returns and
`renderResult` how `renderer->render` ends. -/
def PictureTask.run : PictureTask → VkResult → Except Fault Unit →
    List GpuEvent × Except Fault Unit
  | PictureTask.takePicture cam fillInfo frame, waitResult, renderResult =>
    if waitResult ≠ VkResult.eSuccess then
      ([GpuEvent.waitSemaphores cam (frame - 1)],
        .error (Fault.runtimeError "take picture failed: wait failed"))
    else
      match renderResult with
      | .error e =>
        ([GpuEvent.waitSemaphores cam (frame - 1), GpuEvent.reset cam, GpuEvent.begin cam,
          GpuEvent.render cam], .error e)
      | .ok _ =>
        ([GpuEvent.waitSemaphores cam (frame - 1), GpuEvent.reset cam, GpuEvent.begin cam,
          GpuEvent.render cam] ++ copyEvents cam fillInfo ++
          [GpuEvent.endCommandBuffer cam, GpuEvent.submit cam cam frame], .ok ())
  | PictureTask.updateRenderAndTakePictures cam fillInfo frame, waitResult, _ =>
    if waitResult ≠ VkResult.eSuccess then
      ([GpuEvent.waitSemaphores cam (frame - 1)],
        .error (Fault.runtimeError "take picture failed: wait failed"))
    else
      ([GpuEvent.waitSemaphores cam (frame - 1), GpuEvent.reset cam, GpuEvent.begin cam,
        GpuEvent.render cam] ++ copyEvents cam fillInfo ++
        [GpuEvent.endCommandBuffer cam, GpuEvent.submit cam cam frame], .ok ())

/-- The camera a task works for. -/
def PictureTask.camera : PictureTask → rs_id_t
  | PictureTask.takePicture cam _ _ => cam
  | PictureTask.updateRenderAndTakePictures cam _ _ => cam

/-- The frame number `frame` a task captured. -/
def PictureTask.frame : PictureTask → Nat
  | PictureTask.takePicture _ _ frame => frame
  | PictureTask.updateRenderAndTakePictures _ _ frame => frame

/-! ## Lazily generated shape materials -/

/-- The loop over the shapes of a model in `GetShapeMaterial`: one generated
identifier per shape, registered in the weak registry. -/
def generateShapeMaterials : Server → List Nat → Server × List rs_id_t
  | s, [] => (s, [])
  | s, material :: rest =>
    let s1 : Server :=
      { (generateId s).2 with
        mObjectMaterialMap := (generateId s).2.mObjectMaterialMap.set (generateId s).1 material }
    ((generateShapeMaterials s1 rest).1, (generateId s).1 :: (generateShapeMaterials s1 rest).2)

/-- The shapes of the model of an object pointer; none for the null pointer. -/
def objectShapes (info : SceneInfo) : Option Nat → List Nat
  | none => []
  | some node =>
    match info.nodes.find? (fun n => n.1 == node) with
    | some n => n.2.shapes
    | none => []

/-- The handler `RenderServiceImpl::GetShapeMaterial`; the reply holds the
identifier truncated to `uint32_t`. -/
def GetShapeMaterial (s : Server) (scene_id body_id : rs_id_t) (index : Nat) :
    Server × Except Fault rs_id_t :=
  match s.mSceneMap.get? scene_id with
  | none => (s, .error Fault.notFound)
  | some info =>
    match info.objectMaterialIdMap.get? body_id with
    | some mat_ids =>
      match mat_ids[index]? with
      | none => (s, .error Fault.outOfRange)
      | some mat_id => (s, .ok (mat_id % 4294967296))
    | none =>
      match info.objectMap.get? body_id with
      | none => (s, .error Fault.outOfRange)
      | some object =>
        let generated := generateShapeMaterials s (objectShapes info object)
        let s1 : Server :=
          { generated.1 with
            mSceneMap := generated.1.mSceneMap.set scene_id
              { info with
                objectMaterialIdMap := info.objectMaterialIdMap.set body_id generated.2 } }
        match generated.2[index]? with
        | none => (s1, .error Fault.outOfRange)
        | some mat_id => (s1, .ok (mat_id % 4294967296))

/-! ## Sequences of requests -/

/-- The requests and local calls that change the state of the server. -/
inductive Request where
  | createScene (index : Nat)
  | removeScene (id : rs_id_t) (waitResult : VkResult)
  | createMaterial
  | removeMaterial (id : rs_id_t)
  | addBodyMesh (scene_id : rs_id_t) (shapeCount : Nat)
  | addBodyPrimitive (scene_id : rs_id_t) (type : PrimitiveType) (material : rs_id_t)
  | removeBody (scene_id body_id : rs_id_t)
  | addCamera (scene_id : rs_id_t) (width height : Nat)
  | addLight (scene_id : rs_id_t)
  | setEntityOrder (scene_id : rs_id_t) (body_ids camera_ids : List rs_id_t)
  | updateRender (scene_id : rs_id_t) (body_poses camera_poses : List Pose)
  | updateRenderAndTakePictures (scene_id : rs_id_t) (body_poses camera_poses : List Pose)
      (camera_ids : List rs_id_t)
  | getShapeMaterial (scene_id body_id : rs_id_t) (index : Nat)
  | takePicture (scene_id camera_id : rs_id_t)
  | autoAllocateBuffers (renderTargets : List String)
  deriving DecidableEq, Repr

/-- The state after one request. -/
def Server.handle (s : Server) : Request → Server
  | Request.createScene index => (CreateScene s index).1
  | Request.removeScene id waitResult => (RemoveScene s id waitResult).1
  | Request.createMaterial => (CreateMaterial s).1
  | Request.removeMaterial id => (RemoveMaterial s id).1
  | Request.addBodyMesh scene_id shapeCount => (AddBodyMesh s scene_id shapeCount).1
  | Request.addBodyPrimitive scene_id type material =>
    (AddBodyPrimitive s scene_id type material).1
  | Request.removeBody scene_id body_id => (RemoveBody s scene_id body_id).1
  | Request.addCamera scene_id width height => (AddCamera s scene_id width height).1
  | Request.addLight scene_id => (AddLight s scene_id).1
  | Request.setEntityOrder scene_id body_ids camera_ids =>
    (SetEntityOrder s scene_id body_ids camera_ids).1
  | Request.updateRender scene_id body_poses camera_poses =>
    (UpdateRender s scene_id body_poses camera_poses).1
  | Request.updateRenderAndTakePictures scene_id body_poses camera_poses camera_ids =>
    (UpdateRenderAndTakePictures s scene_id body_poses camera_poses camera_ids).1
  | Request.getShapeMaterial scene_id body_id index =>
    (GetShapeMaterial s scene_id body_id index).1
  | Request.takePicture scene_id camera_id => (TakePicture s scene_id camera_id).1
  | Request.autoAllocateBuffers renderTargets => (autoAllocateBuffers s renderTargets).1

/-- The state after a sequence of requests, served one after the other. -/
def Server.run (s : Server) (requests : List Request) : Server :=
  requests.foldl Server.handle s

/-- The frame counter of a camera, looked up in every registered scene. -/
def Server.frameCounter? (s : Server) (scene_id camera_id : rs_id_t) : Option Nat :=
  match s.mSceneMap.get? scene_id with
  | none => none
  | some sc => (sc.cameraMap.get? camera_id).map CameraInfo.frameCounter

/-- The fill info of a camera of a registered scene. -/
def Server.fillInfo? (s : Server) (scene_id camera_id : rs_id_t) : Option (List FillEntry) :=
  match s.mSceneMap.get? scene_id with
  | none => none
  | some sc => (sc.cameraMap.get? camera_id).map CameraInfo.fillInfo

/-- The scenes of the registry, in the order `mSceneMap.flat()` yields them. -/
def Server.scenes (s : Server) : List SceneInfo := s.mSceneMap.map Prod.snd

/-- The cameras of a scene, in the order of its `cameraMap`. -/
def SceneInfo.cameras (sc : SceneInfo) : List CameraInfo := sc.cameraMap.map Prod.snd

/-- Every camera of every registered scene. -/
def Server.cameras (s : Server) : List CameraInfo := s.scenes.flatMap SceneInfo.cameras

/-! ## The allocator's effect in closed form -/

/-- The name under which a target is entered in the fill info. -/
def canonicalName (target : String) : String :=
  match targetKind target with
  | some kind => kind.1
  | none => target

/-- The buffer that the loop over the targets constructs for a recognized
target. -/
def targetBuffer (l : Layout) (target : String) : VulkanCudaBuffer :=
  { mType := match targetKind target with
      | some kind => kind.2.1
      | none => ""
    mShape := layoutShape l 4
    mSize := bufferBytes 4 (layoutShape l 4) }

/-- The entries that the loop over the targets appends to the fill info of
the camera `cameraIndex` of scene `sceneIndex`, when the buffer of the first
target gets the handle `first`. -/
def targetEntries (l : Layout) (sceneIndex cameraIndex : Nat) : Nat → List String → List FillEntry
  | _, [] => []
  | first, target :: rest =>
    { name := canonicalName target, buffer := first,
      offset := fillOffset (toSizeT l.maxCameraCount) (strideOf l 4 4) sceneIndex cameraIndex } ::
      targetEntries l sceneIndex cameraIndex (first + 1) rest

/-- The registry after the loop over the targets: every camera has the
entries of `targetEntries` behind its earlier fill info. -/
def pushedSceneMap (l : Layout) (first : Nat) (targets : List String) (m : IdMap SceneInfo) :
    IdMap SceneInfo :=
  m.map fun kv =>
    (kv.1, { kv.2 with
      cameraMap := kv.2.cameraMap.map fun c =>
        (c.1, { c.2 with
          fillInfo := c.2.fillInfo ++
            targetEntries l kv.2.sceneIndex c.2.cameraIndex first targets }) })

/-! ## Concrete populations used as witnesses -/

/-- One scene of index 0 (id 1) with two cameras of 16383 by 16383 pixels
(ids 2 and 3). -/
def twoLargeCameras : Server :=
  Server.empty.run
    [Request.createScene 0, Request.addCamera 1 16383 16383, Request.addCamera 1 16383 16383]

/-- One scene of index 0 (id 1) with three cameras of 16383 by 16383 pixels
(ids 2, 3 and 4). -/
def threeLargeCameras : Server :=
  Server.empty.run
    [Request.createScene 0, Request.addCamera 1 16383 16383, Request.addCamera 1 16383 16383,
      Request.addCamera 1 16383 16383]

/-- One scene of index 0 (id 1) with one camera of 640 by 480 pixels (id 2). -/
def oneSmallCamera : Server :=
  Server.empty.run [Request.createScene 0, Request.addCamera 1 640 480]

/-- Two scenes: index 0 (id 1) with cameras of 640 by 480 and 320 by 240
pixels (ids 2 and 3), index 2 (id 4) with one camera of 1024 by 768 pixels
(id 5). -/
def mixedCameras : Server :=
  Server.empty.run
    [Request.createScene 0, Request.addCamera 1 640 480, Request.addCamera 1 320 240,
      Request.createScene 2, Request.addCamera 4 1024 768]

/-- The frame-pacing state of a scene: the frame counter of each camera, and
the (camera, frame) pair of each task in the worker's queue, oldest first. -/
def SceneInfo.pacing (sc : SceneInfo) : IdMap Nat × List (rs_id_t × Nat) :=
  (sc.cameraMap.map fun kv => (kv.1, kv.2.frameCounter),
    sc.threadRunner.map fun task => (task.camera, task.frame))

/-- The frame-pacing state of every registered scene. -/
def Server.pacing (s : Server) : IdMap (IdMap Nat × List (rs_id_t × Nat)) :=
  s.mSceneMap.map fun kv => (kv.1, kv.2.pacing)

/-- The frames of the tasks queued for one camera, oldest first. -/
def queuedFrames (tasks : List (rs_id_t × Nat)) (camera : rs_id_t) : List Nat :=
  (tasks.filter fun task => decide (task.1 = camera)).map Prod.snd

/-- The pacing invariant of one scene: camera identifiers and the cameras of
queued tasks are below the next identifier, no queued task carries frame 0,
and the tasks queued for a camera carry the frames 1, 2, ..., up to its frame
counter, in queue order. -/
def PacedScene (bound : Nat) (p : IdMap Nat × List (rs_id_t × Nat)) : Prop :=
  (∀ kv ∈ p.1, kv.1 < bound) ∧ (∀ task ∈ p.2, task.1 < bound) ∧
    (∀ task ∈ p.2, 1 ≤ task.2) ∧
    ∀ camera n, p.1.get? camera = some n → queuedFrames p.2 camera = List.range' 1 n

/-- The pacing invariant of the server. -/
def Server.Paced (s : Server) : Prop :=
  ∀ kv ∈ s.pacing, PacedScene s.nextId kv.2

/-- The effect of picture requests for the cameras `ids` of one scene on its
pacing state: each request raises the camera's counter by one and queues a
task with the new value; the first unregistered camera stops the loop. -/
def pacePictures :
    IdMap Nat × List (rs_id_t × Nat) → List rs_id_t → IdMap Nat × List (rs_id_t × Nat)
  | p, [] => p
  | p, camera :: rest =>
    match p.1.get? camera with
    | none => p
    | some n => pacePictures (IdMap.set p.1 camera (n + 1), p.2 ++ [(camera, n + 1)]) rest

/-- The ways in which one request changes the pacing state: not at all, by
a new scene, by the removal of a scene, by a new camera with counter 0, or by
picture requests on the cameras of one scene. -/
inductive PacingStep (s s1 : Server) : Prop where
  | same (h : s1.pacing = s.pacing)
  | created (h : s1.pacing = IdMap.set s.pacing s.nextId ([], []))
  | removed (id : rs_id_t) (h : s1.pacing = IdMap.erase s.pacing id)
  | camera (scene_id : rs_id_t) (p : IdMap Nat × List (rs_id_t × Nat))
      (hget : s.pacing.get? scene_id = some p)
      (h : s1.pacing = IdMap.set s.pacing scene_id (IdMap.set p.1 s.nextId 0, p.2))
      (hn : s.nextId < s1.nextId)
  | pictures (scene_id : rs_id_t) (p : IdMap Nat × List (rs_id_t × Nat))
      (ids : List rs_id_t) (hget : s.pacing.get? scene_id = some p)
      (h : s1.pacing = IdMap.set s.pacing scene_id (pacePictures p ids))

/-! ## Bodies, render order and poses written -/


/-! ## More concrete populations -/

/-- Scene 0 (id 1) with a mesh body of two shapes (id 2) and a camera of 640
by 480 pixels (id 3). -/
def bodyAndCamera : Server :=
  Server.empty.run
    [Request.createScene 0, Request.addBodyMesh 1 2, Request.addCamera 1 640 480]


/-! ## Pose assignments -/

/-- One assignment of a pose to a node of the scene graph: the node keeps its
shapes and every other node is left alone. -/
def writePose (nodes : List (Nat × Node)) (w : Nat × Pose) : List (Nat × Node) :=
  nodes.map fun n => if n.1 = w.1 then (n.1, { n.2 with pose := some w.2 }) else n

/-- The assignments of a list, made one after the other. -/
def writePoses (nodes : List (Nat × Node)) (writes : List (Nat × Pose)) : List (Nat × Node) :=
  writes.foldl writePose nodes

/-- The pose of a node of the scene graph. -/
def poseOf (nodes : List (Nat × Node)) (node : Nat) : Option Pose :=
  match nodes.find? fun n => n.1 == node with
  | some n => n.2.pose
  | none => none

/-- The handles of the nodes of a scene graph. -/
def nodeHandles (nodes : List (Nat × Node)) : List Nat := nodes.map Prod.fst


/-- The population `bodyAndCamera` after `SetEntityOrder` with its body and
its camera. -/
def orderedBodyAndCamera : Server := (SetEntityOrder bodyAndCamera 1 [2] [3]).1

/-- A pose used in examples. -/
def somePose : Pose := { p := [1, 2, 3], q := [1, 0, 0, 0] }

/-- Another pose used in examples. -/
def otherPose : Pose := { p := [4, 5, 6], q := [0, 1, 0, 0] }

/-- The scene of `orderedBodyAndCamera`. -/
def orderedScene : SceneInfo :=
  (orderedBodyAndCamera.mSceneMap.get? 1).getD (SceneInfo.fresh 0 1)

/-- The scene of `bodyAndCamera`. -/
def bodyScene : SceneInfo :=
  (bodyAndCamera.mSceneMap.get? 1).getD (SceneInfo.fresh 0 1)

/-! ## Waiting from the host -/

/-- The tail shared by `waitAll` and `waitScenes`: the reply for each result
of `waitSemaphores`. -/
def waitReply : VkResult → Except Fault Bool
  | VkResult.eTimeout => .ok false
  | VkResult.eSuccess => .ok true
  | VkResult.eOther => .error (Fault.runtimeError "failed to wait")

/-- The method `RenderServer::waitAll`: the pairs handed to `waitSemaphores`,
gathered from the `cameraMap` of every scene of `mSceneMap.flat()`, and the
reply; `result` is what `waitSemaphores` returns. -/
def waitAll (s : Server) (result : VkResult) : List (rs_id_t × Nat) × Except Fault Bool :=
  (s.mSceneMap.flatMap fun kv => kv.2.cameraMap.map fun kv2 => (kv2.1, kv2.2.frameCounter),
    waitReply result)

/-- The pairs gathered from `cameraList`: each pointer of the list is followed
to its camera, which is the camera registered under the same identifier. -/
def listWaitPairs (sc : SceneInfo) : List (rs_id_t × Nat) :=
  sc.cameraList.filterMap fun id =>
    (sc.cameraMap.get? id).map fun cam => (id, cam.frameCounter)

/-- The gathering loop of `waitScenes`: `mSceneList.at(index)` raises for an
index outside the table (a negative `int` converts to an index past every
table), and `->cameraList` on a null slot is undefined behaviour. -/
def gatherScenes (s : Server) : List Int → Except Fault (List (rs_id_t × Nat))
  | [] => .ok []
  | index :: rest =>
    match s.mSceneList[toSizeT index]? with
    | none => .error Fault.outOfRange
    | some none => .error Fault.undefinedBehaviour
    | some (some id) =>
      match s.mSceneMap.get? id with
      | none => .error Fault.undefinedBehaviour
      | some sc =>
        match gatherScenes s rest with
        | .error e => .error e
        | .ok pairs => .ok (listWaitPairs sc ++ pairs)

/-- The method `RenderServer::waitScenes`: the pairs handed to
`waitSemaphores` and the reply; nothing is waited on when the gathering loop
raises. -/
def waitScenes (s : Server) (list : List Int) (result : VkResult) :
    List (rs_id_t × Nat) × Except Fault Bool :=
  match gatherScenes s list with
  | .error e => ([], .error e)
  | .ok pairs => (pairs, waitReply result)

/-! ## The slot table and the camera lists seen from outside -/

/-- The listing state of a scene: its scene index, the identifiers of
`cameraList`, and the camera index of each camera of `cameraMap`. -/
def SceneInfo.listing (sc : SceneInfo) : Nat × List rs_id_t × IdMap Nat :=
  (sc.sceneIndex, sc.cameraList, sc.cameraMap.map fun kv => (kv.1, kv.2.cameraIndex))

/-- The listing state of every registered scene. -/
def Server.listing (s : Server) : IdMap (Nat × List rs_id_t × IdMap Nat) :=
  s.mSceneMap.map fun kv => (kv.1, kv.2.listing)

/-- The listing invariant of one scene: `cameraList` names the cameras of
`cameraMap` in the same order, camera identifiers are distinct and below the
next identifier, and the camera indices are 0, 1, 2, ... in that order. -/
def ListedScene (bound : Nat) (p : Nat × List rs_id_t × IdMap Nat) : Prop :=
  p.2.1 = p.2.2.map Prod.fst ∧ (∀ kv ∈ p.2.2, kv.1 < bound) ∧
    (p.2.2.map Prod.fst).Nodup ∧ p.2.2.map Prod.snd = List.range p.2.2.length

/-- The listing invariant of the server: every scene identifier is below the
next identifier and every scene is listed; a slot of the slot table that is not
null names a registered scene whose scene index is the slot; the scene index of
a registered scene is inside the table. -/
def Server.Listed (s : Server) : Prop :=
  (∀ kv ∈ s.listing, kv.1 < s.nextId ∧ ListedScene s.nextId kv.2) ∧
    (∀ i id, s.mSceneList[i]? = some (some id) →
      ∃ p, s.listing.get? id = some p ∧ p.1 = i) ∧
    ∀ id p, s.listing.get? id = some p → p.1 < s.mSceneList.length

/-- The slot table after `RemoveScene` has looked at the slot of a scene. -/
def clearSlot (slots : List (Option rs_id_t)) (index : Nat) (id : rs_id_t) :
    List (Option rs_id_t) :=
  if slots[index]? = some (some id) then slots.set index none else slots

/-- The ways in which one request changes the listing state and the slot
table: not at all, by a new scene stored in its slot, by the removal of a
scene, or by a new camera at the end of a scene's lists. -/
inductive ListingStep (s s1 : Server) : Prop where
  | same (h : s1.listing = s.listing) (hl : s1.mSceneList = s.mSceneList)
  | created (index : Nat) (h : s1.listing = IdMap.set s.listing s.nextId (index, [], []))
      (hl : s1.mSceneList = storeSlot s.mSceneList index s.nextId)
      (hn : s.nextId < s1.nextId)
  | removed (id : rs_id_t) (p : Nat × List rs_id_t × IdMap Nat)
      (hget : s.listing.get? id = some p) (hin : p.1 < s.mSceneList.length)
      (h : s1.listing = IdMap.erase s.listing id)
      (hl : s1.mSceneList = clearSlot s.mSceneList p.1 id)
  | camera (scene_id : rs_id_t) (p : Nat × List rs_id_t × IdMap Nat)
      (hget : s.listing.get? scene_id = some p)
      (h : s1.listing = IdMap.set s.listing scene_id
        (p.1, p.2.1 ++ [s.nextId], IdMap.set p.2.2 s.nextId p.2.2.length))
      (hl : s1.mSceneList = s.mSceneList) (hn : s.nextId < s1.nextId)

/-- The scene that a slot of the slot table points to; none for an index
outside the table and for a null slot. -/
def Server.slotScene? (s : Server) (index : Int) : Option SceneInfo :=
  match s.mSceneList[toSizeT index]? with
  | some (some id) => s.mSceneMap.get? id
  | _ => none

/-- The status of a reply (`grpc::Status`): ok, or an error with its message. -/
inductive Status where
  | ok
  | error (message : String)
  deriving DecidableEq, Repr

/-- Modelled from the spec: a render shape of a client body
(`render_body_component.h` is absent): the identifier the server gave it
(`getServerId`) and its pose in the frame of the body (`getLocalPose`). -/
structure ClientRenderShape where
  serverId : rs_id_t
  localPose : Pose
  deriving DecidableEq, Repr

/-- Modelled from the spec: `ClientRenderBodyComponent`
(`render_body_component.h` is absent): the pose of the body (`getPose`) and
its render shapes in list order (`getRenderShapes`). -/
structure ClientRenderBodyComponent where
  pose : Pose
  renderShapes : List ClientRenderShape
  deriving DecidableEq, Repr

/-- Modelled from the spec: `ClientCameraComponent` (`camera_component.h` is
absent): the identifier the server gave it, the pose of its entity and its
local pose. -/
structure ClientCameraComponent where
  serverId : rs_id_t
  pose : Pose
  localPose : Pose
  deriving DecidableEq, Repr

/-- The requests that a client system sends, with the fields the order and
the addressing depend on. -/
inductive ClientRequest where
  | createScene (index : Nat)
  | setAmbientLight (id : rs_id_t)
  | addPointLight (scene_id : rs_id_t)
  | addDirectionalLight (scene_id : rs_id_t)
  | setEntityOrder (scene_id : rs_id_t) (body_ids camera_ids : List rs_id_t)
  | updateRender (scene_id : rs_id_t) (body_poses camera_poses : List Pose)
  | updateRenderAndTakePictures (scene_id : rs_id_t) (body_poses camera_poses : List Pose)
      (camera_ids : List rs_id_t)
  | removeScene (id : rs_id_t)
  deriving DecidableEq, Repr

/-- The members of `ClientSystem`. -/
structure ClientSystem where
  mIndex : Nat
  mServerId : rs_id_t
  mRenderBodies : List ClientRenderBodyComponent
  mCameras : List ClientCameraComponent
  mIdSynced : Bool
  deriving DecidableEq, Repr

/-- The constructor `ClientSystem::ClientSystem`: `CreateScene` is sent with
the index and the constructor raises when the status is not ok; `res` is the
identifier in the reply, which the constructor does not store.  Modelled from
the spec: the members the constructor does not assign (`client_system.h` is
absent) start as `unset` for `mServerId`, empty lists and `mIdSynced` false. -/
def ClientSystem.create (index : Nat) (status : Status) (res unset : rs_id_t) :
    List ClientRequest × Except Fault ClientSystem :=
  ([ClientRequest.createScene index],
    match status, res with
    | Status.error message, _ => .error (Fault.runtimeError message)
    | Status.ok, _ =>
      .ok { mIndex := index, mServerId := unset, mRenderBodies := [], mCameras := [],
            mIdSynced := false })

/-- The method `ClientSystem::registerCamera`. -/
def ClientSystem.registerCamera (c : ClientSystem) (camera : ClientCameraComponent) :
    ClientSystem :=
  { c with mIdSynced := false, mCameras := c.mCameras ++ [camera] }

/-- The method `ClientSystem::registerBody`. -/
def ClientSystem.registerBody (c : ClientSystem) (body : ClientRenderBodyComponent) :
    ClientSystem :=
  { c with mIdSynced := false, mRenderBodies := c.mRenderBodies ++ [body] }

/-- The simulation moves a registered body: the component is shared, so the
client sees the new pose. -/
def ClientSystem.moveBody (c : ClientSystem) (i : Nat) (pose : Pose) : ClientSystem :=
  match c.mRenderBodies[i]? with
  | none => c
  | some body => { c with mRenderBodies := c.mRenderBodies.set i { body with pose := pose } }

/-- The simulation moves a registered camera. -/
def ClientSystem.moveCamera (c : ClientSystem) (j : Nat) (pose : Pose) : ClientSystem :=
  match c.mCameras[j]? with
  | none => c
  | some camera => { c with mCameras := c.mCameras.set j { camera with pose := pose } }

/-- The loop of `syncId` over the bodies and their render shapes:
`req.add_body_ids(shape->getServerId())`. -/
def ClientSystem.bodyIds (c : ClientSystem) : List rs_id_t :=
  c.mRenderBodies.flatMap fun body => body.renderShapes.map ClientRenderShape.serverId

/-- The loop of `syncId` over the cameras. -/
def ClientSystem.cameraIds (c : ClientSystem) : List rs_id_t :=
  c.mCameras.map ClientCameraComponent.serverId

/-- The loop of `step` over the bodies and their render shapes: the pose
`b2w * s2b` of each shape; `mul` is the product of poses. -/
def ClientSystem.bodyPoses (mul : Pose → Pose → Pose) (c : ClientSystem) : List Pose :=
  c.mRenderBodies.flatMap fun body =>
    body.renderShapes.map fun shape => mul body.pose shape.localPose

/-- The loop of `step` over the cameras: `cam->getPose() * cam->getLocalPose()`. -/
def ClientSystem.cameraPoses (mul : Pose → Pose → Pose) (c : ClientSystem) : List Pose :=
  c.mCameras.map fun cam => mul cam.pose cam.localPose

/-- The method `ClientSystem::syncId`: the client after the call, the requests
sent, and the raise. -/
def ClientSystem.syncId (c : ClientSystem) (status : Status) :
    ClientSystem × List ClientRequest × Except Fault Unit :=
  if c.mIdSynced then (c, [], .ok ())
  else
    match status with
    | Status.error message =>
      (c, [ClientRequest.setEntityOrder c.mServerId c.bodyIds c.cameraIds],
        .error (Fault.runtimeError ("failed to sync id: " ++ message)))
    | Status.ok =>
      ({ c with mIdSynced := true },
        [ClientRequest.setEntityOrder c.mServerId c.bodyIds c.cameraIds], .ok ())

/-- The raise after a request whose status is not ok. -/
def Status.raise (before : String) : Status → Except Fault Unit
  | Status.ok => .ok ()
  | Status.error message => .error (Fault.runtimeError (before ++ message))

/-- The method `ClientSystem::step`. -/
def ClientSystem.step (mul : Pose → Pose → Pose) (c : ClientSystem)
    (orderStatus renderStatus : Status) :
    ClientSystem × List ClientRequest × Except Fault Unit :=
  match c.syncId orderStatus with
  | (c1, sent, .error e) => (c1, sent, .error e)
  | (c1, sent, .ok _) =>
    (c1, sent ++ [ClientRequest.updateRender c1.mServerId (c1.bodyPoses mul)
        (c1.cameraPoses mul)],
      renderStatus.raise "failed to update render")

/-- The method `ClientSystem::updateRenderAndTakePictures`. -/
def ClientSystem.updateRenderAndTakePictures (mul : Pose → Pose → Pose) (c : ClientSystem)
    (cameras : List ClientCameraComponent) (orderStatus renderStatus : Status) :
    ClientSystem × List ClientRequest × Except Fault Unit :=
  match c.syncId orderStatus with
  | (c1, sent, .error e) => (c1, sent, .error e)
  | (c1, sent, .ok _) =>
    (c1, sent ++ [ClientRequest.updateRenderAndTakePictures c1.mServerId (c1.bodyPoses mul)
        (c1.cameraPoses mul) (cameras.map ClientCameraComponent.serverId)],
      renderStatus.raise "")

/-- The method `ClientSystem::setAmbientLight`. -/
def ClientSystem.setAmbientLight (c : ClientSystem) (status : Status) :
    List ClientRequest × Except Fault Unit :=
  ([ClientRequest.setAmbientLight c.mServerId], status.raise "")

/-- The method `ClientSystem::addPointLight`. -/
def ClientSystem.addPointLight (c : ClientSystem) (status : Status) :
    List ClientRequest × Except Fault Unit :=
  ([ClientRequest.addPointLight c.mServerId], status.raise "")

/-- The method `ClientSystem::addDirectionalLight`. -/
def ClientSystem.addDirectionalLight (c : ClientSystem) (status : Status) :
    List ClientRequest × Except Fault Unit :=
  ([ClientRequest.addDirectionalLight c.mServerId], status.raise "")

/-- The destructor `ClientSystem::~ClientSystem`: `RemoveScene` is sent with a
request on which `set_id` is never called, so its id is the default 0; the
status is ignored. -/
def ClientSystem.destroy (_c : ClientSystem) : List ClientRequest :=
  [ClientRequest.removeScene 0]

/-- The calls made on a client system and the moves of its components, with
the status of each reply the call consumes. -/
inductive ClientCall where
  | registerBody (body : ClientRenderBodyComponent)
  | registerCamera (camera : ClientCameraComponent)
  | moveBody (i : Nat) (pose : Pose)
  | moveCamera (j : Nat) (pose : Pose)
  | setAmbientLight (status : Status)
  | addPointLight (status : Status)
  | addDirectionalLight (status : Status)
  | step (orderStatus renderStatus : Status)
  | updateRenderAndTakePictures (cameras : List ClientCameraComponent)
      (orderStatus renderStatus : Status)
  deriving DecidableEq, Repr

/-- The client after one call and the requests the call sent, in order; a
raise leaves the client to its caller as it is. -/
def ClientSystem.perform (mul : Pose → Pose → Pose) (c : ClientSystem) :
    ClientCall → ClientSystem × List ClientRequest
  | ClientCall.registerBody body => (c.registerBody body, [])
  | ClientCall.registerCamera camera => (c.registerCamera camera, [])
  | ClientCall.moveBody i pose => (c.moveBody i pose, [])
  | ClientCall.moveCamera j pose => (c.moveCamera j pose, [])
  | ClientCall.setAmbientLight status => (c, (c.setAmbientLight status).1)
  | ClientCall.addPointLight status => (c, (c.addPointLight status).1)
  | ClientCall.addDirectionalLight status => (c, (c.addDirectionalLight status).1)
  | ClientCall.step orderStatus renderStatus =>
    ((c.step mul orderStatus renderStatus).1, (c.step mul orderStatus renderStatus).2.1)
  | ClientCall.updateRenderAndTakePictures cameras orderStatus renderStatus =>
    ((c.updateRenderAndTakePictures mul cameras orderStatus renderStatus).1,
      (c.updateRenderAndTakePictures mul cameras orderStatus renderStatus).2.1)

/-- The client and the log of every request sent so far, after a sequence of
calls. -/
def ClientSystem.run (mul : Pose → Pose → Pose) :
    ClientSystem × List ClientRequest → List ClientCall → ClientSystem × List ClientRequest
  | st, [] => st
  | st, call :: rest =>
    ClientSystem.run mul ((st.1.perform mul call).1, st.2 ++ (st.1.perform mul call).2) rest

/-- The body ids and camera ids of the most recent `SetEntityOrder` request
of a log. -/
def lastOrder : List ClientRequest → Option (List rs_id_t × List rs_id_t)
  | [] => none
  | req :: rest =>
    match lastOrder rest with
    | some order => some order
    | none =>
      match req with
      | ClientRequest.setEntityOrder _ body_ids camera_ids => some (body_ids, camera_ids)
      | _ => none

/-- The body poses and camera poses of a pose update; none for the other
requests. -/
def ClientRequest.poses? : ClientRequest → Option (List Pose × List Pose)
  | ClientRequest.updateRender _ body_poses camera_poses => some (body_poses, camera_poses)
  | ClientRequest.updateRenderAndTakePictures _ body_poses camera_poses _ =>
    some (body_poses, camera_poses)
  | _ => none

/-- The scene id (for `RemoveScene` and `SetAmbientLight`, the id) that a
request carries; none for `CreateScene`. -/
def ClientRequest.sceneId? : ClientRequest → Option rs_id_t
  | ClientRequest.createScene _ => none
  | ClientRequest.setAmbientLight id => some id
  | ClientRequest.addPointLight scene_id => some scene_id
  | ClientRequest.addDirectionalLight scene_id => some scene_id
  | ClientRequest.setEntityOrder scene_id _ _ => some scene_id
  | ClientRequest.updateRender scene_id _ _ => some scene_id
  | ClientRequest.updateRenderAndTakePictures scene_id _ _ _ => some scene_id
  | ClientRequest.removeScene id => some id

/-- The render shapes of the registered bodies, bodies in registration order
and shapes in list order, each with the pose of its body. -/
def ClientSystem.shapes (c : ClientSystem) : List (Pose × ClientRenderShape) :=
  c.mRenderBodies.flatMap fun body => body.renderShapes.map fun shape => (body.pose, shape)

/-- The bodies that a sequence of calls registers, in order. -/
def registeredBodies : List ClientCall → List ClientRenderBodyComponent
  | [] => []
  | ClientCall.registerBody body :: rest => body :: registeredBodies rest
  | _ :: rest => registeredBodies rest

/-- The cameras that a sequence of calls registers, in order. -/
def registeredCameras : List ClientCall → List ClientCameraComponent
  | [] => []
  | ClientCall.registerCamera camera :: rest => camera :: registeredCameras rest
  | _ :: rest => registeredCameras rest

/-- The order invariant of a client and its log: when `mIdSynced` is set, the
most recent `SetEntityOrder` of the log names the shapes and cameras that are
registered now. -/
def ClientSystem.Synced (c : ClientSystem) (log : List ClientRequest) : Prop :=
  c.mIdSynced = true → lastOrder log = some (c.bodyIds, c.cameraIds)

/-- A client with one body of two shapes (server ids 2 and 3) and one camera
(server id 4), registered and not yet synced. -/
def sampleClient : ClientSystem :=
  { mIndex := 0, mServerId := 1,
    mRenderBodies :=
      [{ pose := { p := [1, 0, 0], q := [1, 0, 0, 0] },
         renderShapes :=
           [{ serverId := 2, localPose := { p := [0, 1, 0], q := [1, 0, 0, 0] } },
            { serverId := 3, localPose := { p := [0, 0, 1], q := [1, 0, 0, 0] } }] }],
    mCameras := [{ serverId := 4, pose := { p := [5, 5, 5], q := [1, 0, 0, 0] },
                   localPose := { p := [0, 0, 0], q := [1, 0, 0, 0] } }],
    mIdSynced := false }

/-- A stand-in for the product of poses in the examples: positions are added
and the rotation of the left factor is kept. -/
def addPositions (a b : Pose) : Pose :=
  { p := List.zipWith (fun x y => x + y) a.p b.p, q := a.q }

/-! ## The scene graph seen from the registries -/

/-- The linking state of a scene: the handles of the nodes of its graph, the
next handle, the object map, and the node of each camera. -/
def SceneInfo.linking (sc : SceneInfo) : List Nat × Nat × IdMap (Option Nat) × IdMap Nat :=
  (nodeHandles sc.nodes, sc.nextNode, sc.objectMap,
    sc.cameraMap.map fun kv => (kv.1, kv.2.camera))

/-- The linking state of every registered scene. -/
def Server.linking (s : Server) : IdMap (List Nat × Nat × IdMap (Option Nat) × IdMap Nat) :=
  s.mSceneMap.map fun kv => (kv.1, kv.2.linking)

/-- The linking invariant of one scene: every handle is below the next
handle; every object of the object map and the node of every camera is a node
of the graph; no two bodies share an object and no camera node is an object. -/
def LinkedScene (p : List Nat × Nat × IdMap (Option Nat) × IdMap Nat) : Prop :=
  (∀ h ∈ p.1, h < p.2.1) ∧
    (∀ id h, p.2.2.1.get? id = some (some h) → h ∈ p.1) ∧
    (∀ id h, p.2.2.2.get? id = some h → h ∈ p.1) ∧
    (∀ id1 id2 h, p.2.2.1.get? id1 = some (some h) → p.2.2.1.get? id2 = some (some h) →
      id1 = id2) ∧
    ∀ id cid h, p.2.2.1.get? id = some (some h) → p.2.2.2.get? cid = some h → False

/-- The linking invariant of the server. -/
def Server.Linked (s : Server) : Prop :=
  ∀ kv ∈ s.linking, LinkedScene kv.2

/-- The ways in which one request changes the linking state: not at all, by
a new scene, by the removal of a scene, by a new body, by the removal of a
body, by a new camera, or by the null entries that `SetEntityOrder` adds. -/
inductive LinkingStep (s s1 : Server) : Prop where
  | same (h : s1.linking = s.linking)
  | created (h : s1.linking = IdMap.set s.linking s.nextId ([], 0, [], []))
  | removed (id : rs_id_t) (h : s1.linking = IdMap.erase s.linking id)
  | body (scene_id id : rs_id_t) (p : List Nat × Nat × IdMap (Option Nat) × IdMap Nat)
      (hget : s.linking.get? scene_id = some p)
      (h : s1.linking = IdMap.set s.linking scene_id
        (p.1 ++ [p.2.1], p.2.1 + 1, IdMap.set p.2.2.1 id (some p.2.1), p.2.2.2))
  | bodyRemoved (scene_id body_id : rs_id_t) (node : Nat)
      (p : List Nat × Nat × IdMap (Option Nat) × IdMap Nat)
      (hget : s.linking.get? scene_id = some p)
      (hobj : p.2.2.1.get? body_id = some (some node))
      (h : s1.linking = IdMap.set s.linking scene_id
        (p.1.filter (fun h => decide (h ≠ node)), p.2.1, IdMap.erase p.2.2.1 body_id, p.2.2.2))
  | camera (scene_id id : rs_id_t) (p : List Nat × Nat × IdMap (Option Nat) × IdMap Nat)
      (hget : s.linking.get? scene_id = some p)
      (h : s1.linking = IdMap.set s.linking scene_id
        (p.1 ++ [p.2.1], p.2.1 + 1, p.2.2.1, IdMap.set p.2.2.2 id p.2.1))
  | ordered (scene_id : rs_id_t) (body_ids : List rs_id_t)
      (p : List Nat × Nat × IdMap (Option Nat) × IdMap Nat)
      (hget : s.linking.get? scene_id = some p)
      (h : s1.linking = IdMap.set s.linking scene_id
        (p.1, p.2.1, (orderObjects p.2.2.1 body_ids).1, p.2.2.2))

/-! ## Theorems -/
theorem fillOffset_exact (m stride s c : Nat)
    (h : (s * m + c) * stride < 18446744073709551616) :
    fillOffset m stride s c = (s * m + c) * stride := by
  unfold fillOffset
  exact Nat.mod_eq_of_lt h

theorem fillOffset_le (m stride s c : Nat) :
    fillOffset m stride s c ≤ (s * m + c) * stride := by
  unfold fillOffset
  exact Nat.mod_le _ _

theorem slot_lt_of_lt (m stride s c s2 c2 : Nat) (hc : c < m) (h : s < s2) :
    (s * m + c) * stride + stride ≤ (s2 * m + c2) * stride := by
  have h1 : s * m + c + 1 ≤ s2 * m + c2 := by
    have : (s + 1) * m ≤ s2 * m := Nat.mul_le_mul_right m h
    nlinarith
  calc (s * m + c) * stride + stride = (s * m + c + 1) * stride := by ring
    _ ≤ (s2 * m + c2) * stride := Nat.mul_le_mul_right stride h1

theorem slot_lt_of_cam_lt (m stride s c c2 : Nat) (h : c < c2) :
    (s * m + c) * stride + stride ≤ (s * m + c2) * stride := by
  have h1 : s * m + c + 1 ≤ s * m + c2 := by omega
  calc (s * m + c) * stride + stride = (s * m + c + 1) * stride := by ring
    _ ≤ (s * m + c2) * stride := Nat.mul_le_mul_right stride h1

theorem fillOffset_disjoint_of_exact (maxCameraCount stride sceneIndex cameraIndex sceneIndex2
    cameraIndex2 : Nat) (hc : cameraIndex < maxCameraCount) (hc2 : cameraIndex2 < maxCameraCount)
    (hfit : (sceneIndex * maxCameraCount + cameraIndex) * stride < 18446744073709551616)
    (hfit2 : (sceneIndex2 * maxCameraCount + cameraIndex2) * stride < 18446744073709551616)
    (hne : (sceneIndex, cameraIndex) ≠ (sceneIndex2, cameraIndex2)) :
    fillOffset maxCameraCount stride sceneIndex cameraIndex + stride ≤
        fillOffset maxCameraCount stride sceneIndex2 cameraIndex2 ∨
      fillOffset maxCameraCount stride sceneIndex2 cameraIndex2 + stride ≤
        fillOffset maxCameraCount stride sceneIndex cameraIndex := by
  rw [fillOffset_exact _ _ _ _ hfit, fillOffset_exact _ _ _ _ hfit2]
  rcases Nat.lt_trichotomy sceneIndex sceneIndex2 with h | h | h
  · exact Or.inl (slot_lt_of_lt _ _ _ _ _ _ hc h)
  · subst h
    have hcne : cameraIndex ≠ cameraIndex2 := fun e => hne (by rw [e])
    rcases Nat.lt_or_gt_of_ne hcne with h | h
    · exact Or.inl (slot_lt_of_cam_lt _ _ _ _ _ h)
    · exact Or.inr (slot_lt_of_cam_lt _ _ _ _ _ h)
  · exact Or.inr (slot_lt_of_lt _ _ _ _ _ _ hc2 h)

/-- C2: equal pairs get the same offset, and the byte ranges of two distinct
(scene index, camera index) pairs with camera indices below `maxCameraCount`
do not overlap as long as neither offset reaches 2^64.  With three cameras of
16383 by 16383 pixels in scene 0 the sizes pass the validation, the call
succeeds with the wrapped stride 2^64 - 524272, the offset of camera index 2
wraps to 2^64 - 1048544, and the range of that camera starts inside the range
of camera index 0, which starts at 0. -/
theorem fillOffset_overlap_after_wrap :
    (∀ maxCameraCount stride sceneIndex cameraIndex sceneIndex2 cameraIndex2 : Nat,
      1 ≤ maxCameraCount → 1 ≤ stride →
      cameraIndex < maxCameraCount → cameraIndex2 < maxCameraCount →
      (sceneIndex * maxCameraCount + cameraIndex) * stride < 18446744073709551616 →
      (sceneIndex2 * maxCameraCount + cameraIndex2) * stride < 18446744073709551616 →
      (sceneIndex, cameraIndex) ≠ (sceneIndex2, cameraIndex2) →
        fillOffset maxCameraCount stride sceneIndex cameraIndex + stride ≤
            fillOffset maxCameraCount stride sceneIndex2 cameraIndex2 ∨
          fillOffset maxCameraCount stride sceneIndex2 cameraIndex2 + stride ≤
            fillOffset maxCameraCount stride sceneIndex cameraIndex) ∧
    (∀ maxCameraCount stride sceneIndex cameraIndex sceneIndex2 cameraIndex2 : Nat,
      (sceneIndex, cameraIndex) = (sceneIndex2, cameraIndex2) →
        fillOffset maxCameraCount stride sceneIndex cameraIndex =
          fillOffset maxCameraCount stride sceneIndex2 cameraIndex2) ∧
    validateLayout (scanScenes threeLargeCameras) = .ok () ∧
    (scanScenes threeLargeCameras).maxCameraCount = 3 ∧
    (autoAllocateBuffers threeLargeCameras ["Color"]).2 = .ok [0] ∧
    (autoAllocateBuffers threeLargeCameras ["Color"]).1.mRenderTargetStrides =
      [18446744073709027344] ∧
    (autoAllocateBuffers threeLargeCameras ["Color"]).1.fillInfo? 1 2 =
      some [{ name := "Color", buffer := 0, offset := 0 }] ∧
    (autoAllocateBuffers threeLargeCameras ["Color"]).1.fillInfo? 1 4 =
      some [{ name := "Color", buffer := 0, offset := 18446744073708503072 }] ∧
    fillOffset 3 18446744073709027344 0 0 = 0 ∧
    fillOffset 3 18446744073709027344 0 2 = 18446744073708503072 ∧
    ¬ (fillOffset 3 18446744073709027344 0 0 + 18446744073709027344 ≤
          fillOffset 3 18446744073709027344 0 2 ∨
        fillOffset 3 18446744073709027344 0 2 + 18446744073709027344 ≤
          fillOffset 3 18446744073709027344 0 0) ∧
    fillOffset 3 (16383 * 16383 * 4 * 4) 0 2 = 8588886048 := by
  refine ⟨?_, ?_, rfl, by decide, rfl, by decide, by decide, by decide, by decide, by decide,
    by decide, by decide⟩
  · intro maxCameraCount stride sceneIndex cameraIndex sceneIndex2 cameraIndex2 _ _ hc hc2
      hfit hfit2 hne
    exact fillOffset_disjoint_of_exact maxCameraCount stride sceneIndex cameraIndex sceneIndex2
      cameraIndex2 hc hc2 hfit hfit2 hne
  · intro maxCameraCount stride sceneIndex cameraIndex sceneIndex2 cameraIndex2 heq
    cases heq
    rfl

/-- C1: with two cameras of 16383 by 16383 pixels in scene 0 the call succeeds,
gives the second camera (camera index 1) the offset 2^64 - 524272 for the
colour target, and the layout formula asks for 4294443024. -/
theorem autoAllocateBuffers_offset_wraps :
    (autoAllocateBuffers twoLargeCameras ["color"]).2 = .ok [0] ∧
    (autoAllocateBuffers twoLargeCameras ["color"]).1.fillInfo? 1 3 =
      some [{ name := "Color", buffer := 0, offset := 18446744073709027344 }] ∧
    (scanScenes twoLargeCameras).maxCameraCount = 2 ∧
    (scanScenes twoLargeCameras).maxCameraWidth = 16383 ∧
    (scanScenes twoLargeCameras).maxCameraHeight = 16383 ∧
    fillOffset 2 (16383 * 16383 * 4 * 4) 0 1 = 4294443024 :=
  ⟨rfl, by decide, by decide, by decide, by decide, by decide⟩
/-! ### Folds of `max` and `min` -/

theorem le_foldl_max_iff (xs : List Int) (a k : Int) :
    k ≤ xs.foldl max a ↔ k ≤ a ∨ ∃ x ∈ xs, k ≤ x := by
  induction xs generalizing a with
  | nil => simp
  | cons x xs ih =>
    simp only [List.foldl_cons, ih, le_max_iff, List.mem_cons, exists_eq_or_imp]
    tauto

theorem foldl_min_le_iff (xs : List Int) (a k : Int) :
    xs.foldl min a ≤ k ↔ a ≤ k ∨ ∃ x ∈ xs, x ≤ k := by
  induction xs generalizing a with
  | nil => simp
  | cons x xs ih =>
    simp only [List.foldl_cons, ih, min_le_iff, List.mem_cons, exists_eq_or_imp]
    tauto

theorem foldl_scanCamera (cs : List CameraInfo) (l : Layout) :
    cs.foldl scanCamera l =
      { maxSceneIndex := l.maxSceneIndex
        minCameraCount := l.minCameraCount
        maxCameraCount := l.maxCameraCount
        maxCameraWidth := (cs.map fun c => (c.width : Int)).foldl max l.maxCameraWidth
        maxCameraHeight := (cs.map fun c => (c.height : Int)).foldl max l.maxCameraHeight
        minCameraWidth := (cs.map fun c => (c.width : Int)).foldl min l.minCameraWidth
        minCameraHeight := (cs.map fun c => (c.height : Int)).foldl min l.minCameraHeight } := by
  induction cs generalizing l with
  | nil => rfl
  | cons c cs ih => simp [List.foldl_cons, ih, scanCamera]

theorem foldl_scanScene (scs : List SceneInfo) (l : Layout) :
    scs.foldl scanScene l =
      { maxSceneIndex := (scs.map fun sc => (sc.sceneIndex : Int)).foldl max l.maxSceneIndex
        minCameraCount :=
          (scs.map fun sc => (sc.cameraMap.length : Int)).foldl min l.minCameraCount
        maxCameraCount :=
          (scs.map fun sc => (sc.cameraMap.length : Int)).foldl max l.maxCameraCount
        maxCameraWidth :=
          ((scs.flatMap SceneInfo.cameras).map fun c => (c.width : Int)).foldl max
            l.maxCameraWidth
        maxCameraHeight :=
          ((scs.flatMap SceneInfo.cameras).map fun c => (c.height : Int)).foldl max
            l.maxCameraHeight
        minCameraWidth :=
          ((scs.flatMap SceneInfo.cameras).map fun c => (c.width : Int)).foldl min
            l.minCameraWidth
        minCameraHeight :=
          ((scs.flatMap SceneInfo.cameras).map fun c => (c.height : Int)).foldl min
            l.minCameraHeight } := by
  induction scs generalizing l with
  | nil => rfl
  | cons sc scs ih =>
    simp [List.foldl_cons, ih, scanScene, foldl_scanCamera, SceneInfo.cameras,
      List.foldl_append]

theorem scanScenes_eq (s : Server) :
    scanScenes s =
      { maxSceneIndex := (s.scenes.map fun sc => (sc.sceneIndex : Int)).foldl max 0
        minCameraCount := (s.scenes.map fun sc => (sc.cameraMap.length : Int)).foldl min INT32_MAX
        maxCameraCount := (s.scenes.map fun sc => (sc.cameraMap.length : Int)).foldl max 0
        maxCameraWidth := (s.cameras.map fun c => (c.width : Int)).foldl max 0
        maxCameraHeight := (s.cameras.map fun c => (c.height : Int)).foldl max 0
        minCameraWidth := (s.cameras.map fun c => (c.width : Int)).foldl min INT32_MAX
        minCameraHeight := (s.cameras.map fun c => (c.height : Int)).foldl min INT32_MAX } := by
  unfold scanScenes
  rw [foldl_scanScene]
  rfl
/-! ### Buffers -/

theorem create_f4 (shape : List Int) :
    VulkanCudaBuffer.create "<f4" shape =
      if bufferBytes 4 shape = 0 then .error (Fault.runtimeError "empty buffer is not allowed")
      else .ok { mType := "<f4", mShape := shape, mSize := bufferBytes 4 shape } := by
  have h1 : ¬ (("<f4".data).length < 3 ∨
      (("<f4".data).head? ≠ some '<' ∧ ("<f4".data).head? ≠ some '>')) := by decide
  have h2 : stoi (("<f4".data).drop 2) = .ok 4 := rfl
  unfold VulkanCudaBuffer.create
  simp only [h1, h2, if_false]
  rfl

theorem create_i4 (shape : List Int) :
    VulkanCudaBuffer.create "<i4" shape =
      if bufferBytes 4 shape = 0 then .error (Fault.runtimeError "empty buffer is not allowed")
      else .ok { mType := "<i4", mShape := shape, mSize := bufferBytes 4 shape } := by
  have h1 : ¬ (("<i4".data).length < 3 ∨
      (("<i4".data).head? ≠ some '<' ∧ ("<i4".data).head? ≠ some '>')) := by decide
  have h2 : stoi (("<i4".data).drop 2) = .ok 4 := rfl
  unfold VulkanCudaBuffer.create
  simp only [h1, h2, if_false]
  rfl

theorem targetKind_cases (target : String) :
    (targetKind target = some ("Color", "<f4", 4, 4) ∧ (target = "color" ∨ target = "Color")) ∨
    (targetKind target = some ("Position", "<f4", 4, 4) ∧
      (target = "position" ∨ target = "Position")) ∨
    (targetKind target = some ("Segmentation", "<i4", 4, 4) ∧
      (target = "segmentation" ∨ target = "Segmentation")) ∨
    (targetKind target = none ∧ target ≠ "color" ∧ target ≠ "Color" ∧ target ≠ "position" ∧
      target ≠ "Position" ∧ target ≠ "segmentation" ∧ target ≠ "Segmentation") := by
  unfold targetKind
  by_cases h1 : target = "color" ∨ target = "Color"
  · simp [h1]
  · by_cases h2 : target = "position" ∨ target = "Position"
    · simp [h1, h2]
    · by_cases h3 : target = "segmentation" ∨ target = "Segmentation"
      · simp [h1, h2, h3]
      · simp only [h1, h2, h3, if_false]
        push_neg at h1 h2 h3
        simp [h1, h2, h3]
theorem allocateBuffer_kind (s : Server) (l : Layout) (target : String) :
    targetKind target = none ∨
    ∃ name type, targetKind target = some (name, type, 4, 4) ∧
      name = canonicalName target ∧
      allocateBuffer s type (layoutShape l 4) =
        if bufferBytes 4 (layoutShape l 4) = 0 then
          .error (Fault.runtimeError "empty buffer is not allowed")
        else .ok ({ s with mBuffers := s.mBuffers ++ [targetBuffer l target] },
          s.mBuffers.length) := by
  rcases targetKind_cases target with h | h | h | h
  · right
    refine ⟨_, _, h.1, by simp [canonicalName, h.1], ?_⟩
    simp only [allocateBuffer, create_f4, targetBuffer, h.1]
    split_ifs <;> rfl
  · right
    refine ⟨_, _, h.1, by simp [canonicalName, h.1], ?_⟩
    simp only [allocateBuffer, create_f4, targetBuffer, h.1]
    split_ifs <;> rfl
  · right
    refine ⟨_, _, h.1, by simp [canonicalName, h.1], ?_⟩
    simp only [allocateBuffer, create_i4, targetBuffer, h.1]
    split_ifs <;> rfl
  · exact Or.inl h.1

theorem pushedSceneMap_nil (l : Layout) (first : Nat) (m : IdMap SceneInfo) :
    pushedSceneMap l first [] m = m := by
  unfold pushedSceneMap
  simp [targetEntries]

theorem pushedSceneMap_cons (l : Layout) (first : Nat) (target : String) (rest : List String)
    (m : IdMap SceneInfo) :
    pushedSceneMap l (first + 1) rest
        (m.map fun kv =>
          (kv.1, pushFillInfoScene (canonicalName target) first l.maxCameraCount
            (strideOf l 4 4) kv.2)) =
      pushedSceneMap l first (target :: rest) m := by
  unfold pushedSceneMap
  simp [List.map_map, Function.comp, pushFillInfoScene, targetEntries]

theorem allocateTargets_ok (l : Layout) :
    ∀ (targets : List String) (s s1 : Server) (buffers strides buffers1 strides1 : List Nat),
      allocateTargets l s targets buffers strides = (s1, .ok (buffers1, strides1)) →
      s1 = { s with
              mBuffers := s.mBuffers ++ targets.map (targetBuffer l)
              mSceneMap := pushedSceneMap l s.mBuffers.length targets s.mSceneMap } ∧
        buffers1 = buffers ++ List.range' s.mBuffers.length targets.length ∧
        strides1 = strides ++ List.replicate targets.length (strideOf l 4 4) ∧
        (∀ target ∈ targets, targetKind target ≠ none) ∧
        (targets ≠ [] → bufferBytes 4 (layoutShape l 4) ≠ 0) := by
  intro targets
  induction targets with
  | nil =>
    intro s s1 buffers strides buffers1 strides1 h
    simp only [allocateTargets, Prod.mk.injEq, Except.ok.injEq] at h
    obtain ⟨rfl, rfl, rfl⟩ := h
    simp [pushedSceneMap_nil]
  | cons target rest ih =>
    intro s s1 buffers strides buffers1 strides1 h
    rcases allocateBuffer_kind s l target with hk | ⟨name, type, hk, hname, hb⟩
    · simp [allocateTargets, hk] at h
    · by_cases hz : bufferBytes 4 (layoutShape l 4) = 0
      · simp [allocateTargets, hk, hb, hz] at h
      · simp only [allocateTargets, hk, hb, hz, if_false] at h
        obtain ⟨h1, h2, h3, h4, _⟩ := ih _ _ _ _ _ _ h
        refine ⟨?_, ?_, ?_, ?_, fun _ => hz⟩
        · rw [h1, hname]
          simp only [pushFillInfo, List.length_append, List.length_singleton, List.map_cons,
            List.append_assoc, List.singleton_append, pushedSceneMap_cons]
        · rw [h2]
          simp [pushFillInfo, List.range'_succ]
        · rw [h3]
          simp [List.replicate_succ]
        · intro t ht
          rcases List.mem_cons.mp ht with rfl | ht
          · simp [hk]
          · exact h4 t ht
theorem allocateTargets_unrecognized (l : Layout) :
    ∀ (targets : List String) (s : Server) (buffers strides : List Nat),
      (∃ target ∈ targets, targetKind target = none) →
      ∃ s1 e, allocateTargets l s targets buffers strides = (s1, .error e) := by
  intro targets
  induction targets with
  | nil =>
    intro s buffers strides h
    obtain ⟨t, ht, _⟩ := h
    simp at ht
  | cons target rest ih =>
    intro s buffers strides h
    rcases allocateBuffer_kind s l target with hk | ⟨name, type, hk, _, hb⟩
    · simp only [allocateTargets, hk]
      exact ⟨_, _, rfl⟩
    · by_cases hz : bufferBytes 4 (layoutShape l 4) = 0
      · simp only [allocateTargets, hk, hb, hz, if_true]
        exact ⟨_, _, rfl⟩
      · simp only [allocateTargets, hk, hb, hz, if_false]
        apply ih
        obtain ⟨t, ht, hn⟩ := h
        rcases List.mem_cons.mp ht with rfl | ht
        · rw [hk] at hn
          cases hn
        · exact ⟨t, ht, hn⟩

theorem scanScenes_nonneg (s : Server) :
    0 ≤ (scanScenes s).maxSceneIndex ∧ 0 ≤ (scanScenes s).maxCameraCount ∧
      0 ≤ (scanScenes s).maxCameraWidth ∧ 0 ≤ (scanScenes s).maxCameraHeight := by
  rw [scanScenes_eq]
  simp only [le_foldl_max_iff, le_refl, true_or, and_self]

theorem toSizeT_of_nonneg (i : Int) (h : 0 ≤ i) : ((toSizeT i : Nat) : Int) = i := by
  unfold toSizeT
  simp [h]

theorem bufferBytes_layoutShape (l : Layout) (h0 : 0 ≤ l.maxSceneIndex)
    (h1 : 0 ≤ l.maxCameraCount) (h2 : 0 ≤ l.maxCameraWidth) (h3 : 0 ≤ l.maxCameraHeight) :
    ((bufferBytes 4 (layoutShape l 4) : Nat) : Int) =
      (l.maxSceneIndex + 1) * l.maxCameraCount * l.maxCameraHeight * l.maxCameraWidth * 4 * 4 := by
  simp only [bufferBytes, layoutShape, List.foldl_cons, List.foldl_nil, Nat.cast_mul]
  rw [toSizeT_of_nonneg (l.maxSceneIndex + 1) (by omega), toSizeT_of_nonneg _ h1,
    toSizeT_of_nonneg _ h2, toSizeT_of_nonneg _ h3, toSizeT_of_nonneg 4 (by norm_num)]
  ring

theorem autoAllocateBuffers_ok (s s1 : Server) (targets : List String) (buffers : List Nat)
    (h : autoAllocateBuffers s targets = (s1, .ok buffers)) :
    s.mBuffers = [] ∧ validateLayout (scanScenes s) = .ok () ∧
      s1 = { s with
              mBuffers := targets.map (targetBuffer (scanScenes s))
              mSceneMap := pushedSceneMap (scanScenes s) 0 targets s.mSceneMap
              mMaxCameraCount := (scanScenes s).maxCameraCount
              mRenderTargets := targets
              mRenderTargetBuffers := List.range' 0 targets.length
              mRenderTargetStrides :=
                List.replicate targets.length (strideOf (scanScenes s) 4 4) } ∧
      buffers = List.range' 0 targets.length ∧
      (∀ target ∈ targets, targetKind target ≠ none) ∧
      (targets ≠ [] → bufferBytes 4 (layoutShape (scanScenes s) 4) ≠ 0) := by
  unfold autoAllocateBuffers at h
  by_cases hb : s.mBuffers.length ≠ 0
  · simp [hb] at h
  · have hnil : s.mBuffers = [] := List.length_eq_zero.mp (not_not.mp hb)
    simp only [hb, if_false] at h
    cases hv : validateLayout (scanScenes s) with
    | error e => simp [hv] at h
    | ok u =>
      cases u
      simp only [hv] at h
      rcases hr : allocateTargets (scanScenes s) s targets [] [] with ⟨s2, r⟩
      rw [hr] at h
      cases r with
      | error e => simp at h
      | ok r =>
        obtain ⟨bufs, strs⟩ := r
        simp only [Prod.mk.injEq, Except.ok.injEq] at h
        obtain ⟨h1, h2, h3, h4, h5⟩ := allocateTargets_ok _ _ _ _ _ _ _ _ hr
        refine ⟨hnil, rfl, ?_, ?_, h4, h5⟩
        · rw [← h.1, h1, h2, h3, hnil]
          simp
        · rw [← h.2, h2, hnil]
          simp
/-- C3: after a successful call there is exactly one buffer per requested
target, returned in request order; the buffer of every target is the one the
constructor builds from its type string and the layout's shape, its byte size
is (maxSceneIndex + 1) * maxCameraCount * maxCameraHeight * maxCameraWidth * 4
* 4, and its type is "<f4" for colour and position, "<i4" for segmentation. -/
theorem autoAllocateBuffers_buffer_sizes (s s1 : Server) (targets : List String)
    (buffers : List Nat) (h : autoAllocateBuffers s targets = (s1, .ok buffers)) :
    s1.mBuffers.length = targets.length ∧ buffers = List.range targets.length ∧
    ∀ (t : Nat) (target : String), targets[t]? = some target →
      ∃ b, s1.mBuffers[t]? = some b ∧ buffers[t]? = some t ∧
        VulkanCudaBuffer.create b.mType (layoutShape (scanScenes s) 4) = .ok b ∧
        (b.mSize : Int) =
          ((scanScenes s).maxSceneIndex + 1) * (scanScenes s).maxCameraCount *
            (scanScenes s).maxCameraHeight * (scanScenes s).maxCameraWidth * 4 * 4 ∧
        (target = "color" ∨ target = "Color" ∨ target = "position" ∨ target = "Position" →
          b.mType = "<f4") ∧
        (target = "segmentation" ∨ target = "Segmentation" → b.mType = "<i4") ∧
        (target = "color" ∨ target = "Color" ∨ target = "position" ∨ target = "Position" ∨
          target = "segmentation" ∨ target = "Segmentation") := by
  obtain ⟨_, _, hs1, hbuf, hrec, hz⟩ := autoAllocateBuffers_ok s s1 targets buffers h
  obtain ⟨n0, n1, n2, n3⟩ := scanScenes_nonneg s
  have hlen : s1.mBuffers.length = targets.length := by rw [hs1]; simp
  have hrange : buffers = List.range targets.length := by
    rw [hbuf, List.range_eq_range']
  refine ⟨hlen, hrange, ?_⟩
  intro t target ht
  have htlt : t < targets.length := by
    rcases Nat.lt_or_ge t targets.length with hlt | hge
    · exact hlt
    · rw [List.getElem?_eq_none hge] at ht
      cases ht
  have hmem : target ∈ targets := List.getElem?_mem ht
  have hne : targets ≠ [] := List.ne_nil_of_mem hmem
  have hz1 := hz hne
  refine ⟨targetBuffer (scanScenes s) target, ?_, ?_, ?_, ?_, ?_⟩
  · rw [hs1]
    simp [List.getElem?_map, ht]
  · rw [hrange]
    simp [List.getElem?_range, htlt]
  · rcases targetKind_cases target with hk | hk | hk | hk
    · simp [targetBuffer, hk.1, create_f4, hz1]
    · simp [targetBuffer, hk.1, create_f4, hz1]
    · simp [targetBuffer, hk.1, create_i4, hz1]
    · exact absurd hk.1 (hrec target hmem)
  · exact bufferBytes_layoutShape _ n0 n1 n2 n3
  · refine ⟨?_, ?_, ?_⟩
    · rintro (rfl | rfl | rfl | rfl) <;> rfl
    · rintro (rfl | rfl) <;> rfl
    · rcases targetKind_cases target with hk | hk | hk | hk
      · tauto
      · tauto
      · tauto
      · exact absurd hk.1 (hrec target hmem)

theorem autoAllocateBuffers_buffer_sizes_witness :
    autoAllocateBuffers oneSmallCamera ["color", "Segmentation"] =
        ((autoAllocateBuffers oneSmallCamera ["color", "Segmentation"]).1, .ok [0, 1]) ∧
    (autoAllocateBuffers oneSmallCamera ["color", "Segmentation"]).1.mBuffers =
      [{ mType := "<f4", mShape := [1, 1, 480, 640, 4], mSize := 4915200 },
        { mType := "<i4", mShape := [1, 1, 480, 640, 4], mSize := 4915200 }] ∧
    (autoAllocateBuffers oneSmallCamera ["color", "Segmentation"]).1.mBuffers.length =
      ["color", "Segmentation"].length :=
  ⟨rfl, by decide,
    (autoAllocateBuffers_buffer_sizes oneSmallCamera _ ["color", "Segmentation"] [0, 1] rfl).1⟩
/-! ### The buffer list under requests -/

theorem generateShapeMaterials_mBuffers (materials : List Nat) :
    ∀ s : Server, (generateShapeMaterials s materials).1.mBuffers = s.mBuffers := by
  induction materials with
  | nil => intro s; rfl
  | cons m rest ih =>
    intro s
    simp only [generateShapeMaterials]
    rw [ih]
    rfl

theorem handle_mBuffers (s : Server) (req : Request)
    (h : (∀ targets, req ≠ Request.autoAllocateBuffers targets) ∨ s.mBuffers ≠ []) :
    (s.handle req).mBuffers = s.mBuffers := by
  cases req with
  | createScene index => rfl
  | removeScene id waitResult =>
    simp only [Server.handle, RemoveScene]
    split
    · rfl
    · split
      · rfl
      · simp only [updateObjectMaterialMap]
        split_ifs <;> rfl
  | createMaterial => rfl
  | removeMaterial id => rfl
  | addBodyMesh scene_id shapeCount =>
    simp only [Server.handle, AddBodyMesh]
    split <;> rfl
  | addBodyPrimitive scene_id type material =>
    simp only [Server.handle, AddBodyPrimitive]
    split
    · rfl
    · split
      · rfl
      · split <;> rfl
  | removeBody scene_id body_id =>
    simp only [Server.handle, RemoveBody]
    split
    · rfl
    · split <;> rfl
  | addCamera scene_id width height =>
    simp only [Server.handle, AddCamera]
    split <;> rfl
  | addLight scene_id =>
    simp only [Server.handle, AddLight]
    split <;> rfl
  | setEntityOrder scene_id body_ids camera_ids =>
    simp only [Server.handle, SetEntityOrder]
    split <;> rfl
  | updateRender scene_id body_poses camera_poses =>
    simp only [Server.handle, UpdateRender]
    split
    · rfl
    · split <;> rfl
  | updateRenderAndTakePictures scene_id body_poses camera_poses camera_ids =>
    simp only [Server.handle, UpdateRenderAndTakePictures]
    split
    · rfl
    · split <;> rfl
  | getShapeMaterial scene_id body_id index =>
    simp only [Server.handle, GetShapeMaterial]
    split
    · rfl
    · split
      · split <;> rfl
      · split
        · rfl
        · split <;> simp [generateShapeMaterials_mBuffers]
  | takePicture scene_id camera_id =>
    simp only [Server.handle, TakePicture]
    split
    · rfl
    · split <;> rfl
  | autoAllocateBuffers targets =>
    rcases h with h | h
    · exact absurd rfl (h targets)
    · have hl : s.mBuffers.length ≠ 0 := fun e => h (List.length_eq_zero.mp e)
      simp [Server.handle, autoAllocateBuffers, hl]

theorem run_mBuffers (requests : List Request) :
    ∀ s : Server, s.mBuffers ≠ [] → (s.run requests).mBuffers = s.mBuffers := by
  induction requests with
  | nil => intro s _; rfl
  | cons req rest ih =>
    intro s h
    have h1 := handle_mBuffers s req (Or.inr h)
    simp only [Server.run, List.foldl_cons]
    have h2 := ih (s.handle req) (by rw [h1]; exact h)
    simp only [Server.run] at h2
    rw [h2, h1]

/-- C4 (as stated, refuted): after a successful call with an empty target
list, a second call succeeds as well. -/
theorem autoAllocateBuffers_twice_after_empty :
    autoAllocateBuffers oneSmallCamera [] =
      ((autoAllocateBuffers oneSmallCamera []).1, .ok []) ∧
    (autoAllocateBuffers (autoAllocateBuffers oneSmallCamera []).1 ["color"]).2 = .ok [0] ∧
    (autoAllocateBuffers (autoAllocateBuffers oneSmallCamera []).1 ["color"]).1.fillInfo? 1 2 =
      some [{ name := "Color", buffer := 0, offset := 0 }] :=
  ⟨rfl, rfl, by decide⟩

/-- C4 (amended): once a call with a non-empty target list has returned
successfully, every later call, after any requests in between and with any
target list, raises and returns the server state as it was. -/
theorem autoAllocateBuffers_one_shot (s s1 : Server) (targets : List String)
    (buffers : List Nat) (hne : targets ≠ [])
    (h : autoAllocateBuffers s targets = (s1, .ok buffers))
    (requests : List Request) (targets2 : List String) :
    autoAllocateBuffers (s1.run requests) targets2 =
      (s1.run requests,
        .error (Fault.runtimeError "auto allocate buffers must to be called twice")) := by
  obtain ⟨_, _, hs1, _, _, _⟩ := autoAllocateBuffers_ok s s1 targets buffers h
  have hb : s1.mBuffers ≠ [] := by
    rw [hs1]
    simpa using hne
  have hr : (s1.run requests).mBuffers.length ≠ 0 := by
    rw [run_mBuffers requests s1 hb]
    exact fun e => hb (List.length_eq_zero.mp e)
  simp [autoAllocateBuffers, hr]

theorem autoAllocateBuffers_one_shot_witness :
    autoAllocateBuffers
        ((autoAllocateBuffers oneSmallCamera ["color"]).1.run [Request.addCamera 1 8 8])
        ["position"] =
      ((autoAllocateBuffers oneSmallCamera ["color"]).1.run [Request.addCamera 1 8 8],
        .error (Fault.runtimeError "auto allocate buffers must to be called twice")) :=
  autoAllocateBuffers_one_shot oneSmallCamera _ ["color"] [0] (by decide) rfl
    [Request.addCamera 1 8 8] ["position"]
/-! ### Validation -/

theorem scanScenes_upper (s : Server) :
    (∀ sc ∈ s.scenes, (sc.sceneIndex : Int) ≤ (scanScenes s).maxSceneIndex) ∧
    (∀ sc ∈ s.scenes, (sc.cameraMap.length : Int) ≤ (scanScenes s).maxCameraCount) ∧
    (∀ c ∈ s.cameras, (c.width : Int) ≤ (scanScenes s).maxCameraWidth) ∧
    (∀ c ∈ s.cameras, (c.height : Int) ≤ (scanScenes s).maxCameraHeight) ∧
    (∀ c ∈ s.cameras, (scanScenes s).minCameraWidth ≤ (c.width : Int)) ∧
    (∀ c ∈ s.cameras, (scanScenes s).minCameraHeight ≤ (c.height : Int)) := by
  rw [scanScenes_eq]
  refine ⟨?_, ?_, ?_, ?_, ?_, ?_⟩
  · intro sc hsc
    exact (le_foldl_max_iff _ _ _).mpr (Or.inr ⟨_, List.mem_map.mpr ⟨sc, hsc, rfl⟩, le_refl _⟩)
  · intro sc hsc
    exact (le_foldl_max_iff _ _ _).mpr (Or.inr ⟨_, List.mem_map.mpr ⟨sc, hsc, rfl⟩, le_refl _⟩)
  · intro c hc
    exact (le_foldl_max_iff _ _ _).mpr (Or.inr ⟨_, List.mem_map.mpr ⟨c, hc, rfl⟩, le_refl _⟩)
  · intro c hc
    exact (le_foldl_max_iff _ _ _).mpr (Or.inr ⟨_, List.mem_map.mpr ⟨c, hc, rfl⟩, le_refl _⟩)
  · intro c hc
    exact (foldl_min_le_iff _ _ _).mpr (Or.inr ⟨_, List.mem_map.mpr ⟨c, hc, rfl⟩, le_refl _⟩)
  · intro c hc
    exact (foldl_min_le_iff _ _ _).mpr (Or.inr ⟨_, List.mem_map.mpr ⟨c, hc, rfl⟩, le_refl _⟩)

/-- C7: with the targets "color", "depth" the call raises at "depth" after the
buffer for "color" has been pushed on `mBuffers` and its entry appended to the
camera's fill info; a retry with a valid list is then refused. -/
theorem autoAllocateBuffers_partial_on_unrecognized :
    oneSmallCamera.mBuffers = [] ∧ oneSmallCamera.fillInfo? 1 2 = some [] ∧
    (autoAllocateBuffers oneSmallCamera ["color", "depth"]).2 =
      .error (Fault.runtimeError "Target type depth is not implemented") ∧
    (autoAllocateBuffers oneSmallCamera ["color", "depth"]).1.mBuffers =
      [{ mType := "<f4", mShape := [1, 1, 480, 640, 4], mSize := 4915200 }] ∧
    (autoAllocateBuffers oneSmallCamera ["color", "depth"]).1.fillInfo? 1 2 =
      some [{ name := "Color", buffer := 0, offset := 0 }] ∧
    (autoAllocateBuffers (autoAllocateBuffers oneSmallCamera ["color", "depth"]).1 ["color"]).2 =
      .error (Fault.runtimeError "auto allocate buffers must to be called twice") :=
  ⟨by decide, by decide, rfl, by decide, by decide, rfl⟩
/-! ### Registries -/

theorem IdMap.get?_set_self {α : Type} (m : IdMap α) (k : rs_id_t) (v : α) :
    (m.set k v).get? k = some v := by
  induction m with
  | nil => simp [IdMap.set, IdMap.get?]
  | cons kv rest ih =>
    obtain ⟨k1, v1⟩ := kv
    by_cases h : k1 = k
    · simp [IdMap.set, IdMap.get?, h]
    · simp [IdMap.set, IdMap.get?, h, ih]

theorem IdMap.get?_set_ne {α : Type} (m : IdMap α) (k k2 : rs_id_t) (v : α) (hne : k2 ≠ k) :
    (m.set k v).get? k2 = m.get? k2 := by
  induction m with
  | nil =>
    have : ¬ k = k2 := fun e => hne e.symm
    simp [IdMap.set, IdMap.get?, this]
  | cons kv rest ih =>
    obtain ⟨k1, v1⟩ := kv
    by_cases h : k1 = k
    · have : ¬ k1 = k2 := fun e => hne (e.symm.trans h)
      subst h
      simp [IdMap.set, IdMap.get?, this]
    · by_cases h2 : k1 = k2
      · subst h2
        simp only [IdMap.set, h, if_false, IdMap.get?, if_true]
      · simp only [IdMap.set, h, if_false, IdMap.get?, h2]
        exact ih

theorem IdMap.mem_of_get? {α : Type} (m : IdMap α) (k : rs_id_t) (v : α)
    (h : m.get? k = some v) : (k, v) ∈ m := by
  induction m with
  | nil => simp [IdMap.get?] at h
  | cons kv rest ih =>
    obtain ⟨k1, v1⟩ := kv
    by_cases h1 : k1 = k
    · simp only [IdMap.get?, h1, if_true, Option.some.injEq] at h
      subst h1 h
      exact List.mem_cons_self _ _
    · simp only [IdMap.get?, h1, if_false] at h
      exact List.mem_cons_of_mem _ (ih h)

theorem IdMap.mem_set {α : Type} (m : IdMap α) (k : rs_id_t) (v : α) (kv : rs_id_t × α)
    (h : kv ∈ m.set k v) : kv ∈ m ∨ kv = (k, v) := by
  induction m with
  | nil =>
    simp only [IdMap.set, List.mem_singleton] at h
    exact Or.inr h
  | cons e rest ih =>
    obtain ⟨k1, v1⟩ := e
    by_cases h1 : k1 = k
    · simp only [IdMap.set, h1, if_true, List.mem_cons] at h
      rcases h with h | h
      · exact Or.inr h
      · exact Or.inl (List.mem_cons_of_mem _ h)
    · simp only [IdMap.set, h1, if_false, List.mem_cons] at h
      rcases h with h | h
      · exact Or.inl (by rw [h]; exact List.mem_cons_self _ _)
      · rcases ih h with h2 | h2
        · exact Or.inl (List.mem_cons_of_mem _ h2)
        · exact Or.inr h2

theorem IdMap.mem_erase {α : Type} (m : IdMap α) (k : rs_id_t) (kv : rs_id_t × α)
    (h : kv ∈ m.erase k) : kv ∈ m := by
  unfold IdMap.erase at h
  exact (List.mem_filter.mp h).1

theorem IdMap.get?_map {α β : Type} (m : IdMap α) (f : α → β) (k : rs_id_t) :
    IdMap.get? (m.map fun kv => (kv.1, f kv.2)) k = (m.get? k).map f := by
  induction m with
  | nil => simp [IdMap.get?]
  | cons kv rest ih =>
    obtain ⟨k1, v1⟩ := kv
    by_cases h : k1 = k
    · simp [IdMap.get?, h]
    · simp only [List.map_cons, IdMap.get?, h, if_false]
      exact ih

theorem IdMap.map_set {α β : Type} (m : IdMap α) (f : α → β) (k : rs_id_t) (v : α) :
    (IdMap.set m k v).map (fun kv => (kv.1, f kv.2)) =
      IdMap.set (m.map fun kv => (kv.1, f kv.2)) k (f v) := by
  induction m with
  | nil => simp [IdMap.set]
  | cons kv rest ih =>
    obtain ⟨k1, v1⟩ := kv
    by_cases h : k1 = k
    · simp [IdMap.set, h]
    · simp only [IdMap.set, h, if_false, List.map_cons, List.cons.injEq, true_and]
      exact ih

theorem IdMap.set_same {α : Type} (m : IdMap α) (k : rs_id_t) (v : α)
    (h : m.get? k = some v) : IdMap.set m k v = m := by
  induction m with
  | nil => simp [IdMap.get?] at h
  | cons kv rest ih =>
    obtain ⟨k1, v1⟩ := kv
    by_cases h1 : k1 = k
    · simp only [IdMap.get?, h1, if_true, Option.some.injEq] at h
      simp [IdMap.set, h1, h]
    · simp only [IdMap.get?, h1, if_false] at h
      simp [IdMap.set, h1, ih h]

theorem IdMap.map_erase {α β : Type} (m : IdMap α) (f : α → β) (k : rs_id_t) :
    (IdMap.erase m k).map (fun kv => (kv.1, f kv.2)) =
      IdMap.erase (m.map fun kv => (kv.1, f kv.2)) k := by
  unfold IdMap.erase
  rw [List.filter_map]
  rfl

/-! ### The pacing state under requests -/

theorem pacing_eq (s : Server) (m : IdMap SceneInfo) : 
    Server.pacing { s with mSceneMap := m } = m.map fun kv => (kv.1, kv.2.pacing) := rfl

theorem pacing_set (m : IdMap SceneInfo) (k : rs_id_t) (sc : SceneInfo) :
    (IdMap.set m k sc).map (fun kv => (kv.1, kv.2.pacing)) =
      IdMap.set (m.map fun kv => (kv.1, kv.2.pacing)) k sc.pacing :=
  IdMap.map_set m SceneInfo.pacing k sc

theorem pacing_set_same (m : IdMap SceneInfo) (k : rs_id_t) (sc sc1 : SceneInfo)
    (hget : m.get? k = some sc) (h : sc1.pacing = sc.pacing) :
    (IdMap.set m k sc1).map (fun kv => (kv.1, kv.2.pacing)) =
      m.map fun kv => (kv.1, kv.2.pacing) := by
  rw [pacing_set, h]
  apply IdMap.set_same
  rw [IdMap.get?_map, hget]
  rfl
theorem pacing_update_same (s s1 : Server) (k : rs_id_t) (sc sc1 : SceneInfo)
    (hm : s1.mSceneMap = IdMap.set s.mSceneMap k sc1) (hget : s.mSceneMap.get? k = some sc)
    (h : sc1.pacing = sc.pacing) : s1.pacing = s.pacing := by
  unfold Server.pacing
  rw [hm]
  exact pacing_set_same _ _ _ _ hget h

theorem pacing_update (s s1 : Server) (k : rs_id_t) (sc1 : SceneInfo)
    (hm : s1.mSceneMap = IdMap.set s.mSceneMap k sc1) :
    s1.pacing = IdMap.set s.pacing k sc1.pacing := by
  unfold Server.pacing
  rw [hm]
  exact pacing_set _ _ _

theorem pacing_get? (s : Server) (k : rs_id_t) :
    s.pacing.get? k = (s.mSceneMap.get? k).map SceneInfo.pacing :=
  IdMap.get?_map s.mSceneMap SceneInfo.pacing k

theorem takePictures_pacing :
    ∀ (ids : List rs_id_t) (sc : SceneInfo),
      (takePictures sc ids).1.pacing = pacePictures sc.pacing ids := by
  intro ids
  induction ids with
  | nil => intro sc; rfl
  | cons id rest ih =>
    intro sc
    have hg : sc.pacing.1.get? id = (sc.cameraMap.get? id).map CameraInfo.frameCounter :=
      IdMap.get?_map sc.cameraMap CameraInfo.frameCounter id
    rcases hc : sc.cameraMap.get? id with _ | cam
    · simp only [takePictures, hc, pacePictures, hg, Option.map_none']
    · simp only [takePictures, hc, pacePictures, hg, Option.map_some']
      rw [ih]
      congr 1
      simp only [SceneInfo.pacing, List.map_append, List.map_cons, List.map_nil,
        PictureTask.camera, PictureTask.frame]
      rw [IdMap.map_set sc.cameraMap CameraInfo.frameCounter]

theorem updatePoses_pacing (info info1 : SceneInfo) (bp cp : List Pose)
    (h : updatePoses info bp cp = .ok info1) : info1.pacing = info.pacing := by
  unfold updatePoses at h
  split at h
  · cases h
  · split at h
    · cases h
    · cases h
      rfl

theorem generateShapeMaterials_mSceneMap (materials : List Nat) :
    ∀ s : Server, (generateShapeMaterials s materials).1.mSceneMap = s.mSceneMap := by
  induction materials with
  | nil => intro s; rfl
  | cons m rest ih =>
    intro s
    simp only [generateShapeMaterials]
    rw [ih]
    rfl

theorem generateShapeMaterials_nextId (materials : List Nat) :
    ∀ s : Server, s.nextId ≤ (generateShapeMaterials s materials).1.nextId := by
  induction materials with
  | nil => intro s; exact le_refl _
  | cons m rest ih =>
    intro s
    simp only [generateShapeMaterials]
    refine le_trans ?_ (ih _)
    simp [generateId]

theorem pushFillInfo_pacing (s : Server) (target : String) (buffer : Nat) (count : Int)
    (stride : Nat) : (pushFillInfo s target buffer count stride).pacing = s.pacing := by
  simp [Server.pacing, pushFillInfo, pushFillInfoScene, SceneInfo.pacing, List.map_map,
    Function.comp]

theorem allocateTargets_pacing (l : Layout) :
    ∀ (targets : List String) (s : Server) (buffers strides : List Nat),
      (allocateTargets l s targets buffers strides).1.pacing = s.pacing ∧
      (allocateTargets l s targets buffers strides).1.nextId = s.nextId := by
  intro targets
  induction targets with
  | nil => intro s buffers strides; exact ⟨rfl, rfl⟩
  | cons target rest ih =>
    intro s buffers strides
    rcases allocateBuffer_kind s l target with hk | ⟨name, type, hk, _, hb⟩
    · simp only [allocateTargets, hk]
      exact ⟨trivial, trivial⟩
    · by_cases hz : bufferBytes 4 (layoutShape l 4) = 0
      · simp only [allocateTargets, hk, hb, hz, if_true]
        exact ⟨trivial, trivial⟩
      · simp only [allocateTargets, hk, hb, hz, if_false]
        obtain ⟨h1, h2⟩ := ih (pushFillInfo { s with mBuffers := s.mBuffers ++ [targetBuffer l target] }
          name s.mBuffers.length l.maxCameraCount (strideOf l 4 4)) (buffers ++ [s.mBuffers.length])
          (strides ++ [strideOf l 4 4])
        rw [h1, h2, pushFillInfo_pacing]
        exact ⟨rfl, rfl⟩

theorem autoAllocateBuffers_pacing (s : Server) (targets : List String) :
    (autoAllocateBuffers s targets).1.pacing = s.pacing ∧
    (autoAllocateBuffers s targets).1.nextId = s.nextId := by
  unfold autoAllocateBuffers
  by_cases hb : s.mBuffers.length ≠ 0
  · rw [if_pos hb]
    exact ⟨rfl, rfl⟩
  · rw [if_neg hb]
    rcases hv : validateLayout (scanScenes s) with e | u
    · simp only [hv]
      exact ⟨trivial, trivial⟩
    · simp only [hv]
      obtain ⟨h1, h2⟩ := allocateTargets_pacing (scanScenes s) targets s [] []
      rcases hr : allocateTargets (scanScenes s) s targets [] [] with ⟨s1, r⟩
      rw [hr] at h1 h2
      rcases r with e | ⟨bufs, strs⟩
      · exact ⟨h1, h2⟩
      · exact ⟨h1, h2⟩
theorem handle_pacing (s : Server) (req : Request) :
    s.nextId ≤ (s.handle req).nextId ∧ PacingStep s (s.handle req) := by
  cases req with
  | createScene index =>
    refine ⟨by simp [Server.handle, CreateScene, generateId], PacingStep.created ?_⟩
    exact pacing_update s _ s.nextId (SceneInfo.fresh index s.nextId) rfl
  | removeScene id waitResult =>
    rcases hget : s.mSceneMap.get? id with _ | info
    · simp only [Server.handle, RemoveScene, hget]
      exact ⟨le_refl _, PacingStep.same rfl⟩
    · rcases hslot : s.mSceneList[info.sceneIndex]? with _ | slot
      · simp only [Server.handle, RemoveScene, hget, hslot]
        exact ⟨le_refl _, PacingStep.same rfl⟩
      · simp only [Server.handle, RemoveScene, hget, hslot]
        refine ⟨?_, PacingStep.removed id ?_⟩
        · simp only [updateObjectMaterialMap]
          split_ifs <;> exact le_refl _
        · simp only [updateObjectMaterialMap, Server.pacing]
          split_ifs <;> exact IdMap.map_erase _ SceneInfo.pacing id
  | createMaterial =>
    exact ⟨by simp [Server.handle, CreateMaterial, generateId], PacingStep.same rfl⟩
  | removeMaterial id => exact ⟨le_refl _, PacingStep.same rfl⟩
  | addBodyMesh scene_id shapeCount =>
    rcases hget : s.mSceneMap.get? scene_id with _ | info
    · simp only [Server.handle, AddBodyMesh, generateId, hget]
      exact ⟨Nat.le_succ _, PacingStep.same rfl⟩
    · simp only [Server.handle, AddBodyMesh, generateId, hget]
      exact ⟨Nat.le_succ _,
        PacingStep.same (pacing_update_same s _ scene_id info _ rfl hget rfl)⟩
  | addBodyPrimitive scene_id type material =>
    rcases hm : getMaterial (generateId s).2 material with e | mat
    · simp only [Server.handle, AddBodyPrimitive, hm]
      exact ⟨Nat.le_succ _, PacingStep.same rfl⟩
    · rcases hget : s.mSceneMap.get? scene_id with _ | info
      · have hget1 : (generateId s).2.mSceneMap.get? scene_id = none := hget
        simp only [Server.handle, AddBodyPrimitive, hm, hget1]
        exact ⟨Nat.le_succ _, PacingStep.same rfl⟩
      · have hget1 : (generateId s).2.mSceneMap.get? scene_id = some info := hget
        simp only [Server.handle, AddBodyPrimitive, hm, hget1]
        cases type <;>
          first
          | exact ⟨Nat.le_succ _,
              PacingStep.same (pacing_update_same s _ scene_id info _ rfl hget rfl)⟩
          | exact ⟨Nat.le_succ _, PacingStep.same rfl⟩
  | removeBody scene_id body_id =>
    rcases hget : s.mSceneMap.get? scene_id with _ | info
    · simp only [Server.handle, RemoveBody, hget]
      exact ⟨le_refl _, PacingStep.same rfl⟩
    · rcases ho : info.objectMap.get? body_id with _ | object
      · simp only [Server.handle, RemoveBody, hget, ho]
        exact ⟨le_refl _, PacingStep.same rfl⟩
      · cases object with
        | none =>
          simp only [Server.handle, RemoveBody, hget, ho]
          exact ⟨le_refl _, PacingStep.same rfl⟩
        | some node =>
          simp only [Server.handle, RemoveBody, hget, ho]
          exact ⟨le_refl _,
            PacingStep.same (pacing_update_same s _ scene_id info _ rfl hget rfl)⟩
  | addCamera scene_id width height =>
    rcases hget : s.mSceneMap.get? scene_id with _ | info
    · simp only [Server.handle, AddCamera, generateId, hget]
      exact ⟨Nat.le_succ _, PacingStep.same rfl⟩
    · simp only [Server.handle, AddCamera, generateId, hget]
      refine ⟨Nat.le_succ _, PacingStep.camera scene_id info.pacing ?_ ?_ (Nat.lt_succ_self _)⟩
      · rw [pacing_get?, hget]
        rfl
      · rw [pacing_update s _ scene_id _ rfl]
        simp only [SceneInfo.pacing, SceneInfo.addNode]
        rw [IdMap.map_set info.cameraMap CameraInfo.frameCounter]
  | addLight scene_id =>
    rcases hget : s.mSceneMap.get? scene_id with _ | info
    · simp only [Server.handle, AddLight, generateId, hget]
      exact ⟨Nat.le_succ _, PacingStep.same rfl⟩
    · simp only [Server.handle, AddLight, generateId, hget]
      exact ⟨Nat.le_succ _, PacingStep.same rfl⟩
  | setEntityOrder scene_id body_ids camera_ids =>
    rcases hget : s.mSceneMap.get? scene_id with _ | info
    · simp only [Server.handle, SetEntityOrder, hget]
      exact ⟨le_refl _, PacingStep.same rfl⟩
    · simp only [Server.handle, SetEntityOrder, hget]
      exact ⟨le_refl _, PacingStep.same (pacing_update_same s _ scene_id info _ rfl hget rfl)⟩
  | updateRender scene_id body_poses camera_poses =>
    rcases hget : s.mSceneMap.get? scene_id with _ | info
    · simp only [Server.handle, UpdateRender, hget]
      exact ⟨le_refl _, PacingStep.same rfl⟩
    · rcases hp : updatePoses info body_poses camera_poses with e | info1
      · simp only [Server.handle, UpdateRender, hget, hp]
        exact ⟨le_refl _, PacingStep.same rfl⟩
      · simp only [Server.handle, UpdateRender, hget, hp]
        exact ⟨le_refl _, PacingStep.same
          (pacing_update_same s _ scene_id info _ rfl hget (updatePoses_pacing _ _ _ _ hp))⟩
  | updateRenderAndTakePictures scene_id body_poses camera_poses camera_ids =>
    rcases hget : s.mSceneMap.get? scene_id with _ | info
    · simp only [Server.handle, UpdateRenderAndTakePictures, hget]
      exact ⟨le_refl _, PacingStep.same rfl⟩
    · rcases hp : updatePoses info body_poses camera_poses with e | info1
      · simp only [Server.handle, UpdateRenderAndTakePictures, hget, hp]
        exact ⟨le_refl _, PacingStep.same rfl⟩
      · simp only [Server.handle, UpdateRenderAndTakePictures, hget, hp]
        refine ⟨le_refl _, PacingStep.pictures scene_id info.pacing camera_ids ?_ ?_⟩
        · rw [pacing_get?, hget]
          rfl
        · rw [pacing_update s _ scene_id _ rfl, takePictures_pacing,
            updatePoses_pacing _ _ _ _ hp]
  | getShapeMaterial scene_id body_id index =>
    rcases hget : s.mSceneMap.get? scene_id with _ | info
    · simp only [Server.handle, GetShapeMaterial, hget]
      exact ⟨le_refl _, PacingStep.same rfl⟩
    · rcases hm : info.objectMaterialIdMap.get? body_id with _ | mat_ids
      · rcases ho : info.objectMap.get? body_id with _ | object
        · simp only [Server.handle, GetShapeMaterial, hget, hm, ho]
          exact ⟨le_refl _, PacingStep.same rfl⟩
        · simp only [Server.handle, GetShapeMaterial, hget, hm, ho]
          have hmap := generateShapeMaterials_mSceneMap (objectShapes info object) s
          have hn := generateShapeMaterials_nextId (objectShapes info object) s
          split <;>
          · exact ⟨hn, PacingStep.same (pacing_update_same s _ scene_id info
              { info with
                objectMaterialIdMap := info.objectMaterialIdMap.set body_id
                  (generateShapeMaterials s (objectShapes info object)).2 }
              (congrArg (fun m => IdMap.set m scene_id _) hmap) hget rfl)⟩
      · simp only [Server.handle, GetShapeMaterial, hget, hm]
        split <;> exact ⟨le_refl _, PacingStep.same rfl⟩
  | takePicture scene_id camera_id =>
    rcases hget : s.mSceneMap.get? scene_id with _ | info
    · simp only [Server.handle, TakePicture, hget]
      exact ⟨le_refl _, PacingStep.same rfl⟩
    · rcases hc : info.cameraMap.get? camera_id with _ | cam
      · simp only [Server.handle, TakePicture, hget, hc]
        exact ⟨le_refl _, PacingStep.same rfl⟩
      · simp only [Server.handle, TakePicture, hget, hc]
        refine ⟨le_refl _, PacingStep.pictures scene_id info.pacing [camera_id] ?_ ?_⟩
        · rw [pacing_get?, hget]
          rfl
        · rw [pacing_update s _ scene_id _ rfl]
          have hg : info.pacing.1.get? camera_id = some cam.frameCounter := by
            have := IdMap.get?_map info.cameraMap CameraInfo.frameCounter camera_id
            rw [hc] at this
            exact this
          simp only [pacePictures, hg]
          simp only [SceneInfo.pacing, List.map_append, List.map_cons, List.map_nil,
            PictureTask.camera, PictureTask.frame]
          rw [IdMap.map_set info.cameraMap CameraInfo.frameCounter]
  | autoAllocateBuffers targets =>
    obtain ⟨h1, h2⟩ := autoAllocateBuffers_pacing s targets
    exact ⟨by simp [Server.handle, h2], PacingStep.same h1⟩
/-! ### The pacing invariant -/

theorem IdMap.get?_erase {α : Type} (m : IdMap α) (k k2 : rs_id_t) :
    (IdMap.erase m k).get? k2 = if k2 = k then none else m.get? k2 := by
  unfold IdMap.erase
  induction m with
  | nil => simp [IdMap.get?]
  | cons kv rest ih =>
    obtain ⟨k1, v1⟩ := kv
    by_cases h1 : k1 = k
    · have hd : decide ((k1, v1).1 ≠ k) = false := by simp [h1]
      rw [List.filter_cons, hd]
      simp only [Bool.false_eq_true, if_false]
      rw [ih]
      by_cases h2 : k2 = k
      · simp only [h2, if_true]
      · have h3 : ¬ k1 = k2 := fun e => h2 (e.symm.trans h1)
        simp only [h2, if_false, IdMap.get?, h3]
    · have hd : decide ((k1, v1).1 ≠ k) = true := by simp [h1]
      rw [List.filter_cons, hd]
      simp only [if_true, IdMap.get?]
      by_cases h2 : k1 = k2
      · have h3 : ¬ k2 = k := fun e => h1 (h2.trans e)
        simp only [h2, if_true, h3, if_false]
      · simp only [h2, if_false]
        exact ih

theorem queuedFrames_append (tasks : List (rs_id_t × Nat)) (c camera : rs_id_t) (n : Nat) :
    queuedFrames (tasks ++ [(c, n)]) camera =
      if c = camera then queuedFrames tasks camera ++ [n] else queuedFrames tasks camera := by
  unfold queuedFrames
  by_cases h : c = camera
  · simp [List.filter_append, h]
  · simp [List.filter_append, h]

theorem queuedFrames_nil_of_bound (tasks : List (rs_id_t × Nat)) (camera : rs_id_t)
    (h : ∀ task ∈ tasks, task.1 < camera) : queuedFrames tasks camera = [] := by
  unfold queuedFrames
  rw [List.map_eq_nil_iff, List.filter_eq_nil_iff]
  intro task ht
  simp only [decide_eq_true_eq]
  exact Nat.ne_of_lt (h task ht)

theorem PacedScene.mono {b b1 : Nat} {p : IdMap Nat × List (rs_id_t × Nat)}
    (h : PacedScene b p) (hb : b ≤ b1) : PacedScene b1 p :=
  ⟨fun kv hkv => lt_of_lt_of_le (h.1 kv hkv) hb,
    fun t ht => lt_of_lt_of_le (h.2.1 t ht) hb, h.2.2.1, h.2.2.2⟩

theorem PacedScene.picture {b : Nat} {p : IdMap Nat × List (rs_id_t × Nat)}
    (h : PacedScene b p) (camera : rs_id_t) (n : Nat) (hget : p.1.get? camera = some n) :
    PacedScene b (IdMap.set p.1 camera (n + 1), p.2 ++ [(camera, n + 1)]) := by
  have hmem := IdMap.mem_of_get? _ _ _ hget
  have hlt : camera < b := h.1 _ hmem
  refine ⟨?_, ?_, ?_, ?_⟩
  · intro kv hkv
    rcases IdMap.mem_set _ _ _ _ hkv with h1 | h1
    · exact h.1 kv h1
    · rw [h1]
      exact hlt
  · intro t ht
    rcases List.mem_append.mp ht with h1 | h1
    · exact h.2.1 t h1
    · rw [List.mem_singleton.mp h1]
      exact hlt
  · intro t ht
    rcases List.mem_append.mp ht with h1 | h1
    · exact h.2.2.1 t h1
    · rw [List.mem_singleton.mp h1]
      exact Nat.le_add_left 1 n
  · intro c m hc
    simp only at hc ⊢
    rw [queuedFrames_append]
    by_cases hcc : camera = c
    · subst hcc
      rw [IdMap.get?_set_self] at hc
      cases hc
      rw [if_pos rfl, h.2.2.2 camera n hget, List.range'_concat]
      simp [Nat.add_comm]
    · rw [IdMap.get?_set_ne _ _ _ _ (fun e => hcc e.symm)] at hc
      rw [if_neg hcc]
      exact h.2.2.2 c m hc

theorem PacedScene.pictures {b : Nat} :
    ∀ (ids : List rs_id_t) (p : IdMap Nat × List (rs_id_t × Nat)),
      PacedScene b p → PacedScene b (pacePictures p ids) := by
  intro ids
  induction ids with
  | nil => intro p h; exact h
  | cons id rest ih =>
    intro p h
    rcases hg : p.1.get? id with _ | n
    · simp only [pacePictures, hg]
      exact h
    · simp only [pacePictures, hg]
      exact ih _ (h.picture id n hg)

theorem pacePictures_mono :
    ∀ (ids : List rs_id_t) (p : IdMap Nat × List (rs_id_t × Nat)) (camera : rs_id_t) (n : Nat),
      p.1.get? camera = some n →
      ∃ m, (pacePictures p ids).1.get? camera = some m ∧ n ≤ m := by
  intro ids
  induction ids with
  | nil => intro p camera n h; exact ⟨n, h, le_refl _⟩
  | cons id rest ih =>
    intro p camera n h
    rcases hg : p.1.get? id with _ | k
    · simp only [pacePictures, hg]
      exact ⟨n, h, le_refl _⟩
    · simp only [pacePictures, hg]
      by_cases hc : camera = id
      · subst hc
        rw [h] at hg
        cases hg
        obtain ⟨m, hm, hle⟩ := ih (IdMap.set p.1 camera (n + 1), p.2 ++ [(camera, n + 1)])
          camera (n + 1) (IdMap.get?_set_self _ _ _)
        exact ⟨m, hm, by omega⟩
      · exact ih _ camera n (by simp only; rw [IdMap.get?_set_ne _ _ _ _ hc]; exact h)

theorem pacePictures_count :
    ∀ (ids : List rs_id_t) (p : IdMap Nat × List (rs_id_t × Nat)),
      (∀ id ∈ ids, p.1.get? id ≠ none) →
      ∀ camera, (pacePictures p ids).1.get? camera =
        (p.1.get? camera).map fun n => n + ids.count camera := by
  intro ids
  induction ids with
  | nil =>
    intro p _ camera
    simp [pacePictures]
  | cons id rest ih =>
    intro p hall camera
    rcases hg : p.1.get? id with _ | k
    · exact absurd hg (hall id (List.mem_cons_self _ _))
    · simp only [pacePictures, hg]
      rw [ih]
      · by_cases hc : camera = id
        · subst hc
          simp only [IdMap.get?_set_self, hg, Option.map_some', List.count_cons_self]
          congr 1
          omega
        · rw [List.count_cons_of_ne hc]
          simp only [IdMap.get?_set_ne _ _ _ _ hc]
      · intro id2 hid2
        by_cases hc : id2 = id
        · subst hc
          simp [IdMap.get?_set_self]
        · simp only [IdMap.get?_set_ne _ _ _ _ hc]
          exact hall id2 (List.mem_cons_of_mem _ hid2)

theorem paced_empty : Server.empty.Paced := by
  intro kv hkv
  simp [Server.pacing, Server.empty] at hkv

theorem paced_handle (s : Server) (req : Request) (h : s.Paced) : (s.handle req).Paced := by
  obtain ⟨hn, hstep⟩ := handle_pacing s req
  intro kv hkv
  cases hstep with
  | same e =>
    rw [e] at hkv
    exact (h kv hkv).mono hn
  | created e =>
    rw [e] at hkv
    rcases IdMap.mem_set _ _ _ _ hkv with h1 | h1
    · exact (h kv h1).mono hn
    · rw [h1]
      exact ⟨by simp, by simp, by simp, by simp [IdMap.get?]⟩
  | removed id e =>
    rw [e] at hkv
    exact (h kv (IdMap.mem_erase _ _ _ hkv)).mono hn
  | camera sid p hget e hlt =>
    rw [e] at hkv
    rcases IdMap.mem_set _ _ _ _ hkv with h1 | h1
    · exact (h kv h1).mono hn
    · rw [h1]
      have hp : PacedScene s.nextId p := h _ (IdMap.mem_of_get? _ _ _ hget)
      refine ⟨?_, ?_, hp.2.2.1, ?_⟩
      · intro c hc
        rcases IdMap.mem_set _ _ _ _ hc with h2 | h2
        · exact lt_of_lt_of_le (hp.1 c h2) hn
        · rw [h2]
          exact hlt
      · intro t ht
        exact lt_of_lt_of_le (hp.2.1 t ht) hn
      · intro c m hc
        simp only at hc ⊢
        by_cases hcc : c = s.nextId
        · subst hcc
          rw [IdMap.get?_set_self] at hc
          cases hc
          rw [queuedFrames_nil_of_bound _ _ hp.2.1]
          rfl
        · rw [IdMap.get?_set_ne _ _ _ _ hcc] at hc
          exact hp.2.2.2 c m hc
  | pictures sid p ids hget e =>
    rw [e] at hkv
    rcases IdMap.mem_set _ _ _ _ hkv with h1 | h1
    · exact (h kv h1).mono hn
    · rw [h1]
      have hp : PacedScene s.nextId p := h _ (IdMap.mem_of_get? _ _ _ hget)
      exact (PacedScene.pictures ids p hp).mono hn

theorem paced_run (requests : List Request) :
    ∀ s : Server, s.Paced → (s.run requests).Paced := by
  induction requests with
  | nil => intro s h; exact h
  | cons req rest ih =>
    intro s h
    exact ih _ (paced_handle s req h)
/-! ### Frame counters -/

theorem frameCounter?_eq (s : Server) (sid cid : rs_id_t) :
    s.frameCounter? sid cid = (s.pacing.get? sid).bind fun p => p.1.get? cid := by
  unfold Server.frameCounter?
  rw [pacing_get?]
  rcases s.mSceneMap.get? sid with _ | sc
  · rfl
  · simp only [Option.map_some', Option.some_bind, SceneInfo.pacing]
    exact (IdMap.get?_map sc.cameraMap CameraInfo.frameCounter cid).symm

theorem takePictures_ok :
    ∀ (ids : List rs_id_t) (sc : SceneInfo), (takePictures sc ids).2 = .ok () →
      ∀ id ∈ ids, sc.pacing.1.get? id ≠ none := by
  intro ids
  induction ids with
  | nil => intro sc _ id hid; simp at hid
  | cons id rest ih =>
    intro sc hok id2 hid2
    have hg : ∀ k, sc.pacing.1.get? k = (sc.cameraMap.get? k).map CameraInfo.frameCounter :=
      fun k => IdMap.get?_map sc.cameraMap CameraInfo.frameCounter k
    rcases hc : sc.cameraMap.get? id with _ | cam
    · simp [takePictures, hc] at hok
    · simp only [takePictures, hc] at hok
      by_cases he : id2 = id
      · rw [he, hg, hc]
        simp
      · have hmem : id2 ∈ rest := by
          rcases List.mem_cons.mp hid2 with h | h
          · exact absurd h he
          · exact h
        have := ih _ hok id2 hmem
        rw [show ∀ x : SceneInfo, x.pacing.1.get? id2 =
            (x.cameraMap.get? id2).map CameraInfo.frameCounter from
          fun x => IdMap.get?_map x.cameraMap CameraInfo.frameCounter id2] at this
        simp only at this
        rw [IdMap.get?_set_ne _ _ _ _ he] at this
        rw [hg]
        exact this

theorem frameCounter?_pictures (s s1 : Server) (scene_id : rs_id_t)
    (p : IdMap Nat × List (rs_id_t × Nat)) (ids : List rs_id_t)
    (hget : s.pacing.get? scene_id = some p) (hall : ∀ id ∈ ids, p.1.get? id ≠ none)
    (h : s1.pacing = IdMap.set s.pacing scene_id (pacePictures p ids)) (sid cid : rs_id_t) :
    s1.frameCounter? sid cid =
      (s.frameCounter? sid cid).map fun n => if sid = scene_id then n + ids.count cid else n := by
  rw [frameCounter?_eq, frameCounter?_eq, h]
  by_cases hs : sid = scene_id
  · subst hs
    rw [IdMap.get?_set_self, hget]
    simp only [Option.some_bind, if_true]
    exact pacePictures_count ids p hall cid
  · rw [IdMap.get?_set_ne _ _ _ _ hs]
    simp only [hs, if_false]
    rcases (s.pacing.get? sid).bind (fun p => p.1.get? cid) with _ | n <;> rfl

theorem TakePicture_pacing (s : Server) (scene_id camera_id : rs_id_t)
    (hok : (TakePicture s scene_id camera_id).2 = .ok ()) :
    ∃ p, s.pacing.get? scene_id = some p ∧ (∀ id ∈ [camera_id], p.1.get? id ≠ none) ∧
      (TakePicture s scene_id camera_id).1.pacing =
        IdMap.set s.pacing scene_id (pacePictures p [camera_id]) := by
  rcases hget : s.mSceneMap.get? scene_id with _ | info
  · simp [TakePicture, hget] at hok
  · rcases hc : info.cameraMap.get? camera_id with _ | cam
    · simp [TakePicture, hget, hc] at hok
    · have hg : info.pacing.1.get? camera_id = some cam.frameCounter := by
        have := IdMap.get?_map info.cameraMap CameraInfo.frameCounter camera_id
        rw [hc] at this
        exact this
      refine ⟨info.pacing, ?_, ?_, ?_⟩
      · rw [pacing_get?, hget]
        rfl
      · intro id hid
        rw [List.mem_singleton.mp hid, hg]
        simp
      · simp only [TakePicture, hget, hc]
        rw [pacing_update s _ scene_id _ rfl]
        simp only [pacePictures, hg]
        simp only [SceneInfo.pacing, List.map_append, List.map_cons, List.map_nil,
          PictureTask.camera, PictureTask.frame]
        rw [IdMap.map_set info.cameraMap CameraInfo.frameCounter]

theorem UpdateRenderAndTakePictures_pacing (s : Server) (scene_id : rs_id_t)
    (bp cp : List Pose) (ids : List rs_id_t)
    (hok : (UpdateRenderAndTakePictures s scene_id bp cp ids).2 = .ok ()) :
    ∃ p, s.pacing.get? scene_id = some p ∧ (∀ id ∈ ids, p.1.get? id ≠ none) ∧
      (UpdateRenderAndTakePictures s scene_id bp cp ids).1.pacing =
        IdMap.set s.pacing scene_id (pacePictures p ids) := by
  rcases hget : s.mSceneMap.get? scene_id with _ | info
  · simp [UpdateRenderAndTakePictures, hget] at hok
  · rcases hp : updatePoses info bp cp with e | info1
    · simp [UpdateRenderAndTakePictures, hget, hp] at hok
    · simp only [UpdateRenderAndTakePictures, hget, hp] at hok ⊢
      have hpp := updatePoses_pacing _ _ _ _ hp
      refine ⟨info.pacing, ?_, ?_, ?_⟩
      · rw [pacing_get?, hget]
        rfl
      · rw [← hpp]
        exact takePictures_ok ids info1 hok
      · rw [pacing_update s _ scene_id _ rfl, takePictures_pacing, hpp]

/-- C8 (as stated, refuted): a request that names camera 2 twice raises its
frame counter from 0 to 2. -/
theorem frameCounter_named_twice :
    oneSmallCamera.frameCounter? 1 2 = some 0 ∧
    (UpdateRenderAndTakePictures oneSmallCamera 1 [] [] [2, 2]).2 = .ok () ∧
    (UpdateRenderAndTakePictures oneSmallCamera 1 [] [] [2, 2]).1.frameCounter? 1 2 =
      some 2 :=
  ⟨by decide, rfl, by decide⟩

/-- C8 (amended): a successful `TakePicture` raises the counter of the named
camera by exactly 1 and a successful `UpdateRenderAndTakePictures` raises the
counter of each camera of the scene by the number of times the request names
it; the named cameras are registered, every other camera keeps its counter,
and in every state reachable from the empty server no request decreases the
frame counter of a camera. -/
theorem frameCounter_steps (s : Server) :
    (∀ scene_id camera_id, (TakePicture s scene_id camera_id).2 = .ok () →
      (∃ n, s.frameCounter? scene_id camera_id = some n) ∧
      ∀ sid cid, (TakePicture s scene_id camera_id).1.frameCounter? sid cid =
        (s.frameCounter? sid cid).map fun n =>
          if sid = scene_id ∧ cid = camera_id then n + 1 else n) ∧
    (∀ scene_id body_poses camera_poses camera_ids,
      (UpdateRenderAndTakePictures s scene_id body_poses camera_poses camera_ids).2 = .ok () →
      (∀ id ∈ camera_ids, ∃ n, s.frameCounter? scene_id id = some n) ∧
      ∀ sid cid,
        (UpdateRenderAndTakePictures s scene_id body_poses camera_poses
            camera_ids).1.frameCounter? sid cid =
          (s.frameCounter? sid cid).map fun n =>
            if sid = scene_id then n + camera_ids.count cid else n) ∧
    (∀ (requests : List Request) (req : Request) (sid cid : rs_id_t) (n m : Nat),
      (Server.empty.run requests).frameCounter? sid cid = some n →
      ((Server.empty.run requests).handle req).frameCounter? sid cid = some m → n ≤ m) := by
  refine ⟨?_, ?_, ?_⟩
  · intro scene_id camera_id hok
    obtain ⟨p, hget, hall, hp⟩ := TakePicture_pacing s scene_id camera_id hok
    constructor
    · rw [frameCounter?_eq, hget]
      simp only [Option.some_bind]
      exact Option.ne_none_iff_exists'.mp (hall camera_id (List.mem_singleton_self _))
    · intro sid cid
      rw [frameCounter?_pictures s _ scene_id p [camera_id] hget hall hp sid cid]
      congr 1
      funext n
      by_cases h1 : sid = scene_id
      · by_cases h2 : cid = camera_id
        · simp [h1, h2]
        · simp [h1, h2, List.count_singleton, fun e : camera_id = cid => h2 e.symm]
      · simp [h1]
  · intro scene_id bp cp ids hok
    obtain ⟨p, hget, hall, hp⟩ := UpdateRenderAndTakePictures_pacing s scene_id bp cp ids hok
    constructor
    · intro id hid
      rw [frameCounter?_eq, hget]
      simp only [Option.some_bind]
      exact Option.ne_none_iff_exists'.mp (hall id hid)
    · intro sid cid
      exact frameCounter?_pictures s _ scene_id p ids hget hall hp sid cid
  · intro requests req sid cid n m hn hm
    have hpaced : (Server.empty.run requests).Paced := paced_run requests _ paced_empty
    generalize Server.empty.run requests = t at hn hm hpaced
    obtain ⟨hle, hstep⟩ := handle_pacing t req
    rw [frameCounter?_eq] at hn hm
    cases hstep with
    | same e =>
      rw [e, hn] at hm
      cases hm
      exact le_refl _
    | created e =>
      rw [e] at hm
      by_cases hs : sid = t.nextId
      · rw [hs, IdMap.get?_set_self] at hm
        simp [IdMap.get?] at hm
      · rw [IdMap.get?_set_ne _ _ _ _ hs, hn] at hm
        cases hm
        exact le_refl _
    | removed id e =>
      rw [e, IdMap.get?_erase] at hm
      by_cases hs : sid = id
      · simp [hs] at hm
      · simp only [hs, if_false] at hm
        rw [hn] at hm
        cases hm
        exact le_refl _
    | camera scene_id p hget e hlt =>
      rw [e] at hm
      by_cases hs : sid = scene_id
      · subst hs
        rw [IdMap.get?_set_self] at hm
        rw [hget] at hn
        simp only [Option.some_bind] at hn hm
        by_cases hc : cid = t.nextId
        · subst hc
          have hp : PacedScene t.nextId p := hpaced _ (IdMap.mem_of_get? _ _ _ hget)
          exact absurd (hp.1 _ (IdMap.mem_of_get? _ _ _ hn)) (lt_irrefl _)
        · rw [IdMap.get?_set_ne _ _ _ _ hc, hn] at hm
          cases hm
          exact le_refl _
      · rw [IdMap.get?_set_ne _ _ _ _ hs, hn] at hm
        cases hm
        exact le_refl _
    | pictures scene_id p ids hget e =>
      rw [e] at hm
      by_cases hs : sid = scene_id
      · subst hs
        rw [IdMap.get?_set_self] at hm
        rw [hget] at hn
        simp only [Option.some_bind] at hn hm
        obtain ⟨k, hk, hkn⟩ := pacePictures_mono ids p cid n hn
        rw [hk] at hm
        cases hm
        exact hkn
      · rw [IdMap.get?_set_ne _ _ _ _ hs, hn] at hm
        cases hm
        exact le_refl _

theorem frameCounter_steps_witness :
    (∀ id ∈ [2], ∃ n, oneSmallCamera.frameCounter? 1 id = some n) ∧
    ∀ sid cid,
      (UpdateRenderAndTakePictures oneSmallCamera 1 [] [] [2]).1.frameCounter? sid cid =
        (oneSmallCamera.frameCounter? sid cid).map fun n =>
          if sid = 1 then n + [2].count cid else n :=
  (frameCounter_steps oneSmallCamera).2.1 1 [] [] [2] rfl
/-! ### Picture tasks -/

theorem queuedFrames_pacing (sc : SceneInfo) (camera : rs_id_t) :
    queuedFrames sc.pacing.2 camera =
      (sc.threadRunner.filter fun task => decide (task.camera = camera)).map
        PictureTask.frame := by
  simp only [queuedFrames, SceneInfo.pacing, List.filter_map, List.map_map]
  rfl

theorem run_head (task : PictureTask) (w : VkResult) (r : Except Fault Unit) :
    (task.run w r).1.head? = some (GpuEvent.waitSemaphores task.camera (task.frame - 1)) := by
  cases task with
  | takePicture cam fillInfo frame =>
    simp only [PictureTask.run, PictureTask.camera, PictureTask.frame]
    split_ifs
    · rfl
    · cases r <;> rfl
  | updateRenderAndTakePictures cam fillInfo frame =>
    simp only [PictureTask.run, PictureTask.camera, PictureTask.frame]
    split_ifs <;> rfl

theorem run_submit (task : PictureTask) (w : VkResult) (r : Except Fault Unit)
    (cb sem v : Nat) (h : GpuEvent.submit cb sem v ∈ (task.run w r).1) :
    cb = task.camera ∧ sem = task.camera ∧ v = task.frame := by
  cases task with
  | takePicture cam fillInfo frame =>
    simp only [PictureTask.run, PictureTask.camera, PictureTask.frame] at h ⊢
    split_ifs at h
    · simp at h
    · cases r with
      | error e => simp at h
      | ok u => simpa [copyEvents] using h
  | updateRenderAndTakePictures cam fillInfo frame =>
    simp only [PictureTask.run, PictureTask.camera, PictureTask.frame] at h ⊢
    split_ifs at h
    · simp at h
    · simpa [copyEvents] using h

theorem getLast?_append_pair {α : Type} (l : List α) (a b : α) :
    (l ++ [a, b]).getLast? = some b := by
  rw [List.getLast?_append]
  rfl

theorem run_last (task : PictureTask) :
    (task.run VkResult.eSuccess (.ok ())).1.getLast? =
      some (GpuEvent.submit task.camera task.camera task.frame) := by
  cases task with
  | takePicture cam fillInfo frame =>
    simp only [PictureTask.run, PictureTask.camera, PictureTask.frame]
    rw [if_neg (by simp)]
    exact getLast?_append_pair _ _ _
  | updateRenderAndTakePictures cam fillInfo frame =>
    simp only [PictureTask.run, PictureTask.camera, PictureTask.frame]
    rw [if_neg (by simp)]
    exact getLast?_append_pair _ _ _

theorem AddCamera_frameCounter (s : Server) (scene_id : rs_id_t) (width height : Nat)
    (id : rs_id_t) (hok : (AddCamera s scene_id width height).2 = .ok id) :
    (AddCamera s scene_id width height).1.frameCounter? scene_id id = some 0 := by
  rcases hget : s.mSceneMap.get? scene_id with _ | info
  · simp [AddCamera, generateId, hget] at hok
  · simp only [AddCamera, generateId, hget, Except.ok.injEq] at hok ⊢
    subst hok
    simp only [Server.frameCounter?, IdMap.get?_set_self, Option.map_some']

theorem pacing_after_pictures (s s1 : Server) (scene_id : rs_id_t)
    (p : IdMap Nat × List (rs_id_t × Nat)) (ids : List rs_id_t)
    (h : s1.pacing = IdMap.set s.pacing scene_id (pacePictures p ids)) :
    s1.pacing.get? scene_id = some (pacePictures p ids) := by
  rw [h, IdMap.get?_set_self]

/-- C9: a camera's frame counter is 0 after `AddCamera`; a successful
`TakePicture` or `UpdateRenderAndTakePictures` raises the counter to N and
queues a task with frame N, once per named camera; every queued task has N at
least 1, waits first for its camera's semaphore at N - 1 and submits only with
signal value N; and in every state reachable from the empty server the tasks
queued for a camera carry 1, 2, ..., counter in queue order, so that each one
waits on the value its predecessor signals. -/
theorem picture_tasks_in_order (requests : List Request) :
    (∀ scene_id width height id,
      (AddCamera (Server.empty.run requests) scene_id width height).2 = .ok id →
      (AddCamera (Server.empty.run requests) scene_id width height).1.frameCounter?
        scene_id id = some 0) ∧
    (∀ scene_id camera_id,
      (TakePicture (Server.empty.run requests) scene_id camera_id).2 = .ok () →
      ∃ p n, (Server.empty.run requests).pacing.get? scene_id = some p ∧
        p.1.get? camera_id = some n ∧
        (TakePicture (Server.empty.run requests) scene_id camera_id).1.pacing.get? scene_id =
          some (IdMap.set p.1 camera_id (n + 1), p.2 ++ [(camera_id, n + 1)])) ∧
    (∀ scene_id body_poses camera_poses camera_ids,
      (UpdateRenderAndTakePictures (Server.empty.run requests) scene_id body_poses
        camera_poses camera_ids).2 = .ok () →
      ∃ p, (Server.empty.run requests).pacing.get? scene_id = some p ∧
        (UpdateRenderAndTakePictures (Server.empty.run requests) scene_id body_poses
          camera_poses camera_ids).1.pacing.get? scene_id = some (pacePictures p camera_ids)) ∧
    (∀ scene_id sc, (Server.empty.run requests).mSceneMap.get? scene_id = some sc →
      (∀ task ∈ sc.threadRunner, 1 ≤ task.frame ∧ task.frame - 1 + 1 = task.frame ∧
        ∀ waitResult renderResult,
          (task.run waitResult renderResult).1.head? =
            some (GpuEvent.waitSemaphores task.camera (task.frame - 1)) ∧
          (∀ cb sem v, GpuEvent.submit cb sem v ∈ (task.run waitResult renderResult).1 →
            cb = task.camera ∧ sem = task.camera ∧ v = task.frame) ∧
          (waitResult = VkResult.eSuccess → renderResult = .ok () →
            (task.run waitResult renderResult).1.getLast? =
              some (GpuEvent.submit task.camera task.camera task.frame))) ∧
      (∀ camera_id cam, sc.cameraMap.get? camera_id = some cam →
        (sc.threadRunner.filter fun task => decide (task.camera = camera_id)).map
            PictureTask.frame = List.range' 1 cam.frameCounter ∧
        ∀ (i : Nat) (t1 t2 : PictureTask),
          (sc.threadRunner.filter fun task => decide (task.camera = camera_id))[i]? = some t1 →
          (sc.threadRunner.filter fun task => decide (task.camera = camera_id))[i + 1]? =
            some t2 →
          t2.frame - 1 = t1.frame)) := by
  have hpaced : (Server.empty.run requests).Paced := paced_run requests _ paced_empty
  generalize Server.empty.run requests = s at hpaced
  refine ⟨?_, ?_, ?_, ?_⟩
  · intro scene_id width height id hok
    exact AddCamera_frameCounter s scene_id width height id hok
  · intro scene_id camera_id hok
    obtain ⟨p, hget, hall, hp⟩ := TakePicture_pacing s scene_id camera_id hok
    obtain ⟨n, hn⟩ := Option.ne_none_iff_exists'.mp (hall camera_id (List.mem_singleton_self _))
    refine ⟨p, n, hget, hn, ?_⟩
    rw [pacing_after_pictures s _ scene_id p [camera_id] hp]
    simp only [pacePictures, hn]
  · intro scene_id bp cp ids hok
    obtain ⟨p, hget, _, hp⟩ := UpdateRenderAndTakePictures_pacing s scene_id bp cp ids hok
    exact ⟨p, hget, pacing_after_pictures s _ scene_id p ids hp⟩
  · intro scene_id sc hsc
    have hmem : (scene_id, sc.pacing) ∈ s.pacing := by
      apply IdMap.mem_of_get?
      rw [pacing_get?, hsc]
      rfl
    have hp : PacedScene s.nextId sc.pacing := hpaced _ hmem
    constructor
    · intro task htask
      have h1 : 1 ≤ task.frame :=
        hp.2.2.1 (task.camera, task.frame) (List.mem_map.mpr ⟨task, htask, rfl⟩)
      refine ⟨h1, by omega, ?_⟩
      intro w r
      refine ⟨run_head task w r, run_submit task w r, ?_⟩
      intro hw hr
      rw [hw, hr]
      exact run_last task
    · intro camera_id cam hcam
      have hg : sc.pacing.1.get? camera_id = some cam.frameCounter := by
        have := IdMap.get?_map sc.cameraMap CameraInfo.frameCounter camera_id
        rw [hcam] at this
        exact this
      have hframes := hp.2.2.2 camera_id cam.frameCounter hg
      rw [queuedFrames_pacing] at hframes
      refine ⟨hframes, ?_⟩
      intro i t1 t2 h1 h2
      have e1 : ((sc.threadRunner.filter fun task => decide (task.camera = camera_id)).map
          PictureTask.frame)[i]? = some t1.frame := by
        rw [List.getElem?_map, h1]
        rfl
      have e2 : ((sc.threadRunner.filter fun task => decide (task.camera = camera_id)).map
          PictureTask.frame)[i + 1]? = some t2.frame := by
        rw [List.getElem?_map, h2]
        rfl
      rw [hframes] at e1 e2
      have b1 : i < cam.frameCounter := by
        by_contra hlt
        rw [List.getElem?_eq_none (by simpa using Nat.le_of_not_lt hlt)] at e1
        cases e1
      have b2 : i + 1 < cam.frameCounter := by
        by_contra hlt
        rw [List.getElem?_eq_none (by simpa using Nat.le_of_not_lt hlt)] at e2
        cases e2
      rw [List.getElem?_range' 1 1 b1] at e1
      rw [List.getElem?_range' 1 1 b2] at e2
      simp only [Option.some.injEq] at e1 e2
      omega

/-- C10: with a render call that raises, the task of `TakePicture` ends with
the raise after `render`, without ending or submitting the command buffer, so
nothing signals the semaphore at N; the task of `UpdateRenderAndTakePictures`
catches the raise and ends with the submission that signals N. -/
theorem takePicture_task_skips_submit (cam : rs_id_t) (fillInfo : List FillEntry) (frame : Nat)
    (e : Fault) :
    (PictureTask.takePicture cam fillInfo frame).run VkResult.eSuccess (.error e) =
      ([GpuEvent.waitSemaphores cam (frame - 1), GpuEvent.reset cam, GpuEvent.begin cam,
        GpuEvent.render cam], .error e) ∧
    (∀ cb sem v, GpuEvent.submit cb sem v ∉
      ((PictureTask.takePicture cam fillInfo frame).run VkResult.eSuccess (.error e)).1) ∧
    (PictureTask.updateRenderAndTakePictures cam fillInfo frame).run VkResult.eSuccess
        (.error e) =
      ([GpuEvent.waitSemaphores cam (frame - 1), GpuEvent.reset cam, GpuEvent.begin cam,
        GpuEvent.render cam] ++ copyEvents cam fillInfo ++
        [GpuEvent.endCommandBuffer cam, GpuEvent.submit cam cam frame], .ok ()) ∧
    ((TakePicture oneSmallCamera 1 2).1.mSceneMap.get? 1).map SceneInfo.threadRunner =
      some [PictureTask.takePicture 2 [] 1] := by
  refine ⟨rfl, ?_, rfl, by decide⟩
  intro cb sem v h
  simp [PictureTask.run] at h

theorem picture_tasks_in_order_witness :
    (AddCamera (Server.empty.run [Request.createScene 0, Request.addCamera 1 640 480])
        1 8 8).1.frameCounter? 1 3 = some 0 :=
  (picture_tasks_in_order [Request.createScene 0, Request.addCamera 1 640 480]).1 1 8 8 3 rfl
/-! ### The fill info after a successful allocation -/

theorem toInt32_of_range (i : Int) (h0 : 0 ≤ i) (h1 : i < 2147483648) : toInt32 i = i := by
  unfold toInt32
  omega

theorem strideOf_exact (l : Layout) (hw : 0 ≤ l.maxCameraWidth) (hh : 0 ≤ l.maxCameraHeight)
    (hfit : l.maxCameraWidth * l.maxCameraHeight * 4 * 4 < 2147483648) :
    ((strideOf l 4 4 : Nat) : Int) = l.maxCameraWidth * l.maxCameraHeight * 4 * 4 := by
  have hp : 0 ≤ l.maxCameraWidth * l.maxCameraHeight := mul_nonneg hw hh
  unfold strideOf mul32
  rw [toInt32_of_range (l.maxCameraWidth * l.maxCameraHeight) hp (by omega),
    toInt32_of_range (l.maxCameraWidth * l.maxCameraHeight * 4) (by omega) (by omega),
    toInt32_of_range (l.maxCameraWidth * l.maxCameraHeight * 4 * 4) (by omega) hfit]
  exact toSizeT_of_nonneg _ (by omega)

theorem targetEntries_getElem? (l : Layout) (sceneIndex cameraIndex : Nat) :
    ∀ (targets : List String) (first t : Nat),
      (targetEntries l sceneIndex cameraIndex first targets)[t]? =
        targets[t]?.map fun target =>
          { name := canonicalName target, buffer := first + t,
            offset := fillOffset (toSizeT l.maxCameraCount) (strideOf l 4 4) sceneIndex
              cameraIndex } := by
  intro targets
  induction targets with
  | nil => intro first t; simp [targetEntries]
  | cons target rest ih =>
    intro first t
    cases t with
    | zero => simp [targetEntries]
    | succ t =>
      simp only [targetEntries, List.getElem?_cons_succ, ih]
      congr 1
      funext target
      congr 1
      omega

theorem autoAllocateBuffers_fillInfo (s s1 : Server) (targets : List String)
    (buffers : List Nat) (h : autoAllocateBuffers s targets = (s1, .ok buffers))
    (scene_id camera_id : rs_id_t) (sc : SceneInfo) (cam : CameraInfo)
    (hsc : s.mSceneMap.get? scene_id = some sc) (hcam : sc.cameraMap.get? camera_id = some cam) :
    s1.fillInfo? scene_id camera_id =
      some (cam.fillInfo ++
        targetEntries (scanScenes s) sc.sceneIndex cam.cameraIndex 0 targets) := by
  obtain ⟨_, _, hs1, _, _, _⟩ := autoAllocateBuffers_ok s s1 targets buffers h
  have e1 : IdMap.get? (pushedSceneMap (scanScenes s) 0 targets s.mSceneMap) scene_id =
      (s.mSceneMap.get? scene_id).map fun sc : SceneInfo =>
        { sc with
          cameraMap := sc.cameraMap.map fun c =>
            (c.1, { c.2 with
              fillInfo := c.2.fillInfo ++
                targetEntries (scanScenes s) sc.sceneIndex c.2.cameraIndex 0 targets }) } :=
    @IdMap.get?_map SceneInfo SceneInfo s.mSceneMap
      (fun sc : SceneInfo =>
        { sc with
          cameraMap := sc.cameraMap.map fun c : rs_id_t × CameraInfo =>
            (c.1, { c.2 with
              fillInfo := c.2.fillInfo ++
                targetEntries (scanScenes s) sc.sceneIndex c.2.cameraIndex 0 targets }) })
      scene_id
  have e2 : IdMap.get? (sc.cameraMap.map fun c =>
        (c.1, { c.2 with
          fillInfo := c.2.fillInfo ++
            targetEntries (scanScenes s) sc.sceneIndex c.2.cameraIndex 0 targets }))
        camera_id =
      (sc.cameraMap.get? camera_id).map fun c : CameraInfo =>
        { c with
          fillInfo := c.fillInfo ++
            targetEntries (scanScenes s) sc.sceneIndex c.cameraIndex 0 targets } :=
    @IdMap.get?_map CameraInfo CameraInfo sc.cameraMap
      (fun c : CameraInfo =>
        { c with
          fillInfo := c.fillInfo ++
            targetEntries (scanScenes s) sc.sceneIndex c.cameraIndex 0 targets })
      camera_id
  rw [hsc] at e1
  rw [hcam] at e2
  rw [hs1]
  simp only [Server.fillInfo?, e1, Option.map_some', e2]

theorem autoAllocateBuffers_entry_of_fit (s s1 : Server) (targets : List String)
    (buffers : List Nat) (h : autoAllocateBuffers s targets = (s1, .ok buffers))
    (hfit : (scanScenes s).maxCameraWidth * (scanScenes s).maxCameraHeight * 4 * 4 < 2147483648)
    (scene_id camera_id : rs_id_t) (sc : SceneInfo) (cam : CameraInfo)
    (hsc : s.mSceneMap.get? scene_id = some sc) (hcam : sc.cameraMap.get? camera_id = some cam)
    (t : Nat) (target : String) (ht : targets[t]? = some target) :
    ∃ info, s1.fillInfo? scene_id camera_id = some info ∧
      { name := canonicalName target, buffer := t,
        offset := fillOffset (scanScenes s).maxCameraCount.toNat
          ((scanScenes s).maxCameraWidth * (scanScenes s).maxCameraHeight * 4 * 4).toNat
          sc.sceneIndex cam.cameraIndex } ∈ info := by
  obtain ⟨_, n1, n2, n3⟩ := scanScenes_nonneg s
  refine ⟨_, autoAllocateBuffers_fillInfo s s1 targets buffers h scene_id camera_id sc cam hsc hcam,
    ?_⟩
  apply List.mem_append_right
  apply @List.getElem?_mem _ _ t
  rw [targetEntries_getElem?, ht]
  have hs := strideOf_exact (scanScenes s) n2 n3 hfit
  have hc := toSizeT_of_nonneg _ n1
  simp only [Option.map_some', Nat.zero_add, Option.some.injEq, FillEntry.mk.injEq, true_and]
  congr 1
  · omega
  · omega

/-! ## Render order, pose updates, materials and removal -/


/-! ### Pose updates as assignments -/

theorem nodeHandles_writePose (nodes : List (Nat × Node)) (w : Nat × Pose) :
    nodeHandles (writePose nodes w) = nodeHandles nodes := by
  unfold nodeHandles writePose
  rw [List.map_map]
  apply List.map_congr_left
  intro n _
  simp only [Function.comp]
  split_ifs <;> rfl

theorem nodeHandles_writePoses (writes : List (Nat × Pose)) :
    ∀ nodes : List (Nat × Node), nodeHandles (writePoses nodes writes) = nodeHandles nodes := by
  induction writes with
  | nil => intro nodes; rfl
  | cons w rest ih =>
    intro nodes
    simp only [writePoses, List.foldl_cons]
    exact (ih _).trans (nodeHandles_writePose nodes w)

theorem setNodePose_of_mem (nodes : List (Nat × Node)) (node : Nat) (pose : Pose)
    (h : node ∈ nodeHandles nodes) :
    setNodePose nodes node pose = some (writePose nodes (node, pose)) := by
  unfold setNodePose
  have hany : (nodes.any fun n => n.1 == node) = true := by
    obtain ⟨n, hn, e⟩ := List.mem_map.mp h
    exact List.any_eq_true.mpr ⟨n, hn, by simp [e]⟩
  rw [if_pos hany]
  rfl

theorem applyPoses_writes (ordered : List (Option Nat)) :
    ∀ (poses : List Pose) (i : Nat) (nodes : List (Nat × Node)) (handles : List Nat),
      handles.length = poses.length →
      (∀ k h, handles[k]? = some h → ordered[i + k]? = some (some h)) →
      (∀ h ∈ handles, h ∈ nodeHandles nodes) →
      applyPoses ordered i poses nodes = .ok (writePoses nodes (handles.zip poses)) := by
  intro poses
  induction poses with
  | nil =>
    intro i nodes handles hlen _ _
    have : handles = [] := List.length_eq_zero.mp hlen
    subst this
    rfl
  | cons pose rest ih =>
    intro i nodes handles hlen hord hlive
    rcases handles with _ | ⟨h, hs⟩
    · simp at hlen
    · have h0 : ordered[i]? = some (some h) := by
        have := hord 0 h (by simp)
        simpa using this
      have hmem : h ∈ nodeHandles nodes := hlive h (List.mem_cons_self _ _)
      simp only [applyPoses, h0, setNodePose_of_mem nodes h pose hmem]
      rw [ih (i + 1) (writePose nodes (h, pose)) hs (by simpa using hlen)]
      · rfl
      · intro k h1 hk
        have := hord (k + 1) h1 (by simpa using hk)
        rw [← this]
        congr 1
        omega
      · intro h1 hh1
        rw [nodeHandles_writePose]
        exact hlive h1 (List.mem_cons_of_mem _ hh1)

theorem poseOf_cons (k : Nat) (nd : Node) (rest : List (Nat × Node)) (node : Nat) :
    poseOf ((k, nd) :: rest) node = if k = node then nd.pose else poseOf rest node := by
  unfold poseOf
  by_cases h : k = node
  · simp [List.find?_cons, h]
  · simp [List.find?_cons, h]

theorem poseOf_writePose (nodes : List (Nat × Node)) (w : Nat × Pose) (node : Nat) :
    poseOf (writePose nodes w) node =
      if node = w.1 ∧ node ∈ nodeHandles nodes then some w.2 else poseOf nodes node := by
  induction nodes with
  | nil => simp [writePose, poseOf, nodeHandles]
  | cons n rest ih =>
    obtain ⟨k, nd⟩ := n
    have hstep : writePose ((k, nd) :: rest) w =
        (if k = w.1 then (k, { nd with pose := some w.2 }) else (k, nd)) :: writePose rest w :=
      rfl
    rw [hstep]
    by_cases hw : k = w.1
    · rw [if_pos hw, poseOf_cons, poseOf_cons, ih]
      by_cases hn : k = node
      · have e : node = w.1 := hn.symm.trans hw
        simp [hn, e, nodeHandles]
      · have hn2 : ¬ node = k := fun e => hn e.symm
        have hm : node ∈ nodeHandles ((k, nd) :: rest) ↔ node ∈ nodeHandles rest := by
          simp [nodeHandles, hn2]
        rw [if_neg hn, if_neg hn]
        simp only [hm]
    · rw [if_neg hw, poseOf_cons, poseOf_cons, ih]
      by_cases hn : k = node
      · have e : ¬ node = w.1 := fun e => hw (hn.trans e)
        simp [hn, e]
      · have hn2 : ¬ node = k := fun e => hn e.symm
        have hm : node ∈ nodeHandles ((k, nd) :: rest) ↔ node ∈ nodeHandles rest := by
          simp [nodeHandles, hn2]
        rw [if_neg hn, if_neg hn]
        simp only [hm]


theorem poseOf_writePoses_other (writes : List (Nat × Pose)) :
    ∀ (nodes : List (Nat × Node)) (node : Nat), (∀ w ∈ writes, w.1 ≠ node) →
      poseOf (writePoses nodes writes) node = poseOf nodes node := by
  induction writes with
  | nil => intro nodes node _; rfl
  | cons w rest ih =>
    intro nodes node h
    simp only [writePoses, List.foldl_cons]
    have h1 := ih (writePose nodes w) node fun w1 hw1 => h w1 (List.mem_cons_of_mem _ hw1)
    simp only [writePoses] at h1
    rw [h1, poseOf_writePose]
    have hne : ¬ node = w.1 := fun e => h w (List.mem_cons_self _ _) e.symm
    simp [hne]

theorem poseOf_writePoses_last (pre post : List (Nat × Pose)) (node : Nat) (pose : Pose)
    (nodes : List (Nat × Node)) (hlive : node ∈ nodeHandles nodes)
    (hpost : ∀ w ∈ post, w.1 ≠ node) :
    poseOf (writePoses nodes (pre ++ (node, pose) :: post)) node = some pose := by
  have e : writePoses nodes (pre ++ (node, pose) :: post) =
      writePoses (writePose (writePoses nodes pre) (node, pose)) post := by
    simp [writePoses, List.foldl_append]
  rw [e, poseOf_writePoses_other post _ node hpost, poseOf_writePose]
  have : node ∈ nodeHandles (writePoses nodes pre) := by
    rw [nodeHandles_writePoses]
    exact hlive
  simp [this]

theorem zip_split {α β : Type} (xs : List α) (ys : List β) (i : Nat) (x : α) (y : β)
    (hx : xs[i]? = some x) (hy : ys[i]? = some y) :
    xs.zip ys = (xs.take i).zip (ys.take i) ++ (x, y) :: (xs.drop (i + 1)).zip (ys.drop (i + 1)) := by
  induction xs generalizing ys i with
  | nil => simp at hx
  | cons a as ih =>
    rcases ys with _ | ⟨b, bs⟩
    · simp at hy
    · cases i with
      | zero =>
        simp only [List.getElem?_cons_zero, Option.some.injEq] at hx hy
        subst hx hy
        simp
      | succ i =>
        simp only [List.getElem?_cons_succ] at hx hy
        simp only [List.zip_cons_cons, List.take_succ_cons, List.drop_succ_cons,
          List.cons_append, List.cons.injEq, true_and]
        exact ih bs i hx hy

theorem updatePoses_writes (info : SceneInfo) (bp cp : List Pose) (objs cams : List Nat)
    (hobjs : info.orderedObjects.take bp.length = objs.map some)
    (hN : bp.length ≤ info.orderedObjects.length)
    (hcams : info.orderedCameras.take cp.length = cams)
    (hM : cp.length ≤ info.orderedCameras.length)
    (hlive : ∀ h ∈ objs ++ cams, h ∈ nodeHandles info.nodes) :
    updatePoses info bp cp =
      .ok { info with nodes := writePoses info.nodes (objs.zip bp ++ cams.zip cp) } := by
  have hlo : objs.length = bp.length := by
    have := congrArg List.length hobjs
    simp only [List.length_take, List.length_map] at this
    omega
  have hlc : cams.length = cp.length := by
    have := congrArg List.length hcams
    simp only [List.length_take] at this
    omega
  have h1 : applyPoses info.orderedObjects 0 bp info.nodes =
      .ok (writePoses info.nodes (objs.zip bp)) := by
    apply applyPoses_writes _ _ _ _ _ hlo
    · intro k h hk
      have hlt : k < objs.length := by
        by_contra hge
        rw [List.getElem?_eq_none (Nat.le_of_not_lt hge)] at hk
        cases hk
      have : (info.orderedObjects.take bp.length)[k]? = some (some h) := by
        rw [hobjs, List.getElem?_map, hk]
        rfl
      rw [List.getElem?_take] at this
      simp only [Nat.zero_add]
      split_ifs at this
      exact this
    · intro h hh
      exact hlive h (List.mem_append_left _ hh)
  have h2 : applyPoses (info.orderedCameras.map some) 0 cp
      (writePoses info.nodes (objs.zip bp)) =
      .ok (writePoses (writePoses info.nodes (objs.zip bp)) (cams.zip cp)) := by
    apply applyPoses_writes _ _ _ _ _ hlc
    · intro k h hk
      have hlt : k < cams.length := by
        by_contra hge
        rw [List.getElem?_eq_none (Nat.le_of_not_lt hge)] at hk
        cases hk
      have : (info.orderedCameras.take cp.length)[k]? = some h := by
        rw [hcams, hk]
      rw [List.getElem?_take] at this
      simp only [Nat.zero_add, List.getElem?_map]
      split_ifs at this
      rw [this]
      rfl
    · intro h hh
      rw [nodeHandles_writePoses]
      exact hlive h (List.mem_append_right _ hh)
  unfold updatePoses
  simp only [h1, h2]
  simp [writePoses, List.foldl_append]


/-- C12 (as stated, refuted): the order holds one body and one camera; a
request with no pose at all and a request with one body pose and no camera
pose both succeed, and a request with two body poses runs past the end of
`orderedObjects` through the unchecked subscript instead of raising. -/
theorem UpdateRender_accepts_shorter :
    (orderedBodyAndCamera.mSceneMap.get? 1).map SceneInfo.orderedObjects = some [some 0] ∧
    (orderedBodyAndCamera.mSceneMap.get? 1).map SceneInfo.orderedCameras = some [1] ∧
    (UpdateRender orderedBodyAndCamera 1 [] []).2 = .ok () ∧
    (UpdateRender orderedBodyAndCamera 1 [somePose] []).2 = .ok () ∧
    (UpdateRender orderedBodyAndCamera 1 [somePose, otherPose] [somePose]).2 =
      .error Fault.undefinedBehaviour :=
  ⟨by decide, by decide, rfl, rfl, rfl⟩

theorem UpdateRender_writes (s : Server) (scene_id : rs_id_t) (info : SceneInfo)
    (body_poses camera_poses : List Pose) (objs cams : List Nat)
    (hget : s.mSceneMap.get? scene_id = some info)
    (hN : body_poses.length ≤ info.orderedObjects.length)
    (hM : camera_poses.length ≤ info.orderedCameras.length)
    (hobjs : info.orderedObjects.take body_poses.length = objs.map some)
    (hcams : info.orderedCameras.take camera_poses.length = cams)
    (hlive : ∀ h ∈ objs ++ cams, h ∈ nodeHandles info.nodes) :
    UpdateRender s scene_id body_poses camera_poses =
      ({ s with
          mSceneMap := s.mSceneMap.set scene_id
            { info with
              nodes := writePoses info.nodes
                (objs.zip body_poses ++ cams.zip camera_poses) } }, .ok ()) := by
  simp only [UpdateRender, hget,
    updatePoses_writes info body_poses camera_poses objs cams hobjs hN hcams hM hlive]

/-- C12 (amended): a request with at most as many body poses as
`orderedObjects` has entries and at most as many camera poses as
`orderedCameras` has, the entries it reaches being nodes of the scene, does not
fail: it assigns body pose i to `orderedObjects[i]` and camera pose j to
`orderedCameras[j]` for the poses it has and nothing else. -/
theorem UpdateRender_no_length_check (s : Server) (scene_id : rs_id_t) (info : SceneInfo)
    (body_poses camera_poses : List Pose) (objs cams : List Nat)
    (hget : s.mSceneMap.get? scene_id = some info)
    (hN : body_poses.length ≤ info.orderedObjects.length)
    (hM : camera_poses.length ≤ info.orderedCameras.length)
    (hobjs : info.orderedObjects.take body_poses.length = objs.map some)
    (hcams : info.orderedCameras.take camera_poses.length = cams)
    (hlive : ∀ h ∈ objs ++ cams, h ∈ nodeHandles info.nodes) :
    UpdateRender s scene_id body_poses camera_poses =
      ({ s with
          mSceneMap := s.mSceneMap.set scene_id
            { info with
              nodes := writePoses info.nodes
                (objs.zip body_poses ++ cams.zip camera_poses) } }, .ok ()) :=
  UpdateRender_writes s scene_id info body_poses camera_poses objs cams hget hN hM hobjs hcams
    hlive

theorem UpdateRender_no_length_check_witness :
    UpdateRender orderedBodyAndCamera 1 [] [somePose] =
      ({ orderedBodyAndCamera with
          mSceneMap := orderedBodyAndCamera.mSceneMap.set 1
            { orderedScene with
              nodes := writePoses orderedScene.nodes
                (([] : List Nat).zip [] ++ [1].zip [somePose]) } }, .ok ()) :=
  UpdateRender_no_length_check orderedBodyAndCamera 1 orderedScene [] [somePose] [] [1]
    (by decide) (by decide) (by decide) (by decide) (by decide) (by decide)


theorem IdMap.set_set {α : Type} (m : IdMap α) (k : rs_id_t) (v w : α) :
    IdMap.set (IdMap.set m k v) k w = IdMap.set m k w := by
  induction m with
  | nil => simp [IdMap.set]
  | cons kv rest ih =>
    obtain ⟨k1, v1⟩ := kv
    by_cases h : k1 = k
    · simp [IdMap.set, h]
    · simp [IdMap.set, h, ih]

theorem orderObjects_registered (m : IdMap (Option Nat)) :
    ∀ (ids : List rs_id_t) (objs : List Nat),
      ids.map (fun id => m.get? id) = objs.map (fun h => some (some h)) →
      orderObjects m ids = (m, objs.map some) := by
  intro ids
  induction ids with
  | nil =>
    intro objs h
    rcases objs with _ | ⟨o, os⟩
    · rfl
    · simp at h
  | cons id rest ih =>
    intro objs h
    rcases objs with _ | ⟨o, os⟩
    · simp at h
    · simp only [List.map_cons, List.cons.injEq] at h
      simp only [orderObjects, h.1, ih os h.2, List.map_cons]

theorem orderCameras_registered (m : IdMap CameraInfo) :
    ∀ (ids : List rs_id_t) (cams : List Nat),
      ids.map (fun id => (m.get? id).map CameraInfo.camera) = cams.map some →
      orderCameras m ids = (cams, .ok ()) := by
  intro ids
  induction ids with
  | nil =>
    intro cams h
    rcases cams with _ | ⟨c, cs⟩
    · rfl
    · simp at h
  | cons id rest ih =>
    intro cams h
    rcases cams with _ | ⟨c, cs⟩
    · simp at h
    · simp only [List.map_cons, List.cons.injEq] at h
      rcases hc : m.get? id with _ | cam
      · rw [hc] at h
        simp at h
      · rw [hc] at h
        simp only [Option.map_some', Option.some.injEq] at h
        simp only [orderCameras, hc, ih cs h.2, h.1]

theorem poseOf_zip_at (nodes : List (Nat × Node)) (before after : List (Nat × Pose))
    (handles : List Nat) (poses : List Pose) (i h : Nat) (pose : Pose)
    (hi : handles[i]? = some h) (hp : poses[i]? = some pose)
    (hlater : h ∉ handles.drop (i + 1)) (hafter : ∀ w ∈ after, w.1 ≠ h)
    (hlive : h ∈ nodeHandles nodes) :
    poseOf (writePoses nodes (before ++ handles.zip poses ++ after)) h = some pose := by
  rw [zip_split handles poses i h pose hi hp]
  have e : before ++ ((handles.take i).zip (poses.take i) ++
      (h, pose) :: (handles.drop (i + 1)).zip (poses.drop (i + 1))) ++ after =
      (before ++ (handles.take i).zip (poses.take i)) ++
        (h, pose) :: ((handles.drop (i + 1)).zip (poses.drop (i + 1)) ++ after) := by
    simp
  rw [e]
  apply poseOf_writePoses_last _ _ _ _ _ hlive
  intro w hw
  rcases List.mem_append.mp hw with h1 | h1
  · intro e1
    apply hlater
    rw [← e1]
    exact (List.of_mem_zip h1).1
  · exact hafter w h1

/-- The effect of `SetEntityOrder` followed by `UpdateRender` when the objects
and camera nodes that the ids name are nodes of the scene graph. -/
theorem SetEntityOrder_then_UpdateRender_of_live (s : Server) (scene_id : rs_id_t)
    (info : SceneInfo)
    (body_ids camera_ids : List rs_id_t) (objs cams : List Nat)
    (hget : s.mSceneMap.get? scene_id = some info)
    (hbodies : body_ids.map (fun id => info.objectMap.get? id) =
      objs.map fun h => some (some h))
    (hcameras : camera_ids.map (fun id => (info.cameraMap.get? id).map CameraInfo.camera) =
      cams.map some)
    (hlive : ∀ h ∈ objs ++ cams, h ∈ nodeHandles info.nodes) :
    SetEntityOrder s scene_id body_ids camera_ids =
      ({ s with
          mSceneMap := s.mSceneMap.set scene_id
            { info with orderedObjects := objs.map some, orderedCameras := cams } },
        .ok ()) ∧
    objs.length = body_ids.length ∧ cams.length = camera_ids.length ∧
    ∀ body_poses camera_poses : List Pose,
      body_poses.length = body_ids.length → camera_poses.length = camera_ids.length →
      UpdateRender (SetEntityOrder s scene_id body_ids camera_ids).1 scene_id body_poses
          camera_poses =
        ({ s with
            mSceneMap := s.mSceneMap.set scene_id
              { info with
                orderedObjects := objs.map some
                orderedCameras := cams
                nodes := writePoses info.nodes
                  (objs.zip body_poses ++ cams.zip camera_poses) } }, .ok ()) ∧
      (∀ i h pose, objs[i]? = some h → body_poses[i]? = some pose →
        h ∉ objs.drop (i + 1) → h ∉ cams →
        poseOf (writePoses info.nodes (objs.zip body_poses ++ cams.zip camera_poses)) h =
          some pose) ∧
      (∀ j h pose, cams[j]? = some h → camera_poses[j]? = some pose →
        h ∉ cams.drop (j + 1) →
        poseOf (writePoses info.nodes (objs.zip body_poses ++ cams.zip camera_poses)) h =
          some pose) ∧
      (∀ node, node ∉ objs → node ∉ cams →
        poseOf (writePoses info.nodes (objs.zip body_poses ++ cams.zip camera_poses)) node =
          poseOf info.nodes node) := by
  have hlo : objs.length = body_ids.length := by
    have := congrArg List.length hbodies
    simpa using this.symm
  have hlc : cams.length = camera_ids.length := by
    have := congrArg List.length hcameras
    simpa using this.symm
  have hset : SetEntityOrder s scene_id body_ids camera_ids =
      ({ s with
          mSceneMap := s.mSceneMap.set scene_id
            { info with orderedObjects := objs.map some, orderedCameras := cams } },
        .ok ()) := by
    simp only [SetEntityOrder, hget, orderObjects_registered _ _ _ hbodies,
      orderCameras_registered _ _ _ hcameras]
  refine ⟨hset, hlo, hlc, ?_⟩
  intro bp cp hbp hcp
  refine ⟨?_, ?_, ?_, ?_⟩
  · rw [hset]
    have hu := UpdateRender_writes
      { s with
        mSceneMap := s.mSceneMap.set scene_id
          { info with orderedObjects := objs.map some, orderedCameras := cams } }
      scene_id { info with orderedObjects := objs.map some, orderedCameras := cams }
      bp cp objs cams (IdMap.get?_set_self _ _ _)
      (by simp only [List.length_map]; omega) (by simp only; omega)
      (by simp only; rw [List.take_of_length_le (by simp only [List.length_map]; omega)])
      (by simp only; rw [List.take_of_length_le (by omega)]) hlive
    rw [hu]
    simp only [Prod.mk.injEq, and_true]
    congr 1
    exact IdMap.set_set _ _ _ _
  · intro i h pose hi hp hlater hnc
    have := poseOf_zip_at info.nodes [] (cams.zip cp) objs bp i h pose hi hp hlater
      (fun w hw e => hnc (e ▸ (List.of_mem_zip hw).1))
      (hlive h (List.mem_append_left _ (List.getElem?_mem hi)))
    simpa using this
  · intro j h pose hj hp hlater
    have := poseOf_zip_at info.nodes (objs.zip bp) [] cams cp j h pose hj hp hlater
      (fun w hw => by simp at hw)
      (hlive h (List.mem_append_right _ (List.getElem?_mem hj)))
    simpa using this
  · intro node hno hnc
    apply poseOf_writePoses_other
    intro w hw e
    rcases List.mem_append.mp hw with h1 | h1
    · exact hno (e ▸ (List.of_mem_zip h1).1)
    · exact hnc (e ▸ (List.of_mem_zip h1).1)

/-! ### The stride as an `int` product -/

/-- C20: two cameras of 16383 by 16383 pixels pass the validation; the exact
product 16383 * 16383 * 4 * 4 is 4294443024, above 2^31 - 1, the `int`
product is -524272 and the stride stored and used for the offsets is
2^64 - 524272. -/
theorem stride_wraps_in_validated_range :
    validateLayout (scanScenes twoLargeCameras) = .ok () ∧
    (scanScenes twoLargeCameras).maxCameraWidth = 16383 ∧
    (scanScenes twoLargeCameras).maxCameraHeight = 16383 ∧
    (16383 * 16383 * 4 * 4 : Int) = 4294443024 ∧ INT32_MAX < 4294443024 ∧
    mul32 (mul32 (mul32 16383 16383) 4) 4 = -524272 ∧
    strideOf (scanScenes twoLargeCameras) 4 4 = 18446744073709027344 ∧
    (autoAllocateBuffers twoLargeCameras ["color"]).1.mRenderTargetStrides =
      [18446744073709027344] :=
  ⟨rfl, by decide, by decide, by decide, by decide, by decide, by decide, by decide⟩

/-! ### Shape materials -/

/-- C13: when a call of `GetShapeMaterial` succeeds, a second call with the
same arguments returns the same identifier and the state it was given: no
identifier is generated and no entry is added to the registry of derived
materials. -/
theorem GetShapeMaterial_idempotent (s s1 : Server) (scene_id body_id : rs_id_t) (index : Nat)
    (id : rs_id_t) (h : GetShapeMaterial s scene_id body_id index = (s1, .ok id)) :
    GetShapeMaterial s1 scene_id body_id index = (s1, .ok id) ∧
    (GetShapeMaterial s1 scene_id body_id index).1.nextId = s1.nextId ∧
    (GetShapeMaterial s1 scene_id body_id index).1.mObjectMaterialMap =
      s1.mObjectMaterialMap := by
  have key : GetShapeMaterial s1 scene_id body_id index = (s1, .ok id) := by
    rcases hget : s.mSceneMap.get? scene_id with _ | info
    · simp [GetShapeMaterial, hget] at h
    · rcases hm : info.objectMaterialIdMap.get? body_id with _ | mat_ids
      · rcases ho : info.objectMap.get? body_id with _ | object
        · simp [GetShapeMaterial, hget, hm, ho] at h
        · simp only [GetShapeMaterial, hget, hm, ho] at h
          rcases hi : (generateShapeMaterials s (objectShapes info object)).2[index]? with
            _ | mat_id
          · simp [hi] at h
          · simp only [hi, Prod.mk.injEq, Except.ok.injEq] at h
            obtain ⟨h1, h2⟩ := h
            subst h1
            simp only [GetShapeMaterial, IdMap.get?_set_self, hi, h2]
      · simp only [GetShapeMaterial, hget, hm] at h
        rcases hi : mat_ids[index]? with _ | mat_id
        · simp [hi] at h
        · simp only [hi, Prod.mk.injEq, Except.ok.injEq] at h
          obtain ⟨h1, h2⟩ := h
          subst h1
          simp only [GetShapeMaterial, hget, hm, hi, h2]
  rw [key]
  exact ⟨rfl, rfl, rfl⟩

theorem GetShapeMaterial_idempotent_witness :
    GetShapeMaterial (GetShapeMaterial bodyAndCamera 1 2 1).1 1 2 1 =
        ((GetShapeMaterial bodyAndCamera 1 2 1).1, .ok 5) ∧
    (GetShapeMaterial (GetShapeMaterial bodyAndCamera 1 2 1).1 1 2 1).1.nextId =
      (GetShapeMaterial bodyAndCamera 1 2 1).1.nextId ∧
    (GetShapeMaterial (GetShapeMaterial bodyAndCamera 1 2 1).1 1 2 1).1.mObjectMaterialMap =
      (GetShapeMaterial bodyAndCamera 1 2 1).1.mObjectMaterialMap :=
  GetShapeMaterial_idempotent bodyAndCamera _ 1 2 1 5 rfl


/-! ### Removal and the wait on the cameras -/

/-- C16: the wait of `RemoveScene` on camera 2 at frame counter 0 returns a
timeout; the reply is the `INTERNAL` status and the scene, registered before
the call, is no longer in the registry after it. -/
theorem RemoveScene_erases_after_failed_wait :
    (oneSmallCamera.mSceneMap.get? 1).map sceneWaitPairs = some [(2, 0)] ∧
    (RemoveScene oneSmallCamera 1 VkResult.eTimeout).2 =
      .error (Fault.internal "remove scene failed: waiting for camera failed") ∧
    (RemoveScene oneSmallCamera 1 VkResult.eTimeout).1.mSceneMap.get? 1 = none ∧
    (RemoveScene oneSmallCamera 1 VkResult.eTimeout).1.mSceneMap =
      (RemoveScene oneSmallCamera 1 VkResult.eSuccess).1.mSceneMap :=
  ⟨by decide, rfl, by decide, by decide⟩

/-! ### Unknown identifiers in `SetEntityOrder` -/

/-- C18: body 99 is not registered in scene 1; `SetEntityOrder` with it
succeeds, adds a null entry for 99 to the object map and records the null
pointer in `orderedObjects`, and the next `UpdateRender` with one body pose
goes through that null pointer.  An unregistered camera id makes the same
request fail. -/
theorem SetEntityOrder_records_unknown_body :
    (oneSmallCamera.mSceneMap.get? 1).map SceneInfo.objectMap = some [] ∧
    (SetEntityOrder oneSmallCamera 1 [99] []).2 = .ok () ∧
    ((SetEntityOrder oneSmallCamera 1 [99] []).1.mSceneMap.get? 1).map SceneInfo.objectMap =
      some [(99, none)] ∧
    ((SetEntityOrder oneSmallCamera 1 [99] []).1.mSceneMap.get? 1).map
      SceneInfo.orderedObjects = some [none] ∧
    (UpdateRender (SetEntityOrder oneSmallCamera 1 [99] []).1 1 [{ p := [], q := [] }] []).2 =
      .error Fault.undefinedBehaviour ∧
    (SetEntityOrder oneSmallCamera 1 [] [99]).2 = .error Fault.outOfRange :=
  ⟨by decide, rfl, by decide, by decide, rfl, rfl⟩


/-! ### The listing state under requests -/

theorem listing_update_same (s s1 : Server) (k : rs_id_t) (sc sc1 : SceneInfo)
    (hm : s1.mSceneMap = IdMap.set s.mSceneMap k sc1) (hget : s.mSceneMap.get? k = some sc)
    (h : sc1.listing = sc.listing) : s1.listing = s.listing := by
  unfold Server.listing
  rw [hm, IdMap.map_set s.mSceneMap SceneInfo.listing, h]
  apply IdMap.set_same
  rw [IdMap.get?_map s.mSceneMap SceneInfo.listing, hget]
  rfl

theorem listing_update (s s1 : Server) (k : rs_id_t) (sc1 : SceneInfo)
    (hm : s1.mSceneMap = IdMap.set s.mSceneMap k sc1) :
    s1.listing = IdMap.set s.listing k sc1.listing := by
  unfold Server.listing
  rw [hm]
  exact IdMap.map_set s.mSceneMap SceneInfo.listing k sc1

theorem listing_get? (s : Server) (k : rs_id_t) :
    s.listing.get? k = (s.mSceneMap.get? k).map SceneInfo.listing :=
  IdMap.get?_map s.mSceneMap SceneInfo.listing k

theorem listing_picture (sc : SceneInfo) (id : rs_id_t) (cam : CameraInfo) (n : Nat)
    (tasks : List PictureTask) (hc : sc.cameraMap.get? id = some cam) :
    SceneInfo.listing
      { sc with
        cameraMap := sc.cameraMap.set id { cam with frameCounter := n }
        threadRunner := tasks } = sc.listing := by
  simp only [SceneInfo.listing]
  rw [IdMap.map_set sc.cameraMap CameraInfo.cameraIndex]
  rw [IdMap.set_same]
  rw [IdMap.get?_map sc.cameraMap CameraInfo.cameraIndex, hc]
  rfl

theorem takePictures_listing :
    ∀ (ids : List rs_id_t) (sc : SceneInfo), (takePictures sc ids).1.listing = sc.listing := by
  intro ids
  induction ids with
  | nil => intro sc; rfl
  | cons id rest ih =>
    intro sc
    rcases hc : sc.cameraMap.get? id with _ | cam
    · simp only [takePictures, hc]
    · simp only [takePictures, hc]
      rw [ih]
      exact listing_picture sc id cam _ _ hc

theorem updatePoses_listing (info info1 : SceneInfo) (bp cp : List Pose)
    (h : updatePoses info bp cp = .ok info1) : info1.listing = info.listing := by
  unfold updatePoses at h
  split at h
  · cases h
  · split at h
    · cases h
    · cases h
      rfl

theorem pushFillInfo_listing (s : Server) (target : String) (buffer : Nat) (count : Int)
    (stride : Nat) :
    (pushFillInfo s target buffer count stride).listing = s.listing ∧
    (pushFillInfo s target buffer count stride).mSceneList = s.mSceneList := by
  constructor
  · simp [Server.listing, pushFillInfo, pushFillInfoScene, SceneInfo.listing, List.map_map,
      Function.comp]
  · rfl

theorem allocateTargets_listing (l : Layout) :
    ∀ (targets : List String) (s : Server) (buffers strides : List Nat),
      (allocateTargets l s targets buffers strides).1.listing = s.listing ∧
      (allocateTargets l s targets buffers strides).1.mSceneList = s.mSceneList := by
  intro targets
  induction targets with
  | nil => intro s buffers strides; exact ⟨rfl, rfl⟩
  | cons target rest ih =>
    intro s buffers strides
    rcases allocateBuffer_kind s l target with hk | ⟨name, type, hk, _, hb⟩
    · simp only [allocateTargets, hk]
      exact ⟨trivial, trivial⟩
    · by_cases hz : bufferBytes 4 (layoutShape l 4) = 0
      · simp only [allocateTargets, hk, hb, hz, if_true]
        exact ⟨trivial, trivial⟩
      · simp only [allocateTargets, hk, hb, hz, if_false]
        obtain ⟨h1, h2⟩ := ih (pushFillInfo { s with mBuffers := s.mBuffers ++ [targetBuffer l target] }
          name s.mBuffers.length l.maxCameraCount (strideOf l 4 4)) (buffers ++ [s.mBuffers.length])
          (strides ++ [strideOf l 4 4])
        rw [h1, h2, (pushFillInfo_listing _ _ _ _ _).1, (pushFillInfo_listing _ _ _ _ _).2]
        exact ⟨rfl, rfl⟩

theorem autoAllocateBuffers_listing (s : Server) (targets : List String) :
    (autoAllocateBuffers s targets).1.listing = s.listing ∧
    (autoAllocateBuffers s targets).1.mSceneList = s.mSceneList := by
  unfold autoAllocateBuffers
  by_cases hb : s.mBuffers.length ≠ 0
  · rw [if_pos hb]
    exact ⟨rfl, rfl⟩
  · rw [if_neg hb]
    rcases hv : validateLayout (scanScenes s) with e | u
    · simp only [hv]
      exact ⟨trivial, trivial⟩
    · simp only [hv]
      obtain ⟨h1, h2⟩ := allocateTargets_listing (scanScenes s) targets s [] []
      rcases hr : allocateTargets (scanScenes s) s targets [] [] with ⟨s1, r⟩
      rw [hr] at h1 h2
      rcases r with e | ⟨bufs, strs⟩
      · exact ⟨h1, h2⟩
      · exact ⟨h1, h2⟩

theorem generateShapeMaterials_mSceneList (materials : List Nat) :
    ∀ s : Server, (generateShapeMaterials s materials).1.mSceneList = s.mSceneList := by
  induction materials with
  | nil => intro s; rfl
  | cons m rest ih =>
    intro s
    simp only [generateShapeMaterials]
    rw [ih]
    rfl

theorem handle_listing (s : Server) (req : Request) : ListingStep s (s.handle req) := by
  cases req with
  | createScene index =>
    exact ListingStep.created index
      (listing_update s _ s.nextId (SceneInfo.fresh index s.nextId) rfl) rfl
      (by simp [Server.handle, CreateScene, generateId])
  | removeScene id waitResult =>
    rcases hget : s.mSceneMap.get? id with _ | info
    · simp only [Server.handle, RemoveScene, hget]
      exact ListingStep.same rfl rfl
    · rcases hslot : s.mSceneList[info.sceneIndex]? with _ | slot
      · simp only [Server.handle, RemoveScene, hget, hslot]
        exact ListingStep.same rfl rfl
      · simp only [Server.handle, RemoveScene, hget, hslot]
        have hin : info.sceneIndex < s.mSceneList.length := by
          by_contra hn
          rw [List.getElem?_eq_none (not_lt.mp hn)] at hslot
          cases hslot
        refine ListingStep.removed id info.listing ?_ hin ?_ ?_
        · rw [listing_get?, hget]
          rfl
        · simp only [updateObjectMaterialMap, Server.listing]
          split_ifs <;> exact IdMap.map_erase _ SceneInfo.listing id
        · simp only [updateObjectMaterialMap, clearSlot, SceneInfo.listing, hslot,
            Option.some.injEq]
          split_ifs <;> rfl
  | createMaterial => exact ListingStep.same rfl rfl
  | removeMaterial id => exact ListingStep.same rfl rfl
  | addBodyMesh scene_id shapeCount =>
    rcases hget : s.mSceneMap.get? scene_id with _ | info
    · simp only [Server.handle, AddBodyMesh, generateId, hget]
      exact ListingStep.same rfl rfl
    · simp only [Server.handle, AddBodyMesh, generateId, hget]
      exact ListingStep.same (listing_update_same s _ scene_id info _ rfl hget rfl) rfl
  | addBodyPrimitive scene_id type material =>
    rcases hm : getMaterial (generateId s).2 material with e | mat
    · simp only [Server.handle, AddBodyPrimitive, hm]
      exact ListingStep.same rfl rfl
    · rcases hget : s.mSceneMap.get? scene_id with _ | info
      · have hget1 : (generateId s).2.mSceneMap.get? scene_id = none := hget
        simp only [Server.handle, AddBodyPrimitive, hm, hget1]
        exact ListingStep.same rfl rfl
      · have hget1 : (generateId s).2.mSceneMap.get? scene_id = some info := hget
        simp only [Server.handle, AddBodyPrimitive, hm, hget1]
        cases type <;>
          first
          | exact ListingStep.same (listing_update_same s _ scene_id info _ rfl hget rfl) rfl
          | exact ListingStep.same rfl rfl
  | removeBody scene_id body_id =>
    rcases hget : s.mSceneMap.get? scene_id with _ | info
    · simp only [Server.handle, RemoveBody, hget]
      exact ListingStep.same rfl rfl
    · rcases ho : info.objectMap.get? body_id with _ | object
      · simp only [Server.handle, RemoveBody, hget, ho]
        exact ListingStep.same rfl rfl
      · cases object with
        | none =>
          simp only [Server.handle, RemoveBody, hget, ho]
          exact ListingStep.same rfl rfl
        | some node =>
          simp only [Server.handle, RemoveBody, hget, ho]
          exact ListingStep.same (listing_update_same s _ scene_id info _ rfl hget rfl) rfl
  | addCamera scene_id width height =>
    rcases hget : s.mSceneMap.get? scene_id with _ | info
    · simp only [Server.handle, AddCamera, generateId, hget]
      exact ListingStep.same rfl rfl
    · simp only [Server.handle, AddCamera, generateId, hget]
      refine ListingStep.camera scene_id info.listing ?_ ?_ rfl (Nat.lt_succ_self _)
      · rw [listing_get?, hget]
        rfl
      · rw [listing_update s _ scene_id _ rfl]
        simp only [SceneInfo.listing, SceneInfo.addNode]
        rw [IdMap.map_set info.cameraMap CameraInfo.cameraIndex]
        simp only [List.length_map]
  | addLight scene_id =>
    rcases hget : s.mSceneMap.get? scene_id with _ | info
    · simp only [Server.handle, AddLight, generateId, hget]
      exact ListingStep.same rfl rfl
    · simp only [Server.handle, AddLight, generateId, hget]
      exact ListingStep.same rfl rfl
  | setEntityOrder scene_id body_ids camera_ids =>
    rcases hget : s.mSceneMap.get? scene_id with _ | info
    · simp only [Server.handle, SetEntityOrder, hget]
      exact ListingStep.same rfl rfl
    · simp only [Server.handle, SetEntityOrder, hget]
      exact ListingStep.same (listing_update_same s _ scene_id info _ rfl hget rfl) rfl
  | updateRender scene_id body_poses camera_poses =>
    rcases hget : s.mSceneMap.get? scene_id with _ | info
    · simp only [Server.handle, UpdateRender, hget]
      exact ListingStep.same rfl rfl
    · rcases hp : updatePoses info body_poses camera_poses with e | info1
      · simp only [Server.handle, UpdateRender, hget, hp]
        exact ListingStep.same rfl rfl
      · simp only [Server.handle, UpdateRender, hget, hp]
        exact ListingStep.same
          (listing_update_same s _ scene_id info _ rfl hget (updatePoses_listing _ _ _ _ hp)) rfl
  | updateRenderAndTakePictures scene_id body_poses camera_poses camera_ids =>
    rcases hget : s.mSceneMap.get? scene_id with _ | info
    · simp only [Server.handle, UpdateRenderAndTakePictures, hget]
      exact ListingStep.same rfl rfl
    · rcases hp : updatePoses info body_poses camera_poses with e | info1
      · simp only [Server.handle, UpdateRenderAndTakePictures, hget, hp]
        exact ListingStep.same rfl rfl
      · simp only [Server.handle, UpdateRenderAndTakePictures, hget, hp]
        refine ListingStep.same (listing_update_same s _ scene_id info _ rfl hget ?_) rfl
        rw [takePictures_listing, updatePoses_listing _ _ _ _ hp]
  | getShapeMaterial scene_id body_id index =>
    rcases hget : s.mSceneMap.get? scene_id with _ | info
    · simp only [Server.handle, GetShapeMaterial, hget]
      exact ListingStep.same rfl rfl
    · rcases hm : info.objectMaterialIdMap.get? body_id with _ | mat_ids
      · rcases ho : info.objectMap.get? body_id with _ | object
        · simp only [Server.handle, GetShapeMaterial, hget, hm, ho]
          exact ListingStep.same rfl rfl
        · simp only [Server.handle, GetShapeMaterial, hget, hm, ho]
          have hmap := generateShapeMaterials_mSceneMap (objectShapes info object) s
          have hl := generateShapeMaterials_mSceneList (objectShapes info object) s
          split <;>
          · exact ListingStep.same (listing_update_same s _ scene_id info
              { info with
                objectMaterialIdMap := info.objectMaterialIdMap.set body_id
                  (generateShapeMaterials s (objectShapes info object)).2 }
              (congrArg (fun m => IdMap.set m scene_id _) hmap) hget rfl) hl
      · simp only [Server.handle, GetShapeMaterial, hget, hm]
        split <;> exact ListingStep.same rfl rfl
  | takePicture scene_id camera_id =>
    rcases hget : s.mSceneMap.get? scene_id with _ | info
    · simp only [Server.handle, TakePicture, hget]
      exact ListingStep.same rfl rfl
    · rcases hc : info.cameraMap.get? camera_id with _ | cam
      · simp only [Server.handle, TakePicture, hget, hc]
        exact ListingStep.same rfl rfl
      · simp only [Server.handle, TakePicture, hget, hc]
        exact ListingStep.same
          (listing_update_same s _ scene_id info _ rfl hget (listing_picture info _ cam _ _ hc))
          rfl
  | autoAllocateBuffers renderTargets =>
    exact ListingStep.same (autoAllocateBuffers_listing s renderTargets).1
      (autoAllocateBuffers_listing s renderTargets).2

/-! ### The listing invariant -/

theorem IdMap.set_fresh {α : Type} (m : IdMap α) (k : rs_id_t) (v : α)
    (h : ∀ kv ∈ m, kv.1 ≠ k) : IdMap.set m k v = m ++ [(k, v)] := by
  induction m with
  | nil => rfl
  | cons e rest ih =>
    obtain ⟨k1, v1⟩ := e
    have h1 : k1 ≠ k := h (k1, v1) (List.mem_cons_self _ _)
    simp only [IdMap.set, h1, if_false, List.cons_append, List.cons.injEq, true_and]
    exact ih fun kv hkv => h kv (List.mem_cons_of_mem _ hkv)

theorem listedScene_mono (a b : Nat) (hab : a ≤ b) (p : Nat × List rs_id_t × IdMap Nat)
    (h : ListedScene a p) : ListedScene b p :=
  ⟨h.1, fun kv hkv => lt_of_lt_of_le (h.2.1 kv hkv) hab, h.2.2.1, h.2.2.2⟩

theorem listedScene_camera (bound next : Nat) (hn : bound < next)
    (p : Nat × List rs_id_t × IdMap Nat) (h : ListedScene bound p) :
    ListedScene next (p.1, p.2.1 ++ [bound], IdMap.set p.2.2 bound p.2.2.length) := by
  obtain ⟨h1, h2, h3, h4⟩ := h
  have hfresh : ∀ kv ∈ p.2.2, kv.1 ≠ bound := fun kv hkv => Nat.ne_of_lt (h2 kv hkv)
  have hset := IdMap.set_fresh p.2.2 bound p.2.2.length hfresh
  refine ⟨?_, ?_, ?_, ?_⟩
  · simp only [hset, List.map_append, List.map_cons, List.map_nil, h1]
  · intro kv hkv
    simp only [hset, List.mem_append, List.mem_singleton] at hkv
    rcases hkv with hkv | hkv
    · exact lt_trans (h2 kv hkv) hn
    · rw [hkv]
      exact hn
  · simp only [hset, List.map_append, List.map_cons, List.map_nil]
    rw [List.nodup_append]
    refine ⟨h3, List.nodup_singleton _, ?_⟩
    intro a ha hb
    rw [List.mem_singleton] at hb
    rw [List.mem_map] at ha
    obtain ⟨kv, hkv, hk⟩ := ha
    exact hfresh kv hkv (hk.trans hb)
  · simp only [hset, List.map_append, List.map_cons, List.map_nil, List.length_append,
      List.length_singleton, List.range_succ, h4]

theorem listed_empty : Server.empty.Listed := by
  refine ⟨?_, ?_, ?_⟩
  · intro kv hkv
    cases hkv
  · intro i id h
    simp [Server.empty] at h
  · intro id p h
    simp [Server.empty, Server.listing, IdMap.get?] at h

theorem storeSlot_length (slots : List (Option rs_id_t)) (index : Nat) (id : rs_id_t) :
    index < (storeSlot slots index id).length ∧ slots.length ≤ (storeSlot slots index id).length := by
  unfold storeSlot
  split_ifs with h
  · simp only [List.length_set, List.length_append, List.length_replicate]
    omega
  · simp only [List.length_set]
    omega

theorem storeSlot_getElem? (slots : List (Option rs_id_t)) (index : Nat) (id : rs_id_t)
    (i : Nat) (x : rs_id_t) (h : (storeSlot slots index id)[i]? = some (some x)) :
    (i = index ∧ x = id) ∨ (i ≠ index ∧ slots[i]? = some (some x)) := by
  unfold storeSlot at h
  by_cases hi : i = index
  · left
    refine ⟨hi, ?_⟩
    subst hi
    split_ifs at h with hl
    · rw [List.getElem?_set_self (by simp; omega)] at h
      simp only [Option.some.injEq] at h
      exact h.symm
    · rw [List.getElem?_set_self (by omega)] at h
      simp only [Option.some.injEq] at h
      exact h.symm
  · right
    refine ⟨hi, ?_⟩
    have hne : index ≠ i := fun e => hi e.symm
    split_ifs at h with hl
    · rw [List.getElem?_set_ne hne] at h
      by_cases hlt : i < slots.length
      · rw [List.getElem?_append_left hlt] at h
        exact h
      · rw [List.getElem?_append_right (not_lt.mp hlt)] at h
        rcases hr : (List.replicate (index + 1 - slots.length) (none : Option rs_id_t))[i - slots.length]? with _ | y
        · rw [hr] at h
          cases h
        · rw [hr] at h
          have := List.eq_of_mem_replicate (List.getElem?_mem hr)
          rw [this] at h
          cases h
    · rw [List.getElem?_set_ne hne] at h
      exact h

theorem clearSlot_length (slots : List (Option rs_id_t)) (index : Nat) (id : rs_id_t) :
    (clearSlot slots index id).length = slots.length := by
  unfold clearSlot
  split_ifs
  · exact List.length_set _ _ _
  · rfl

theorem clearSlot_getElem? (slots : List (Option rs_id_t)) (index : Nat) (id : rs_id_t)
    (i : Nat) (x : rs_id_t) (h : (clearSlot slots index id)[i]? = some (some x)) :
    slots[i]? = some (some x) ∧ ¬ (i = index ∧ x = id) := by
  unfold clearSlot at h
  split_ifs at h with hs
  · by_cases hi : index = i
    · subst hi
      have hlt : index < slots.length := by
        by_contra hn
        rw [List.getElem?_eq_none (not_lt.mp hn)] at hs
        cases hs
      rw [List.getElem?_set_self hlt] at h
      cases h
    · rw [List.getElem?_set_ne hi] at h
      exact ⟨h, fun hc => hi hc.1.symm⟩
  · refine ⟨h, fun hc => hs ?_⟩
    rw [← hc.1, ← hc.2]
    exact h

theorem listed_handle (s : Server) (req : Request) (h : s.Listed) : (s.handle req).Listed := by
  obtain ⟨h1, h2, h3⟩ := h
  have hmono : s.nextId ≤ (s.handle req).nextId := (handle_pacing s req).1
  have hkey : ∀ id p, s.listing.get? id = some p → id < s.nextId := fun id p hp =>
    (h1 (id, p) (IdMap.mem_of_get? _ _ _ hp)).1
  rcases handle_listing s req with ⟨hs, hl⟩ | ⟨index, hs, hl, hn⟩ | ⟨id, p, hget, hin, hs, hl⟩ |
    ⟨scene_id, p, hget, hs, hl, hn⟩
  · refine ⟨?_, ?_, ?_⟩
    · intro kv hkv
      rw [hs] at hkv
      exact ⟨lt_of_lt_of_le (h1 kv hkv).1 hmono, listedScene_mono _ _ hmono _ (h1 kv hkv).2⟩
    · rw [hs, hl]
      exact h2
    · rw [hs, hl]
      exact h3
  · refine ⟨?_, ?_, ?_⟩
    · intro kv hkv
      rw [hs] at hkv
      rcases IdMap.mem_set _ _ _ _ hkv with hkv | hkv
      · exact ⟨lt_of_lt_of_le (h1 kv hkv).1 hmono, listedScene_mono _ _ hmono _ (h1 kv hkv).2⟩
      · rw [hkv]
        refine ⟨hn, rfl, ?_, List.nodup_nil, rfl⟩
        intro c hc
        cases hc
    · intro i id hi
      rw [hl] at hi
      rw [hs]
      rcases storeSlot_getElem? _ _ _ _ _ hi with ⟨e1, e2⟩ | ⟨_, hold⟩
      · rw [e1, e2]
        exact ⟨_, IdMap.get?_set_self _ _ _, rfl⟩
      · obtain ⟨p, hp, hpi⟩ := h2 i id hold
        refine ⟨p, ?_, hpi⟩
        rw [IdMap.get?_set_ne _ _ _ _ (Nat.ne_of_lt (hkey id p hp))]
        exact hp
    · intro id p hp
      rw [hs] at hp
      rw [hl]
      by_cases hid : id = s.nextId
      · rw [hid, IdMap.get?_set_self] at hp
        cases hp
        exact (storeSlot_length _ _ _).1
      · rw [IdMap.get?_set_ne _ _ _ _ hid] at hp
        exact lt_of_lt_of_le (h3 id p hp) (storeSlot_length _ _ _).2
  · refine ⟨?_, ?_, ?_⟩
    · intro kv hkv
      rw [hs] at hkv
      have hkv := IdMap.mem_erase _ _ _ hkv
      exact ⟨lt_of_lt_of_le (h1 kv hkv).1 hmono, listedScene_mono _ _ hmono _ (h1 kv hkv).2⟩
    · intro i x hi
      rw [hl] at hi
      rw [hs]
      obtain ⟨hold, hne⟩ := clearSlot_getElem? _ _ _ _ _ hi
      obtain ⟨q, hq, hqi⟩ := h2 i x hold
      refine ⟨q, ?_, hqi⟩
      rw [IdMap.get?_erase]
      have hx : x ≠ id := by
        intro e
        rw [e, hget] at hq
        cases hq
        exact hne ⟨hqi.symm, e⟩
      rw [if_neg hx]
      exact hq
    · intro x q hq
      rw [hs, IdMap.get?_erase] at hq
      rw [hl, clearSlot_length]
      split_ifs at hq
      exact h3 x q hq
  · refine ⟨?_, ?_, ?_⟩
    · intro kv hkv
      rw [hs] at hkv
      rcases IdMap.mem_set _ _ _ _ hkv with hkv | hkv
      · exact ⟨lt_of_lt_of_le (h1 kv hkv).1 hmono, listedScene_mono _ _ hmono _ (h1 kv hkv).2⟩
      · have hp := h1 (scene_id, p) (IdMap.mem_of_get? _ _ _ hget)
        rw [hkv]
        exact ⟨lt_of_lt_of_le hp.1 hmono, listedScene_camera _ _ hn _ hp.2⟩
    · intro i x hi
      rw [hl] at hi
      rw [hs]
      obtain ⟨q, hq, hqi⟩ := h2 i x hi
      by_cases hx : x = scene_id
      · rw [hx, IdMap.get?_set_self]
        rw [hx, hget] at hq
        cases hq
        exact ⟨_, rfl, hqi⟩
      · rw [IdMap.get?_set_ne _ _ _ _ hx]
        exact ⟨q, hq, hqi⟩
    · intro x q hq
      rw [hs] at hq
      rw [hl]
      by_cases hx : x = scene_id
      · rw [hx, IdMap.get?_set_self] at hq
        cases hq
        exact h3 scene_id p hget
      · rw [IdMap.get?_set_ne _ _ _ _ hx] at hq
        exact h3 x q hq

theorem listed_run (requests : List Request) :
    ∀ s : Server, s.Listed → (s.run requests).Listed := by
  induction requests with
  | nil => intro s h; exact h
  | cons req rest ih =>
    intro s h
    exact ih (s.handle req) (listed_handle s req h)

/-! ### Waiting on the cameras of the registry and of the slots -/

theorem IdMap.filterMap_keys {α β : Type} (f : rs_id_t → α → β) (m : IdMap α)
    (hnd : (m.map Prod.fst).Nodup) :
    (m.map Prod.fst).filterMap (fun k => (m.get? k).map (f k)) =
      m.map fun kv => f kv.1 kv.2 := by
  induction m with
  | nil => rfl
  | cons e rest ih =>
    obtain ⟨k, v⟩ := e
    simp only [List.map_cons, List.nodup_cons] at hnd
    have hhead : IdMap.get? ((k, v) :: rest) k = some v := by simp [IdMap.get?]
    simp only [List.map_cons, List.filterMap_cons, hhead, Option.map_some']
    congr 1
    rw [← ih hnd.2]
    apply List.filterMap_congr
    intro k2 hk2
    have hne : ¬ k = k2 := fun e => hnd.1 (e ▸ hk2)
    simp only [IdMap.get?, hne, if_false]

theorem listWaitPairs_eq (bound : Nat) (sc : SceneInfo) (h : ListedScene bound sc.listing) :
    listWaitPairs sc = sceneWaitPairs sc := by
  obtain ⟨h1, _, h3, _⟩ := h
  have hkeys : (sc.listing.2.2.map Prod.fst) = sc.cameraMap.map Prod.fst := by
    simp [SceneInfo.listing, List.map_map, Function.comp]
  rw [hkeys] at h1 h3
  have hl : sc.cameraList = sc.cameraMap.map Prod.fst := h1
  unfold listWaitPairs sceneWaitPairs
  rw [hl]
  exact IdMap.filterMap_keys (fun id cam => (id, cam.frameCounter)) sc.cameraMap h3

theorem listed_scene (s : Server) (h : s.Listed) (id : rs_id_t) (sc : SceneInfo)
    (hget : s.mSceneMap.get? id = some sc) : ListedScene s.nextId sc.listing := by
  have hg : s.listing.get? id = some sc.listing := by
    rw [listing_get?, hget]
    rfl
  exact (h.1 (id, sc.listing) (IdMap.mem_of_get? _ _ _ hg)).2

theorem listed_slot (s : Server) (h : s.Listed) (i : Nat) (id : rs_id_t)
    (hslot : s.mSceneList[i]? = some (some id)) :
    ∃ sc, s.mSceneMap.get? id = some sc ∧ sc.sceneIndex = i := by
  obtain ⟨p, hp, hpi⟩ := h.2.1 i id hslot
  rw [listing_get?] at hp
  rcases hget : s.mSceneMap.get? id with _ | sc
  · rw [hget] at hp
    cases hp
  · rw [hget] at hp
    simp only [Option.map_some', Option.some.injEq] at hp
    refine ⟨sc, rfl, ?_⟩
    rw [← hpi, ← hp]
    rfl

theorem gatherScenes_listed (s : Server) (h : s.Listed) :
    ∀ list : List Int,
      (∀ index ∈ list, ∃ id, s.mSceneList[toSizeT index]? = some (some id)) →
      (∀ index ∈ list, ∃ sc, s.slotScene? index = some sc) ∧
      gatherScenes s list =
        .ok (list.flatMap fun index => ((s.slotScene? index).map sceneWaitPairs).getD []) := by
  intro list
  induction list with
  | nil =>
    intro _
    exact ⟨fun index hi => absurd hi (List.not_mem_nil _), rfl⟩
  | cons index rest ih =>
    intro hl
    obtain ⟨id, hid⟩ := hl index (List.mem_cons_self _ _)
    obtain ⟨sc, hsc, _⟩ := listed_slot s h _ id hid
    obtain ⟨ih1, ih2⟩ := ih fun i hi => hl i (List.mem_cons_of_mem _ hi)
    have hslot : s.slotScene? index = some sc := by
      simp only [Server.slotScene?, hid, hsc]
    constructor
    · intro i hi
      rcases List.mem_cons.mp hi with e | hi
      · rw [e]
        exact ⟨sc, hslot⟩
      · exact ih1 i hi
    · simp only [gatherScenes, hid, hsc, ih2, List.flatMap_cons, hslot, Option.map_some',
        Option.getD_some]
      rw [listWaitPairs_eq s.nextId sc (listed_scene s h id sc hsc)]

theorem RemoveScene_found (s : Server) (id : rs_id_t) (waitResult : VkResult) (info : SceneInfo)
    (hget : s.mSceneMap.get? id = some info) (hin : info.sceneIndex < s.mSceneList.length) :
    (RemoveScene s id waitResult).1.mSceneMap = s.mSceneMap.erase id ∧
    (RemoveScene s id waitResult).1.mSceneList = clearSlot s.mSceneList info.sceneIndex id ∧
    (RemoveScene s id waitResult).2 ≠ .error Fault.outOfRange := by
  rcases hslot : s.mSceneList[info.sceneIndex]? with _ | slot
  · rw [List.getElem?_eq_none_iff] at hslot
    omega
  · simp only [RemoveScene, hget, hslot, updateObjectMaterialMap, clearSlot,
      Option.some.injEq]
    refine ⟨?_, ?_, ?_⟩
    · split_ifs <;> rfl
    · split_ifs <;> rfl
    · split_ifs
      · intro h
        cases h
      · intro h
        cases h

theorem listed_index (s : Server) (h : s.Listed) (id : rs_id_t) (info : SceneInfo)
    (hget : s.mSceneMap.get? id = some info) : info.sceneIndex < s.mSceneList.length := by
  have hg : s.listing.get? id = some info.listing := by
    rw [listing_get?, hget]
    rfl
  exact h.2.2 id info.listing hg

/-- C14: in every state reached from the empty server by a sequence of
requests of any kind (so of `CreateScene`, `AddCamera` and `RemoveScene`), a
slot of the slot table that is not null names a scene that is in the registry
and whose scene index is the slot; and after `RemoveScene(id)`, whatever it
replies, no slot names `id`. -/
theorem slot_table_live (requests : List Request) :
    (∀ (i : Nat) (id : rs_id_t), (Server.empty.run requests).mSceneList[i]? = some (some id) →
      ∃ sc, (Server.empty.run requests).mSceneMap.get? id = some sc ∧ sc.sceneIndex = i) ∧
    ∀ (id : rs_id_t) (waitResult : VkResult) (i : Nat),
      (RemoveScene (Server.empty.run requests) id waitResult).1.mSceneList[i]? ≠
        some (some id) := by
  have hl : (Server.empty.run requests).Listed := listed_run requests _ listed_empty
  refine ⟨fun i id hi => listed_slot _ hl i id hi, ?_⟩
  intro id waitResult i hi
  rcases hget : (Server.empty.run requests).mSceneMap.get? id with _ | info
  · simp only [RemoveScene, hget] at hi
    obtain ⟨sc, hsc, _⟩ := listed_slot _ hl i id hi
    rw [hget] at hsc
    cases hsc
  · have hf := RemoveScene_found _ id waitResult info hget (listed_index _ hl id info hget)
    rw [hf.2.1] at hi
    obtain ⟨hold, hne⟩ := clearSlot_getElem? _ _ _ _ _ hi
    obtain ⟨sc, hsc, hidx⟩ := listed_slot _ hl i id hold
    rw [hget] at hsc
    cases hsc
    exact hne ⟨hidx.symm, rfl⟩

/-- C17: in a state reached from the empty server, `waitAll` waits on the
pairs (semaphore, frame counter) of every camera of every registered scene
and on nothing else; `waitScenes`, for a list of indices whose slots hold a
scene, waits on the pairs of the cameras of the scenes in the listed slots, in
the order of the list; each replies true for a successful wait, false for a
timeout, and raises for every other result. -/
theorem wait_pairs (s : Server) (requests : List Request) (list : List Int)
    (result : VkResult) (hs : s = Server.empty.run requests)
    (hlist : ∀ index ∈ list, ∃ id, s.mSceneList[toSizeT index]? = some (some id)) :
    (waitAll s result).1 = s.scenes.flatMap sceneWaitPairs ∧
    (∀ kv ∈ s.mSceneMap, ∀ c ∈ kv.2.cameraMap,
      (c.1, c.2.frameCounter) ∈ (waitAll s result).1) ∧
    (∀ pair ∈ (waitAll s result).1,
      ∃ kv ∈ s.mSceneMap, ∃ c ∈ kv.2.cameraMap, pair = (c.1, c.2.frameCounter)) ∧
    (∀ index ∈ list, ∃ sc, s.slotScene? index = some sc) ∧
    (waitScenes s list result).1 =
      list.flatMap (fun index => ((s.slotScene? index).map sceneWaitPairs).getD []) ∧
    (waitScenes s list result).2 = (waitAll s result).2 ∧
    (result = VkResult.eSuccess → (waitAll s result).2 = .ok true) ∧
    (result = VkResult.eTimeout → (waitAll s result).2 = .ok false) ∧
    (result = VkResult.eOther →
      (waitAll s result).2 = .error (Fault.runtimeError "failed to wait")) := by
  have hl : s.Listed := by
    rw [hs]
    exact listed_run requests _ listed_empty
  obtain ⟨hg1, hg2⟩ := gatherScenes_listed s hl list hlist
  refine ⟨?_, ?_, ?_, hg1, ?_, ?_, ?_, ?_, ?_⟩
  · simp only [waitAll, Server.scenes, List.flatMap_map]
    rfl
  · intro kv hkv c hc
    simp only [waitAll, List.mem_flatMap, List.mem_map]
    exact ⟨kv, hkv, c, hc, rfl⟩
  · intro pair hp
    simp only [waitAll, List.mem_flatMap, List.mem_map] at hp
    obtain ⟨kv, hkv, c, hc, he⟩ := hp
    exact ⟨kv, hkv, c, hc, he.symm⟩
  · simp only [waitScenes, hg2]
  · simp only [waitScenes, hg2, waitAll]
  · intro hr
    rw [hr]
    rfl
  · intro hr
    rw [hr]
    rfl
  · intro hr
    rw [hr]
    rfl

theorem wait_pairs_witness :
    (waitScenes mixedCameras [2, 0] VkResult.eSuccess).1 =
      [2, 0].flatMap
        (fun index => ((mixedCameras.slotScene? index).map sceneWaitPairs).getD []) :=
  (wait_pairs mixedCameras
    [Request.createScene 0, Request.addCamera 1 640 480, Request.addCamera 1 320 240,
      Request.createScene 2, Request.addCamera 4 1024 768] [2, 0] VkResult.eSuccess rfl
    (fun index hi => by
      simp only [List.mem_cons, List.mem_singleton, List.not_mem_nil, or_false] at hi
      rcases hi with e | e
      · exact ⟨4, by rw [e]; decide⟩
      · exact ⟨1, by rw [e]; decide⟩)).2.2.2.2.1

/-! ### The client: order and poses -/

theorem lastOrder_append (l1 l2 : List ClientRequest) :
    lastOrder (l1 ++ l2) =
      match lastOrder l2 with
      | some order => some order
      | none => lastOrder l1 := by
  induction l1 with
  | nil =>
    simp only [List.nil_append, lastOrder]
    cases lastOrder l2 <;> rfl
  | cons req rest ih =>
    have hstep : ∀ l : List ClientRequest, lastOrder (req :: l) =
        match lastOrder l with
        | some order => some order
        | none =>
          match req with
          | ClientRequest.setEntityOrder _ body_ids camera_ids => some (body_ids, camera_ids)
          | _ => none := fun _ => rfl
    rw [List.cons_append, hstep, hstep, ih]
    cases lastOrder l2 <;> rfl

theorem map_set_same {α β : Type} (f : α → β) :
    ∀ (l : List α) (i : Nat) (a b : α), l[i]? = some a → f b = f a →
      (l.set i b).map f = l.map f := by
  intro l
  induction l with
  | nil => intro i a b h _; rfl
  | cons x rest ih =>
    intro i a b h hf
    cases i with
    | zero =>
      simp only [List.getElem?_cons_zero, Option.some.injEq] at h
      simp only [List.set_cons_zero, List.map_cons, hf, h]
    | succ n =>
      simp only [List.getElem?_cons_succ] at h
      simp only [List.set_cons_succ, List.map_cons, ih n a b h hf]

theorem flatMap_set_same {α β : Type} (f : α → List β) (l : List α) (i : Nat) (a b : α)
    (h : l[i]? = some a) (hf : f b = f a) : (l.set i b).flatMap f = l.flatMap f := by
  rw [List.flatMap_def, List.flatMap_def, map_set_same f l i a b h hf]

theorem moveBody_ids (c : ClientSystem) (i : Nat) (pose : Pose) :
    (c.moveBody i pose).bodyIds = c.bodyIds ∧ (c.moveBody i pose).cameraIds = c.cameraIds ∧
    (c.moveBody i pose).mIdSynced = c.mIdSynced ∧
    (c.moveBody i pose).mServerId = c.mServerId ∧
    (c.moveBody i pose).mRenderBodies.map ClientRenderBodyComponent.renderShapes =
      c.mRenderBodies.map ClientRenderBodyComponent.renderShapes ∧
    (c.moveBody i pose).mCameras = c.mCameras := by
  unfold ClientSystem.moveBody
  rcases h : c.mRenderBodies[i]? with _ | body
  · exact ⟨rfl, rfl, rfl, rfl, rfl, rfl⟩
  · refine ⟨?_, rfl, rfl, rfl, ?_, rfl⟩
    · exact flatMap_set_same _ c.mRenderBodies i body _ h rfl
    · exact map_set_same _ c.mRenderBodies i body _ h rfl

theorem moveCamera_ids (c : ClientSystem) (j : Nat) (pose : Pose) :
    (c.moveCamera j pose).bodyIds = c.bodyIds ∧
    (c.moveCamera j pose).cameraIds = c.cameraIds ∧
    (c.moveCamera j pose).mIdSynced = c.mIdSynced ∧
    (c.moveCamera j pose).mServerId = c.mServerId ∧
    (c.moveCamera j pose).mRenderBodies = c.mRenderBodies := by
  unfold ClientSystem.moveCamera
  rcases h : c.mCameras[j]? with _ | camera
  · exact ⟨rfl, rfl, rfl, rfl, rfl⟩
  · refine ⟨rfl, ?_, rfl, rfl, rfl⟩
    exact map_set_same _ c.mCameras j camera _ h rfl

theorem syncId_cases (c : ClientSystem) (status : Status) :
    (c.mIdSynced = true ∧ c.syncId status = (c, [], .ok ())) ∨
    (c.mIdSynced = false ∧ status = Status.ok ∧
      c.syncId status = ({ c with mIdSynced := true },
        [ClientRequest.setEntityOrder c.mServerId c.bodyIds c.cameraIds], .ok ())) ∨
    (c.mIdSynced = false ∧ ∃ message, status = Status.error message ∧
      c.syncId status = (c, [ClientRequest.setEntityOrder c.mServerId c.bodyIds c.cameraIds],
        .error (Fault.runtimeError ("failed to sync id: " ++ message)))) := by
  unfold ClientSystem.syncId
  cases hs : c.mIdSynced
  · right
    cases status with
    | ok => exact Or.inl ⟨rfl, rfl, by simp⟩
    | error message => exact Or.inr ⟨rfl, message, rfl, by simp⟩
  · exact Or.inl ⟨rfl, by simp⟩

theorem lastOrder_order (log : List ClientRequest) (id : rs_id_t) (b k : List rs_id_t)
    (after : List ClientRequest) (h : lastOrder after = none) :
    lastOrder (log ++ ClientRequest.setEntityOrder id b k :: after) = some (b, k) := by
  rw [lastOrder_append]
  simp only [lastOrder, h]

theorem synced_perform (mul : Pose → Pose → Pose) (c : ClientSystem) (log : List ClientRequest)
    (call : ClientCall) (h : c.Synced log) :
    (c.perform mul call).1.Synced (log ++ (c.perform mul call).2) := by
  cases call with
  | registerBody body =>
    intro hs
    cases hs
  | registerCamera camera =>
    intro hs
    cases hs
  | moveBody i pose =>
    obtain ⟨h1, h2, h3, _⟩ := moveBody_ids c i pose
    intro hs
    simp only [ClientSystem.perform, List.append_nil] at hs ⊢
    rw [h1, h2]
    exact h (h3 ▸ hs)
  | moveCamera j pose =>
    obtain ⟨h1, h2, h3, _⟩ := moveCamera_ids c j pose
    intro hs
    simp only [ClientSystem.perform, List.append_nil] at hs ⊢
    rw [h1, h2]
    exact h (h3 ▸ hs)
  | setAmbientLight status =>
    intro hs
    simp only [ClientSystem.perform, ClientSystem.setAmbientLight] at hs ⊢
    rw [lastOrder_append]
    exact h hs
  | addPointLight status =>
    intro hs
    simp only [ClientSystem.perform, ClientSystem.addPointLight] at hs ⊢
    rw [lastOrder_append]
    exact h hs
  | addDirectionalLight status =>
    intro hs
    simp only [ClientSystem.perform, ClientSystem.addDirectionalLight] at hs ⊢
    rw [lastOrder_append]
    exact h hs
  | step orderStatus renderStatus =>
    intro hs
    simp only [ClientSystem.perform, ClientSystem.step] at hs ⊢
    rcases syncId_cases c orderStatus with ⟨h1, h2⟩ | ⟨h1, _, h2⟩ | ⟨h1, m, _, h2⟩
    · simp only [h2] at hs ⊢
      rw [List.nil_append, lastOrder_append]
      exact h h1
    · simp only [h2] at hs ⊢
      exact lastOrder_order log _ _ _ _ rfl
    · simp only [h2] at hs ⊢
      rw [h1] at hs
      cases hs
  | updateRenderAndTakePictures cameras orderStatus renderStatus =>
    intro hs
    simp only [ClientSystem.perform, ClientSystem.updateRenderAndTakePictures] at hs ⊢
    rcases syncId_cases c orderStatus with ⟨h1, h2⟩ | ⟨h1, _, h2⟩ | ⟨h1, m, _, h2⟩
    · simp only [h2] at hs ⊢
      rw [List.nil_append, lastOrder_append]
      exact h h1
    · simp only [h2] at hs ⊢
      exact lastOrder_order log _ _ _ _ rfl
    · simp only [h2] at hs ⊢
      rw [h1] at hs
      cases hs

theorem synced_run (mul : Pose → Pose → Pose) (calls : List ClientCall) :
    ∀ st : ClientSystem × List ClientRequest, st.1.Synced st.2 →
      (ClientSystem.run mul st calls).1.Synced (ClientSystem.run mul st calls).2 := by
  induction calls with
  | nil => intro st h; exact h
  | cons call rest ih =>
    intro st h
    exact ih _ (synced_perform mul st.1 st.2 call h)

theorem shapes_ids (c : ClientSystem) :
    c.bodyIds = c.shapes.map fun x => x.2.serverId := by
  unfold ClientSystem.bodyIds ClientSystem.shapes
  induction c.mRenderBodies with
  | nil => rfl
  | cons body rest ih =>
    simp only [List.flatMap_cons, List.map_append, List.map_map, ih]
    rfl

theorem shapes_poses (mul : Pose → Pose → Pose) (c : ClientSystem) :
    c.bodyPoses mul = c.shapes.map fun x => mul x.1 x.2.localPose := by
  unfold ClientSystem.bodyPoses ClientSystem.shapes
  induction c.mRenderBodies with
  | nil => rfl
  | cons body rest ih =>
    simp only [List.flatMap_cons, List.map_append, List.map_map, ih]
    rfl

theorem perform_registered (mul : Pose → Pose → Pose) (c : ClientSystem) (call : ClientCall) :
    (c.perform mul call).1.mRenderBodies.map ClientRenderBodyComponent.renderShapes =
      (c.mRenderBodies ++ registeredBodies [call]).map ClientRenderBodyComponent.renderShapes ∧
    (c.perform mul call).1.mCameras.map ClientCameraComponent.serverId =
      (c.mCameras ++ registeredCameras [call]).map ClientCameraComponent.serverId ∧
    (c.perform mul call).1.mServerId = c.mServerId := by
  cases call with
  | registerBody body => exact ⟨rfl, by simp [ClientSystem.perform, ClientSystem.registerBody,
      registeredCameras], rfl⟩
  | registerCamera camera => exact ⟨by simp [ClientSystem.perform, ClientSystem.registerCamera,
      registeredBodies], rfl, rfl⟩
  | moveBody i pose =>
    obtain ⟨_, _, _, h4, h5, h6⟩ := moveBody_ids c i pose
    simp only [ClientSystem.perform, registeredBodies, registeredCameras, List.append_nil]
    exact ⟨h5, by rw [h6], h4⟩
  | moveCamera j pose =>
    obtain ⟨_, h2, _, h4, h5⟩ := moveCamera_ids c j pose
    simp only [ClientSystem.perform, registeredBodies, registeredCameras, List.append_nil]
    exact ⟨by rw [h5], h2, h4⟩
  | setAmbientLight status => exact ⟨by simp [ClientSystem.perform, registeredBodies],
      by simp [ClientSystem.perform, registeredCameras], rfl⟩
  | addPointLight status => exact ⟨by simp [ClientSystem.perform, registeredBodies],
      by simp [ClientSystem.perform, registeredCameras], rfl⟩
  | addDirectionalLight status => exact ⟨by simp [ClientSystem.perform, registeredBodies],
      by simp [ClientSystem.perform, registeredCameras], rfl⟩
  | step orderStatus renderStatus =>
    simp only [ClientSystem.perform, ClientSystem.step, registeredBodies, registeredCameras,
      List.append_nil]
    rcases syncId_cases c orderStatus with ⟨_, h2⟩ | ⟨_, _, h2⟩ | ⟨_, m, _, h2⟩ <;>
      simp only [h2, and_self]
  | updateRenderAndTakePictures cameras orderStatus renderStatus =>
    simp only [ClientSystem.perform, ClientSystem.updateRenderAndTakePictures,
      registeredBodies, registeredCameras, List.append_nil]
    rcases syncId_cases c orderStatus with ⟨_, h2⟩ | ⟨_, _, h2⟩ | ⟨_, m, _, h2⟩ <;>
      simp only [h2, and_self]

theorem registeredBodies_cons (call : ClientCall) (rest : List ClientCall) :
    registeredBodies (call :: rest) = registeredBodies [call] ++ registeredBodies rest := by
  cases call <;> rfl

theorem registeredCameras_cons (call : ClientCall) (rest : List ClientCall) :
    registeredCameras (call :: rest) = registeredCameras [call] ++ registeredCameras rest := by
  cases call <;> rfl

theorem run_registered (mul : Pose → Pose → Pose) (calls : List ClientCall) :
    ∀ st : ClientSystem × List ClientRequest,
      (ClientSystem.run mul st calls).1.mRenderBodies.map
          ClientRenderBodyComponent.renderShapes =
        (st.1.mRenderBodies ++ registeredBodies calls).map
          ClientRenderBodyComponent.renderShapes ∧
      (ClientSystem.run mul st calls).1.mCameras.map ClientCameraComponent.serverId =
        (st.1.mCameras ++ registeredCameras calls).map ClientCameraComponent.serverId ∧
      (ClientSystem.run mul st calls).1.mServerId = st.1.mServerId := by
  induction calls with
  | nil =>
    intro st
    simp [ClientSystem.run, registeredBodies, registeredCameras]
  | cons call rest ih =>
    intro st
    obtain ⟨h1, h2, h3⟩ := ih ((st.1.perform mul call).1, st.2 ++ (st.1.perform mul call).2)
    obtain ⟨p1, p2, p3⟩ := perform_registered mul st.1 call
    simp only [ClientSystem.run]
    rw [h1, h2, h3, registeredBodies_cons, registeredCameras_cons]
    simp only [List.map_append] at p1 p2 ⊢
    rw [p1, p2, p3]
    simp only [List.append_assoc, and_self]

theorem perform_pose (mul : Pose → Pose → Pose) (c : ClientSystem) (log : List ClientRequest)
    (call : ClientCall) (req : ClientRequest) (body_poses camera_poses : List Pose)
    (h : c.Synced log) (hreq : req ∈ (c.perform mul call).2)
    (hp : req.poses? = some (body_poses, camera_poses)) :
    lastOrder (log ++ (c.perform mul call).2) = some (c.bodyIds, c.cameraIds) ∧
    body_poses = c.bodyPoses mul ∧ camera_poses = c.cameraPoses mul ∧
    req.sceneId? = some c.mServerId ∧
    (c.perform mul call).2 =
      if c.mIdSynced = true then [req]
      else [ClientRequest.setEntityOrder c.mServerId c.bodyIds c.cameraIds, req] := by
  cases call with
  | registerBody body => cases hreq
  | registerCamera camera => cases hreq
  | moveBody i pose => cases hreq
  | moveCamera j pose => cases hreq
  | setAmbientLight status =>
    simp only [ClientSystem.perform, ClientSystem.setAmbientLight, List.mem_singleton] at hreq
    rw [hreq] at hp
    cases hp
  | addPointLight status =>
    simp only [ClientSystem.perform, ClientSystem.addPointLight, List.mem_singleton] at hreq
    rw [hreq] at hp
    cases hp
  | addDirectionalLight status =>
    simp only [ClientSystem.perform, ClientSystem.addDirectionalLight,
      List.mem_singleton] at hreq
    rw [hreq] at hp
    cases hp
  | step orderStatus renderStatus =>
    simp only [ClientSystem.perform, ClientSystem.step] at hreq ⊢
    rcases syncId_cases c orderStatus with ⟨h1, h2⟩ | ⟨h1, _, h2⟩ | ⟨h1, m, _, h2⟩
    · simp only [h2, List.nil_append, List.mem_singleton] at hreq ⊢
      rw [hreq] at hp ⊢
      simp only [ClientRequest.poses?, Option.some.injEq, Prod.mk.injEq] at hp
      rw [lastOrder_append]
      exact ⟨h h1, hp.1.symm, hp.2.symm, rfl, by rw [if_pos h1]⟩
    · simp only [h2, List.singleton_append, List.mem_cons, List.mem_singleton,
        List.not_mem_nil, or_false] at hreq ⊢
      rcases hreq with hreq | hreq
      · rw [hreq] at hp
        cases hp
      · rw [hreq] at hp ⊢
        simp only [ClientRequest.poses?, Option.some.injEq, Prod.mk.injEq] at hp
        refine ⟨lastOrder_order log _ _ _ _ rfl, hp.1.symm, hp.2.symm, rfl, ?_⟩
        rw [h1]
        rfl
    · simp only [h2, List.mem_singleton] at hreq
      rw [hreq] at hp
      cases hp
  | updateRenderAndTakePictures cameras orderStatus renderStatus =>
    simp only [ClientSystem.perform, ClientSystem.updateRenderAndTakePictures] at hreq ⊢
    rcases syncId_cases c orderStatus with ⟨h1, h2⟩ | ⟨h1, _, h2⟩ | ⟨h1, m, _, h2⟩
    · simp only [h2, List.nil_append, List.mem_singleton] at hreq ⊢
      rw [hreq] at hp ⊢
      simp only [ClientRequest.poses?, Option.some.injEq, Prod.mk.injEq] at hp
      rw [lastOrder_append]
      exact ⟨h h1, hp.1.symm, hp.2.symm, rfl, by rw [if_pos h1]⟩
    · simp only [h2, List.singleton_append, List.mem_cons, List.mem_singleton,
        List.not_mem_nil, or_false] at hreq ⊢
      rcases hreq with hreq | hreq
      · rw [hreq] at hp
        cases hp
      · rw [hreq] at hp ⊢
        simp only [ClientRequest.poses?, Option.some.injEq, Prod.mk.injEq] at hp
        refine ⟨lastOrder_order log _ _ _ _ rfl, hp.1.symm, hp.2.symm, rfl, ?_⟩
        rw [h1]
        rfl
    · simp only [h2, List.mem_singleton] at hreq
      rw [hreq] at hp
      cases hp

/-- C19: a client whose order is not synced performs any sequence of calls
(registrations, moves of its components, light requests, `step`,
`updateRenderAndTakePictures`); for every pose update `req` that the next call
sends, the most recent `SetEntityOrder` request sent names the shapes of the
registered bodies (bodies in registration order, shapes in list order) and the
registered cameras, the request has one body pose per body id and one camera
pose per camera id, the i-th body pose is the pose of the shape whose server id
is the i-th body id, the j-th camera pose that of the camera with the j-th
camera id, and when the order is not synced (as after every registration) the
call sends the `SetEntityOrder` request right before the pose update. -/
theorem client_order_agrees (mul : Pose → Pose → Pose) (c0 c : ClientSystem)
    (log : List ClientRequest) (calls : List ClientCall) (call : ClientCall)
    (req : ClientRequest) (body_poses camera_poses : List Pose)
    (h0 : c0.mIdSynced = false)
    (hrun : ClientSystem.run mul (c0, []) calls = (c, log))
    (hreq : req ∈ (c.perform mul call).2)
    (hp : req.poses? = some (body_poses, camera_poses)) :
    lastOrder (log ++ (c.perform mul call).2) = some (c.bodyIds, c.cameraIds) ∧
    body_poses.length = c.bodyIds.length ∧ camera_poses.length = c.cameraIds.length ∧
    (∀ (i : Nat) (x : Pose × ClientRenderShape), c.shapes[i]? = some x →
      c.bodyIds[i]? = some x.2.serverId ∧ body_poses[i]? = some (mul x.1 x.2.localPose)) ∧
    (∀ (j : Nat) (cam : ClientCameraComponent), c.mCameras[j]? = some cam →
      c.cameraIds[j]? = some cam.serverId ∧
      camera_poses[j]? = some (mul cam.pose cam.localPose)) ∧
    c.shapes.length = body_poses.length ∧ c.mCameras.length = camera_poses.length ∧
    c.mRenderBodies.map ClientRenderBodyComponent.renderShapes =
      (c0.mRenderBodies ++ registeredBodies calls).map
        ClientRenderBodyComponent.renderShapes ∧
    c.mCameras.map ClientCameraComponent.serverId =
      (c0.mCameras ++ registeredCameras calls).map ClientCameraComponent.serverId ∧
    ((c.perform mul call).2 =
      if c.mIdSynced = true then [req]
      else [ClientRequest.setEntityOrder c.mServerId c.bodyIds c.cameraIds, req]) ∧
    (∀ body, (c.registerBody body).mIdSynced = false) ∧
    ∀ camera, (c.registerCamera camera).mIdSynced = false := by
  have hinit : ClientSystem.Synced (c0, ([] : List ClientRequest)).1
      (c0, ([] : List ClientRequest)).2 := by
    intro hs
    rw [h0] at hs
    cases hs
  have hsync := synced_run mul calls (c0, []) hinit
  have hreg := run_registered mul calls (c0, [])
  rw [hrun] at hsync hreg
  obtain ⟨h1, h2, h3, _, h5⟩ := perform_pose mul c log call req body_poses camera_poses hsync
    hreq hp
  have hb := shapes_ids c
  have hbp := shapes_poses mul c
  refine ⟨h1, ?_, ?_, ?_, ?_, ?_, ?_, hreg.1, hreg.2.1, h5, fun _ => rfl, fun _ => rfl⟩
  · rw [h2, hb, hbp, List.length_map, List.length_map]
  · rw [h3]
    simp only [ClientSystem.cameraPoses, ClientSystem.cameraIds, List.length_map]
  · intro i x hx
    rw [h2, hb, hbp, List.getElem?_map, List.getElem?_map, hx]
    exact ⟨rfl, rfl⟩
  · intro j cam hcam
    rw [h3]
    simp only [ClientSystem.cameraPoses, ClientSystem.cameraIds, List.getElem?_map, hcam,
      Option.map_some', and_self]
  · rw [h2, hbp, List.length_map]
  · rw [h3]
    simp only [ClientSystem.cameraPoses, List.length_map]

theorem client_order_agrees_witness :
    lastOrder (([] : List ClientRequest) ++
        (sampleClient.perform addPositions (ClientCall.step Status.ok Status.ok)).2) =
      some (sampleClient.bodyIds, sampleClient.cameraIds) :=
  (client_order_agrees addPositions sampleClient sampleClient [] []
    (ClientCall.step Status.ok Status.ok)
    (ClientRequest.updateRender 1 (sampleClient.bodyPoses addPositions)
      (sampleClient.cameraPoses addPositions))
    (sampleClient.bodyPoses addPositions) (sampleClient.cameraPoses addPositions)
    rfl rfl (by decide) rfl).1

/-- C22: the server answers the `CreateScene` of a new client with id 1; the
constructor does not store the id of the reply, so every later request carries
the value `mServerId` had before (here 0) whatever the reply was, and the
destructor sends `RemoveScene` with id 0: the server finds no such scene and
scene 1 stays registered. -/
theorem client_ignores_scene_id :
    (CreateScene Server.empty 0).2 = .ok 1 ∧
    (∀ res unset : rs_id_t,
      (ClientSystem.create 0 Status.ok res unset).2 =
        .ok { mIndex := 0, mServerId := unset, mRenderBodies := [], mCameras := [],
              mIdSynced := false }) ∧
    (∀ c : ClientSystem, (ClientSystem.create 0 Status.ok 1 0).2 = .ok c →
      (c.setAmbientLight Status.ok).1 = [ClientRequest.setAmbientLight 0] ∧
      (c.addPointLight Status.ok).1 = [ClientRequest.addPointLight 0] ∧
      (c.addDirectionalLight Status.ok).1 = [ClientRequest.addDirectionalLight 0] ∧
      (c.step addPositions Status.ok Status.ok).2.1 =
        [ClientRequest.setEntityOrder 0 [] [], ClientRequest.updateRender 0 [] []] ∧
      (c.updateRenderAndTakePictures addPositions [] Status.ok Status.ok).2.1 =
        [ClientRequest.setEntityOrder 0 [] [],
          ClientRequest.updateRenderAndTakePictures 0 [] [] []]) ∧
    (∀ (res unset : rs_id_t) (c : ClientSystem),
      (ClientSystem.create 0 Status.ok res unset).2 = .ok c →
        c.destroy = [ClientRequest.removeScene 0]) ∧
    (RemoveScene (CreateScene Server.empty 0).1 0 VkResult.eSuccess).2 =
      .error Fault.notFound ∧
    ((RemoveScene (CreateScene Server.empty 0).1 0 VkResult.eSuccess).1.mSceneMap.get? 1).isSome
      = true := by
  refine ⟨rfl, fun _ _ => rfl, ?_, fun _ _ _ _ => rfl, rfl, by decide⟩
  intro c hc
  cases hc
  exact ⟨rfl, rfl, rfl, rfl, rfl⟩

/-! ### Camera indices and the range of a camera in a buffer -/

theorem listed_cameraIndex (bound : Nat) (sc : SceneInfo) (h : ListedScene bound sc.listing) :
    sc.cameraMap.map (fun kv => kv.2.cameraIndex) = List.range sc.cameraMap.length ∧
    sc.cameraList = sc.cameraMap.map Prod.fst ∧ (sc.cameraMap.map Prod.fst).Nodup ∧
    sc.cameraList.length = sc.cameraMap.length ∧
    ∀ camera_id cam, sc.cameraMap.get? camera_id = some cam →
      cam.cameraIndex < sc.cameraMap.length := by
  obtain ⟨h1, _, h3, h4⟩ := h
  have hkeys : (sc.listing.2.2.map Prod.fst) = sc.cameraMap.map Prod.fst := by
    simp [SceneInfo.listing, List.map_map, Function.comp]
  have hidx : sc.listing.2.2.map Prod.snd = sc.cameraMap.map (fun kv => kv.2.cameraIndex) := by
    simp [SceneInfo.listing, List.map_map, Function.comp]
  have hlen : sc.listing.2.2.length = sc.cameraMap.length := by
    simp [SceneInfo.listing]
  rw [hkeys] at h1 h3
  rw [hidx, hlen] at h4
  have hl : sc.cameraList = sc.cameraMap.map Prod.fst := h1
  refine ⟨h4, hl, h3, by rw [hl, List.length_map], ?_⟩
  intro camera_id cam hcam
  have hmem : cam.cameraIndex ∈ sc.cameraMap.map (fun kv => kv.2.cameraIndex) :=
    List.mem_map.mpr ⟨(camera_id, cam), IdMap.mem_of_get? _ _ _ hcam, rfl⟩
  rw [h4] at hmem
  exact List.mem_range.mp hmem

theorem range_inside (sceneIndex cameraIndex count maxScene stride : Nat)
    (hs : sceneIndex ≤ maxScene) (hc : cameraIndex < count) :
    fillOffset count stride sceneIndex cameraIndex + stride ≤
      (maxScene + 1) * count * stride := by
  have h0 := fillOffset_le count stride sceneIndex cameraIndex
  have h1 : sceneIndex * count + cameraIndex + 1 ≤ (maxScene + 1) * count := by
    have : sceneIndex * count ≤ maxScene * count := Nat.mul_le_mul_right _ hs
    rw [Nat.add_mul, Nat.one_mul]
    omega
  calc fillOffset count stride sceneIndex cameraIndex + stride
      ≤ (sceneIndex * count + cameraIndex) * stride + stride := Nat.add_le_add_right h0 _
    _ = (sceneIndex * count + cameraIndex + 1) * stride := by ring
    _ ≤ (maxScene + 1) * count * stride := Nat.mul_le_mul_right _ h1

theorem autoAllocateBuffers_range_of_fit (s s1 : Server) (targets : List String)
    (buffers : List Nat) (hl : s.Listed)
    (h : autoAllocateBuffers s targets = (s1, .ok buffers))
    (hfit : (scanScenes s).maxCameraWidth * (scanScenes s).maxCameraHeight * 4 * 4 < 2147483648)
    (scene_id camera_id : rs_id_t) (sc : SceneInfo) (cam : CameraInfo)
    (hsc : s.mSceneMap.get? scene_id = some sc) (hcam : sc.cameraMap.get? camera_id = some cam)
    (t : Nat) (target : String) (ht : targets[t]? = some target) :
    ∃ info entry b, s1.fillInfo? scene_id camera_id = some info ∧ entry ∈ info ∧
      entry.name = canonicalName target ∧ entry.buffer = t ∧ s1.mBuffers[t]? = some b ∧
      s1.mRenderTargetStrides[t]? = some (strideOf (scanScenes s) 4 4) ∧
      entry.offset + strideOf (scanScenes s) 4 4 ≤ b.mSize := by
  obtain ⟨n0, n1, n2, n3⟩ := scanScenes_nonneg s
  obtain ⟨info, hinfo, hentry⟩ := autoAllocateBuffers_entry_of_fit s s1 targets buffers h hfit
    scene_id camera_id sc cam hsc hcam t target ht
  obtain ⟨_, _, hs1, _, _, _⟩ := autoAllocateBuffers_ok s s1 targets buffers h
  have htlt : t < targets.length := by
    rcases Nat.lt_or_ge t targets.length with hlt | hge
    · exact hlt
    · rw [List.getElem?_eq_none hge] at ht
      cases ht
  have hb : s1.mBuffers[t]? = some (targetBuffer (scanScenes s) target) := by
    rw [hs1]
    simp only [List.getElem?_map, ht, Option.map_some']
  have hstr : s1.mRenderTargetStrides[t]? = some (strideOf (scanScenes s) 4 4) := by
    rw [hs1]
    simp only
    rw [List.getElem?_eq_getElem (by simpa using htlt)]
    simp
  refine ⟨info, _, _, hinfo, hentry, rfl, rfl, hb, hstr, ?_⟩
  have hscene : sc ∈ s.scenes := by
    unfold Server.scenes
    exact List.mem_map.mpr ⟨(scene_id, sc), IdMap.mem_of_get? _ _ _ hsc, rfl⟩
  obtain ⟨u1, u2, _⟩ := scanScenes_upper s
  have hidx := (listed_cameraIndex s.nextId sc (listed_scene s hl scene_id sc hsc)).2.2.2.2
    camera_id cam hcam
  have hstride := strideOf_exact (scanScenes s) n2 n3 hfit
  have hsize := bufferBytes_layoutShape (scanScenes s) n0 n1 n2 n3
  have hsi := u1 sc hscene
  have hci := u2 sc hscene
  have hrange := range_inside sc.sceneIndex cam.cameraIndex (scanScenes s).maxCameraCount.toNat
    (scanScenes s).maxSceneIndex.toNat (strideOf (scanScenes s) 4 4) (by omega) (by omega)
  have hsz : (targetBuffer (scanScenes s) target).mSize =
      ((scanScenes s).maxSceneIndex.toNat + 1) * (scanScenes s).maxCameraCount.toNat *
        strideOf (scanScenes s) 4 4 := by
    have e : (targetBuffer (scanScenes s) target).mSize =
        bufferBytes 4 (layoutShape (scanScenes s) 4) := rfl
    rw [e]
    have : ((bufferBytes 4 (layoutShape (scanScenes s) 4) : Nat) : Int) =
        ((((scanScenes s).maxSceneIndex.toNat + 1) * (scanScenes s).maxCameraCount.toNat *
          strideOf (scanScenes s) 4 4 : Nat) : Int) := by
      rw [hsize]
      push_cast
      rw [hstride, Int.toNat_of_nonneg n0, Int.toNat_of_nonneg n1]
      ring
    exact_mod_cast this
  rw [hsz]
  have hoff : ((scanScenes s).maxCameraWidth * (scanScenes s).maxCameraHeight * 4 * 4).toNat =
      strideOf (scanScenes s) 4 4 := by
    rw [← hstride]
    exact Int.toNat_ofNat _
  simp only [hoff]
  exact hrange

/-- C21: in every state reached from the empty server the cameras of a scene
have the camera indices 0, 1, ..., n-1 in the order of `cameraMap`, and
`cameraList` names the same cameras in the same order; after a successful
`autoAllocateBuffers` every camera's range lies inside the buffer of every
target when the `int` product of the stride does not overflow; with two cameras
of 16383 by 16383 pixels it overflows, the stride stored is 2^64 - 524272, and
the ranges of both cameras end far behind the 8588886048 bytes of the
buffer. -/
theorem camera_range_exceeds_buffer :
    (∀ (requests : List Request) (scene_id : rs_id_t) (sc : SceneInfo),
      (Server.empty.run requests).mSceneMap.get? scene_id = some sc →
        sc.cameraMap.map (fun kv => kv.2.cameraIndex) = List.range sc.cameraMap.length ∧
        sc.cameraList = sc.cameraMap.map Prod.fst ∧ (sc.cameraMap.map Prod.fst).Nodup) ∧
    (∀ (requests : List Request) (targets : List String) (s1 : Server) (buffers : List Nat),
      autoAllocateBuffers (Server.empty.run requests) targets = (s1, .ok buffers) →
      (scanScenes (Server.empty.run requests)).maxCameraWidth *
        (scanScenes (Server.empty.run requests)).maxCameraHeight * 4 * 4 < 2147483648 →
      ∀ (scene_id camera_id : rs_id_t) (sc : SceneInfo) (cam : CameraInfo),
        (Server.empty.run requests).mSceneMap.get? scene_id = some sc →
        sc.cameraMap.get? camera_id = some cam →
        ∀ (t : Nat) (target : String), targets[t]? = some target →
          ∃ info entry b, s1.fillInfo? scene_id camera_id = some info ∧ entry ∈ info ∧
            entry.name = canonicalName target ∧ entry.buffer = t ∧
            s1.mBuffers[t]? = some b ∧
            s1.mRenderTargetStrides[t]? =
              some (strideOf (scanScenes (Server.empty.run requests)) 4 4) ∧
            entry.offset + strideOf (scanScenes (Server.empty.run requests)) 4 4 ≤ b.mSize) ∧
    (autoAllocateBuffers twoLargeCameras ["Color"]).2 = .ok [0] ∧
    (autoAllocateBuffers twoLargeCameras ["Color"]).1.mBuffers.map VulkanCudaBuffer.mSize =
      [8588886048] ∧
    (autoAllocateBuffers twoLargeCameras ["Color"]).1.mRenderTargetStrides =
      [18446744073709027344] ∧
    (autoAllocateBuffers twoLargeCameras ["Color"]).1.fillInfo? 1 2 =
      some [{ name := "Color", buffer := 0, offset := 0 }] ∧
    (autoAllocateBuffers twoLargeCameras ["Color"]).1.fillInfo? 1 3 =
      some [{ name := "Color", buffer := 0, offset := 18446744073709027344 }] ∧
    8588886048 < 0 + 18446744073709027344 ∧
    8588886048 < 18446744073709027344 + 18446744073709027344 ∧
    fillOffset 2 (16383 * 16383 * 4 * 4) 0 1 + 16383 * 16383 * 4 * 4 = 8588886048 := by
  refine ⟨?_, ?_, rfl, by decide, by decide, by decide, by decide, by decide, by decide,
    by decide⟩
  · intro requests scene_id sc hsc
    have hl : (Server.empty.run requests).Listed := listed_run requests _ listed_empty
    obtain ⟨h1, h2, h3, _⟩ := listed_cameraIndex _ sc (listed_scene _ hl scene_id sc hsc)
    exact ⟨h1, h2, h3⟩
  · intro requests targets s1 buffers h hfit scene_id camera_id sc cam hsc hcam t target ht
    exact autoAllocateBuffers_range_of_fit _ s1 targets buffers
      (listed_run requests _ listed_empty) h hfit scene_id camera_id sc cam hsc hcam t target ht

/-! ### The linking state under requests -/

theorem linking_update_same (s s1 : Server) (k : rs_id_t) (sc sc1 : SceneInfo)
    (hm : s1.mSceneMap = IdMap.set s.mSceneMap k sc1) (hget : s.mSceneMap.get? k = some sc)
    (h : sc1.linking = sc.linking) : s1.linking = s.linking := by
  unfold Server.linking
  rw [hm, IdMap.map_set s.mSceneMap SceneInfo.linking, h]
  apply IdMap.set_same
  rw [IdMap.get?_map s.mSceneMap SceneInfo.linking, hget]
  rfl

theorem linking_update (s s1 : Server) (k : rs_id_t) (sc1 : SceneInfo)
    (hm : s1.mSceneMap = IdMap.set s.mSceneMap k sc1) :
    s1.linking = IdMap.set s.linking k sc1.linking := by
  unfold Server.linking
  rw [hm]
  exact IdMap.map_set s.mSceneMap SceneInfo.linking k sc1

theorem linking_get? (s : Server) (k : rs_id_t) :
    s.linking.get? k = (s.mSceneMap.get? k).map SceneInfo.linking :=
  IdMap.get?_map s.mSceneMap SceneInfo.linking k

theorem linking_picture (sc : SceneInfo) (id : rs_id_t) (cam : CameraInfo) (n : Nat)
    (tasks : List PictureTask) (hc : sc.cameraMap.get? id = some cam) :
    SceneInfo.linking
      { sc with
        cameraMap := sc.cameraMap.set id { cam with frameCounter := n }
        threadRunner := tasks } = sc.linking := by
  simp only [SceneInfo.linking]
  rw [IdMap.map_set sc.cameraMap CameraInfo.camera]
  rw [IdMap.set_same]
  rw [IdMap.get?_map sc.cameraMap CameraInfo.camera, hc]
  rfl

theorem takePictures_linking :
    ∀ (ids : List rs_id_t) (sc : SceneInfo), (takePictures sc ids).1.linking = sc.linking := by
  intro ids
  induction ids with
  | nil => intro sc; rfl
  | cons id rest ih =>
    intro sc
    rcases hc : sc.cameraMap.get? id with _ | cam
    · simp only [takePictures, hc]
    · simp only [takePictures, hc]
      rw [ih]
      exact linking_picture sc id cam _ _ hc

theorem setNodePose_handles (nodes nodes1 : List (Nat × Node)) (node : Nat) (pose : Pose)
    (h : setNodePose nodes node pose = some nodes1) : nodeHandles nodes1 = nodeHandles nodes := by
  unfold setNodePose at h
  split_ifs at h
  cases h
  unfold nodeHandles
  rw [List.map_map]
  apply List.map_congr_left
  intro n _
  simp only [Function.comp]
  split_ifs <;> rfl

theorem applyPoses_handles (ordered : List (Option Nat)) :
    ∀ (poses : List Pose) (i : Nat) (nodes nodes1 : List (Nat × Node)),
      applyPoses ordered i poses nodes = .ok nodes1 → nodeHandles nodes1 = nodeHandles nodes := by
  intro poses
  induction poses with
  | nil =>
    intro i nodes nodes1 h
    simp only [applyPoses] at h
    cases h
    rfl
  | cons pose rest ih =>
    intro i nodes nodes1 h
    simp only [applyPoses] at h
    rcases ho : ordered[i]? with _ | o
    · rw [ho] at h
      cases h
    · rw [ho] at h
      cases o with
      | none => cases h
      | some node =>
        simp only at h
        rcases hs : setNodePose nodes node pose with _ | nodes2
        · rw [hs] at h
          cases h
        · rw [hs] at h
          rw [ih (i + 1) nodes2 nodes1 h]
          exact setNodePose_handles nodes nodes2 node pose hs

theorem updatePoses_linking (info info1 : SceneInfo) (bp cp : List Pose)
    (h : updatePoses info bp cp = .ok info1) : info1.linking = info.linking := by
  unfold updatePoses at h
  rcases h1 : applyPoses info.orderedObjects 0 bp info.nodes with e | nodes1
  · rw [h1] at h
    cases h
  · rw [h1] at h
    simp only at h
    rcases h2 : applyPoses (info.orderedCameras.map some) 0 cp nodes1 with e | nodes2
    · rw [h2] at h
      cases h
    · rw [h2] at h
      cases h
      simp only [SceneInfo.linking]
      rw [applyPoses_handles _ _ _ _ _ h2, applyPoses_handles _ _ _ _ _ h1]

theorem pushFillInfo_linking (s : Server) (target : String) (buffer : Nat) (count : Int)
    (stride : Nat) : (pushFillInfo s target buffer count stride).linking = s.linking := by
  simp [Server.linking, pushFillInfo, pushFillInfoScene, SceneInfo.linking, List.map_map,
    Function.comp]

theorem allocateTargets_linking (l : Layout) :
    ∀ (targets : List String) (s : Server) (buffers strides : List Nat),
      (allocateTargets l s targets buffers strides).1.linking = s.linking := by
  intro targets
  induction targets with
  | nil => intro s buffers strides; rfl
  | cons target rest ih =>
    intro s buffers strides
    rcases allocateBuffer_kind s l target with hk | ⟨name, type, hk, _, hb⟩
    · simp only [allocateTargets, hk]
    · by_cases hz : bufferBytes 4 (layoutShape l 4) = 0
      · simp only [allocateTargets, hk, hb, hz, if_true]
      · simp only [allocateTargets, hk, hb, hz, if_false]
        rw [ih, pushFillInfo_linking]
        rfl

theorem autoAllocateBuffers_linking (s : Server) (targets : List String) :
    (autoAllocateBuffers s targets).1.linking = s.linking := by
  unfold autoAllocateBuffers
  by_cases hb : s.mBuffers.length ≠ 0
  · rw [if_pos hb]
  · rw [if_neg hb]
    rcases hv : validateLayout (scanScenes s) with e | u
    · simp only [hv]
    · simp only [hv]
      have h1 := allocateTargets_linking (scanScenes s) targets s [] []
      rcases hr : allocateTargets (scanScenes s) s targets [] [] with ⟨s1, r⟩
      rw [hr] at h1
      rcases r with e | ⟨bufs, strs⟩
      · exact h1
      · exact h1

theorem nodeHandles_append (nodes : List (Nat × Node)) (h : Nat) (n : Node) :
    nodeHandles (nodes ++ [(h, n)]) = nodeHandles nodes ++ [h] := by
  simp [nodeHandles]

theorem nodeHandles_filter (nodes : List (Nat × Node)) (node : Nat) :
    nodeHandles (nodes.filter fun n => decide (n.1 ≠ node)) =
      (nodeHandles nodes).filter fun h => decide (h ≠ node) := by
  unfold nodeHandles
  rw [List.filter_map]
  rfl

theorem handle_linking (s : Server) (req : Request) : LinkingStep s (s.handle req) := by
  cases req with
  | createScene index =>
    exact LinkingStep.created (linking_update s _ s.nextId (SceneInfo.fresh index s.nextId) rfl)
  | removeScene id waitResult =>
    rcases hget : s.mSceneMap.get? id with _ | info
    · simp only [Server.handle, RemoveScene, hget]
      exact LinkingStep.same rfl
    · rcases hslot : s.mSceneList[info.sceneIndex]? with _ | slot
      · simp only [Server.handle, RemoveScene, hget, hslot]
        exact LinkingStep.same rfl
      · simp only [Server.handle, RemoveScene, hget, hslot]
        refine LinkingStep.removed id ?_
        simp only [updateObjectMaterialMap, Server.linking]
        split_ifs <;> exact IdMap.map_erase _ SceneInfo.linking id
  | createMaterial => exact LinkingStep.same rfl
  | removeMaterial id => exact LinkingStep.same rfl
  | addBodyMesh scene_id shapeCount =>
    rcases hget : s.mSceneMap.get? scene_id with _ | info
    · simp only [Server.handle, AddBodyMesh, generateId, hget]
      exact LinkingStep.same rfl
    · simp only [Server.handle, AddBodyMesh, generateId, hget]
      refine LinkingStep.body scene_id s.nextId info.linking ?_ ?_
      · rw [linking_get?, hget]
        rfl
      · rw [linking_update s _ scene_id _ rfl]
        simp only [SceneInfo.linking, SceneInfo.addNode, nodeHandles_append]
  | addBodyPrimitive scene_id type material =>
    rcases hm : getMaterial (generateId s).2 material with e | mat
    · simp only [Server.handle, AddBodyPrimitive, hm]
      exact LinkingStep.same rfl
    · rcases hget : s.mSceneMap.get? scene_id with _ | info
      · have hget1 : (generateId s).2.mSceneMap.get? scene_id = none := hget
        simp only [Server.handle, AddBodyPrimitive, hm, hget1]
        exact LinkingStep.same rfl
      · have hget1 : (generateId s).2.mSceneMap.get? scene_id = some info := hget
        have hl : s.linking.get? scene_id = some info.linking := by
          rw [linking_get?, hget]
          rfl
        simp only [Server.handle, AddBodyPrimitive, hm, hget1]
        cases type <;>
          first
          | exact LinkingStep.same rfl
          | (refine LinkingStep.body scene_id s.nextId info.linking hl ?_
             rw [linking_update s _ scene_id _ rfl]
             simp only [SceneInfo.linking, SceneInfo.addNode, nodeHandles_append, generateId])
  | removeBody scene_id body_id =>
    rcases hget : s.mSceneMap.get? scene_id with _ | info
    · simp only [Server.handle, RemoveBody, hget]
      exact LinkingStep.same rfl
    · rcases ho : info.objectMap.get? body_id with _ | object
      · simp only [Server.handle, RemoveBody, hget, ho]
        exact LinkingStep.same rfl
      · cases object with
        | none =>
          simp only [Server.handle, RemoveBody, hget, ho]
          exact LinkingStep.same rfl
        | some node =>
          simp only [Server.handle, RemoveBody, hget, ho]
          refine LinkingStep.bodyRemoved scene_id body_id node info.linking ?_ ho ?_
          · rw [linking_get?, hget]
            rfl
          · rw [linking_update s _ scene_id _ rfl]
            simp only [SceneInfo.linking, nodeHandles_filter]
  | addCamera scene_id width height =>
    rcases hget : s.mSceneMap.get? scene_id with _ | info
    · simp only [Server.handle, AddCamera, generateId, hget]
      exact LinkingStep.same rfl
    · simp only [Server.handle, AddCamera, generateId, hget]
      refine LinkingStep.camera scene_id s.nextId info.linking ?_ ?_
      · rw [linking_get?, hget]
        rfl
      · rw [linking_update s _ scene_id _ rfl]
        simp only [SceneInfo.linking, SceneInfo.addNode, nodeHandles_append]
        rw [IdMap.map_set info.cameraMap CameraInfo.camera]
  | addLight scene_id =>
    rcases hget : s.mSceneMap.get? scene_id with _ | info
    · simp only [Server.handle, AddLight, generateId, hget]
      exact LinkingStep.same rfl
    · simp only [Server.handle, AddLight, generateId, hget]
      exact LinkingStep.same rfl
  | setEntityOrder scene_id body_ids camera_ids =>
    rcases hget : s.mSceneMap.get? scene_id with _ | info
    · simp only [Server.handle, SetEntityOrder, hget]
      exact LinkingStep.same rfl
    · simp only [Server.handle, SetEntityOrder, hget]
      refine LinkingStep.ordered scene_id body_ids info.linking ?_ ?_
      · rw [linking_get?, hget]
        rfl
      · rw [linking_update s _ scene_id _ rfl]
        rfl
  | updateRender scene_id body_poses camera_poses =>
    rcases hget : s.mSceneMap.get? scene_id with _ | info
    · simp only [Server.handle, UpdateRender, hget]
      exact LinkingStep.same rfl
    · rcases hp : updatePoses info body_poses camera_poses with e | info1
      · simp only [Server.handle, UpdateRender, hget, hp]
        exact LinkingStep.same rfl
      · simp only [Server.handle, UpdateRender, hget, hp]
        exact LinkingStep.same
          (linking_update_same s _ scene_id info _ rfl hget (updatePoses_linking _ _ _ _ hp))
  | updateRenderAndTakePictures scene_id body_poses camera_poses camera_ids =>
    rcases hget : s.mSceneMap.get? scene_id with _ | info
    · simp only [Server.handle, UpdateRenderAndTakePictures, hget]
      exact LinkingStep.same rfl
    · rcases hp : updatePoses info body_poses camera_poses with e | info1
      · simp only [Server.handle, UpdateRenderAndTakePictures, hget, hp]
        exact LinkingStep.same rfl
      · simp only [Server.handle, UpdateRenderAndTakePictures, hget, hp]
        refine LinkingStep.same (linking_update_same s _ scene_id info _ rfl hget ?_)
        rw [takePictures_linking, updatePoses_linking _ _ _ _ hp]
  | getShapeMaterial scene_id body_id index =>
    rcases hget : s.mSceneMap.get? scene_id with _ | info
    · simp only [Server.handle, GetShapeMaterial, hget]
      exact LinkingStep.same rfl
    · rcases hm : info.objectMaterialIdMap.get? body_id with _ | mat_ids
      · rcases ho : info.objectMap.get? body_id with _ | object
        · simp only [Server.handle, GetShapeMaterial, hget, hm, ho]
          exact LinkingStep.same rfl
        · simp only [Server.handle, GetShapeMaterial, hget, hm, ho]
          have hmap := generateShapeMaterials_mSceneMap (objectShapes info object) s
          split <;>
          · exact LinkingStep.same (linking_update_same s _ scene_id info
              { info with
                objectMaterialIdMap := info.objectMaterialIdMap.set body_id
                  (generateShapeMaterials s (objectShapes info object)).2 }
              (congrArg (fun m => IdMap.set m scene_id _) hmap) hget rfl)
      · simp only [Server.handle, GetShapeMaterial, hget, hm]
        split <;> exact LinkingStep.same rfl
  | takePicture scene_id camera_id =>
    rcases hget : s.mSceneMap.get? scene_id with _ | info
    · simp only [Server.handle, TakePicture, hget]
      exact LinkingStep.same rfl
    · rcases hc : info.cameraMap.get? camera_id with _ | cam
      · simp only [Server.handle, TakePicture, hget, hc]
        exact LinkingStep.same rfl
      · simp only [Server.handle, TakePicture, hget, hc]
        exact LinkingStep.same
          (linking_update_same s _ scene_id info _ rfl hget (linking_picture info _ cam _ _ hc))
  | autoAllocateBuffers renderTargets =>
    exact LinkingStep.same (autoAllocateBuffers_linking s renderTargets)

/-! ### The linking invariant -/

theorem IdMap.get?_set {α : Type} (m : IdMap α) (k k2 : rs_id_t) (v : α) :
    (m.set k v).get? k2 = if k2 = k then some v else m.get? k2 := by
  by_cases h : k2 = k
  · rw [if_pos h, h]
    exact IdMap.get?_set_self m k v
  · rw [if_neg h]
    exact IdMap.get?_set_ne m k k2 v h

theorem orderObjects_get? :
    ∀ (ids : List rs_id_t) (m : IdMap (Option Nat)) (id : rs_id_t) (h : Nat),
      (orderObjects m ids).1.get? id = some (some h) → m.get? id = some (some h) := by
  intro ids
  induction ids with
  | nil => intro m id h hg; exact hg
  | cons id0 rest ih =>
    intro m id h hg
    rcases h0 : m.get? id0 with _ | object
    · simp only [orderObjects, h0] at hg
      have := ih _ id h hg
      rw [IdMap.get?_set] at this
      split_ifs at this
      · cases this
      · exact this
    · simp only [orderObjects, h0] at hg
      exact ih m id h hg

theorem linkedScene_body (p : List Nat × Nat × IdMap (Option Nat) × IdMap Nat) (id : rs_id_t)
    (h : LinkedScene p) :
    LinkedScene (p.1 ++ [p.2.1], p.2.1 + 1, IdMap.set p.2.2.1 id (some p.2.1), p.2.2.2) := by
  obtain ⟨hA, hB, hC, hD, hE⟩ := h
  refine ⟨?_, ?_, ?_, ?_, ?_⟩
  · intro x hx
    simp only [List.mem_append, List.mem_singleton] at hx
    rcases hx with hx | hx
    · exact Nat.lt_succ_of_lt (hA x hx)
    · rw [hx]
      exact Nat.lt_succ_self _
  · intro k x hk
    simp only [IdMap.get?_set] at hk
    simp only [List.mem_append, List.mem_singleton]
    split_ifs at hk
    · simp only [Option.some.injEq] at hk
      exact Or.inr hk.symm
    · exact Or.inl (hB k x hk)
  · intro k x hk
    exact List.mem_append_left _ (hC k x hk)
  · intro k1 k2 x h1 h2
    simp only [IdMap.get?_set] at h1 h2
    split_ifs at h1 h2 with e1 e2 e2
    · rw [e1, e2]
    · simp only [Option.some.injEq] at h1
      have := hA x (hB k2 x h2)
      omega
    · simp only [Option.some.injEq] at h2
      have := hA x (hB k1 x h1)
      omega
    · exact hD k1 k2 x h1 h2
  · intro k cid x h1 h2
    simp only [IdMap.get?_set] at h1
    split_ifs at h1
    · simp only [Option.some.injEq] at h1
      have := hA x (hC cid x h2)
      omega
    · exact hE k cid x h1 h2

theorem linkedScene_bodyRemoved (p : List Nat × Nat × IdMap (Option Nat) × IdMap Nat)
    (body_id : rs_id_t) (node : Nat) (hobj : p.2.2.1.get? body_id = some (some node))
    (h : LinkedScene p) :
    LinkedScene (p.1.filter (fun h => decide (h ≠ node)), p.2.1, IdMap.erase p.2.2.1 body_id,
      p.2.2.2) := by
  obtain ⟨hA, hB, hC, hD, hE⟩ := h
  refine ⟨?_, ?_, ?_, ?_, ?_⟩
  · intro x hx
    exact hA x (List.mem_filter.mp hx).1
  · intro k x hk
    simp only [IdMap.get?_erase] at hk
    split_ifs at hk with e
    refine List.mem_filter.mpr ⟨hB k x hk, ?_⟩
    simp only [ne_eq, decide_not, Bool.not_eq_true', decide_eq_false_iff_not]
    intro hx
    rw [hx] at hk
    exact e (hD k body_id node hk hobj)
  · intro k x hk
    refine List.mem_filter.mpr ⟨hC k x hk, ?_⟩
    simp only [ne_eq, decide_not, Bool.not_eq_true', decide_eq_false_iff_not]
    intro hx
    rw [hx] at hk
    exact hE body_id k node hobj hk
  · intro k1 k2 x h1 h2
    simp only [IdMap.get?_erase] at h1 h2
    split_ifs at h1 h2
    exact hD k1 k2 x h1 h2
  · intro k cid x h1 h2
    simp only [IdMap.get?_erase] at h1
    split_ifs at h1
    exact hE k cid x h1 h2

theorem linkedScene_camera (p : List Nat × Nat × IdMap (Option Nat) × IdMap Nat) (id : rs_id_t)
    (h : LinkedScene p) :
    LinkedScene (p.1 ++ [p.2.1], p.2.1 + 1, p.2.2.1, IdMap.set p.2.2.2 id p.2.1) := by
  obtain ⟨hA, hB, hC, hD, hE⟩ := h
  refine ⟨?_, ?_, ?_, hD, ?_⟩
  · intro x hx
    simp only [List.mem_append, List.mem_singleton] at hx
    rcases hx with hx | hx
    · exact Nat.lt_succ_of_lt (hA x hx)
    · rw [hx]
      exact Nat.lt_succ_self _
  · intro k x hk
    exact List.mem_append_left _ (hB k x hk)
  · intro k x hk
    simp only [IdMap.get?_set] at hk
    simp only [List.mem_append, List.mem_singleton]
    split_ifs at hk
    · simp only [Option.some.injEq] at hk
      exact Or.inr hk.symm
    · exact Or.inl (hC k x hk)
  · intro k cid x h1 h2
    simp only [IdMap.get?_set] at h2
    split_ifs at h2
    · simp only [Option.some.injEq] at h2
      have := hA x (hB k x h1)
      omega
    · exact hE k cid x h1 h2

theorem linkedScene_ordered (p : List Nat × Nat × IdMap (Option Nat) × IdMap Nat)
    (body_ids : List rs_id_t) (h : LinkedScene p) :
    LinkedScene (p.1, p.2.1, (orderObjects p.2.2.1 body_ids).1, p.2.2.2) := by
  obtain ⟨hA, hB, hC, hD, hE⟩ := h
  refine ⟨hA, ?_, hC, ?_, ?_⟩
  · intro k x hk
    exact hB k x (orderObjects_get? _ _ _ _ hk)
  · intro k1 k2 x h1 h2
    exact hD k1 k2 x (orderObjects_get? _ _ _ _ h1) (orderObjects_get? _ _ _ _ h2)
  · intro k cid x h1 h2
    exact hE k cid x (orderObjects_get? _ _ _ _ h1) h2

theorem linkedScene_fresh : LinkedScene ([], 0, [], []) := by
  refine ⟨?_, ?_, ?_, ?_, ?_⟩
  · intro x hx
    cases hx
  · intro k x hk
    cases hk
  · intro k x hk
    cases hk
  · intro k1 k2 x h1
    cases h1
  · intro k cid x h1
    cases h1

theorem linked_set (s s1 : Server) (scene_id : rs_id_t)
    (q : List Nat × Nat × IdMap (Option Nat) × IdMap Nat) (h : s.Linked)
    (hs : s1.linking = IdMap.set s.linking scene_id q) (hq : LinkedScene q) : s1.Linked := by
  intro kv hkv
  rw [hs] at hkv
  rcases IdMap.mem_set _ _ _ _ hkv with hkv | hkv
  · exact h kv hkv
  · rw [hkv]
    exact hq

theorem linked_handle (s : Server) (req : Request) (h : s.Linked) : (s.handle req).Linked := by
  rcases handle_linking s req with hs | hs | ⟨id, hs⟩ | ⟨scene_id, id, p, hget, hs⟩ |
    ⟨scene_id, body_id, node, p, hget, hobj, hs⟩ | ⟨scene_id, id, p, hget, hs⟩ |
    ⟨scene_id, body_ids, p, hget, hs⟩
  · intro kv hkv
    rw [hs] at hkv
    exact h kv hkv
  · exact linked_set s _ _ _ h hs linkedScene_fresh
  · intro kv hkv
    rw [hs] at hkv
    exact h kv (IdMap.mem_erase _ _ _ hkv)
  · exact linked_set s _ _ _ h hs
      (linkedScene_body p id (h (scene_id, p) (IdMap.mem_of_get? _ _ _ hget)))
  · exact linked_set s _ _ _ h hs
      (linkedScene_bodyRemoved p body_id node hobj
        (h (scene_id, p) (IdMap.mem_of_get? _ _ _ hget)))
  · exact linked_set s _ _ _ h hs
      (linkedScene_camera p id (h (scene_id, p) (IdMap.mem_of_get? _ _ _ hget)))
  · exact linked_set s _ _ _ h hs
      (linkedScene_ordered p body_ids (h (scene_id, p) (IdMap.mem_of_get? _ _ _ hget)))

theorem linked_run (requests : List Request) :
    ∀ s : Server, s.Linked → (s.run requests).Linked := by
  induction requests with
  | nil => intro s h; exact h
  | cons req rest ih =>
    intro s h
    exact ih (s.handle req) (linked_handle s req h)

theorem linked_empty : Server.empty.Linked := by
  intro kv hkv
  cases hkv

theorem linked_scene (s : Server) (h : s.Linked) (id : rs_id_t) (sc : SceneInfo)
    (hget : s.mSceneMap.get? id = some sc) : LinkedScene sc.linking := by
  have hg : s.linking.get? id = some sc.linking := by
    rw [linking_get?, hget]
    rfl
  exact h (id, sc.linking) (IdMap.mem_of_get? _ _ _ hg)

theorem registered_live (info : SceneInfo) (hl : LinkedScene info.linking)
    (body_ids camera_ids : List rs_id_t) (objs cams : List Nat)
    (hbodies : body_ids.map (fun id => info.objectMap.get? id) =
      objs.map fun h => some (some h))
    (hcameras : camera_ids.map (fun id => (info.cameraMap.get? id).map CameraInfo.camera) =
      cams.map some) :
    (∀ h ∈ objs ++ cams, h ∈ nodeHandles info.nodes) ∧ ∀ h ∈ objs, h ∉ cams := by
  obtain ⟨_, hB, hC, _, hE⟩ := hl
  have hobj : ∀ h ∈ objs, ∃ id, info.objectMap.get? id = some (some h) := by
    intro h hh
    have : some (some h) ∈ objs.map fun h => some (some h) := List.mem_map.mpr ⟨h, hh, rfl⟩
    rw [← hbodies] at this
    obtain ⟨id, _, e⟩ := List.mem_map.mp this
    exact ⟨id, e⟩
  have hcam : ∀ h ∈ cams, ∃ cid, info.linking.2.2.2.get? cid = some h := by
    intro h hh
    have : some h ∈ cams.map some := List.mem_map.mpr ⟨h, hh, rfl⟩
    rw [← hcameras] at this
    obtain ⟨cid, _, e⟩ := List.mem_map.mp this
    refine ⟨cid, ?_⟩
    have hm := IdMap.get?_map info.cameraMap CameraInfo.camera cid
    rw [e] at hm
    exact hm
  constructor
  · intro h hh
    rcases List.mem_append.mp hh with hh | hh
    · obtain ⟨id, e⟩ := hobj h hh
      exact hB id h e
    · obtain ⟨cid, e⟩ := hcam h hh
      exact hC cid h e
  · intro h hh hc
    obtain ⟨id, e⟩ := hobj h hh
    obtain ⟨cid, e2⟩ := hcam h hc
    exact hE id cid h e e2

/-- C11: in a state reached from the empty server, when every body id is
registered to an object of the scene and every camera id to a camera of the
scene, `SetEntityOrder` replaces the order by exactly these objects and camera
nodes, in the order of the ids; a following `UpdateRender` with one pose per id
succeeds and its effect on the scene graph is the assignment of body pose i to
`orderedObjects[i]` for every i, then of camera pose j to `orderedCameras[j]`
for every j, and nothing else: each ordered node ends with its pose (the last
one when the order names it more than once) and every other node keeps the
pose it had. -/
theorem SetEntityOrder_then_UpdateRender (s : Server) (requests : List Request)
    (scene_id : rs_id_t) (info : SceneInfo)
    (body_ids camera_ids : List rs_id_t) (objs cams : List Nat)
    (hs : s = Server.empty.run requests)
    (hget : s.mSceneMap.get? scene_id = some info)
    (hbodies : body_ids.map (fun id => info.objectMap.get? id) =
      objs.map fun h => some (some h))
    (hcameras : camera_ids.map (fun id => (info.cameraMap.get? id).map CameraInfo.camera) =
      cams.map some) :
    SetEntityOrder s scene_id body_ids camera_ids =
      ({ s with
          mSceneMap := s.mSceneMap.set scene_id
            { info with orderedObjects := objs.map some, orderedCameras := cams } },
        .ok ()) ∧
    objs.length = body_ids.length ∧ cams.length = camera_ids.length ∧
    ∀ body_poses camera_poses : List Pose,
      body_poses.length = body_ids.length → camera_poses.length = camera_ids.length →
      UpdateRender (SetEntityOrder s scene_id body_ids camera_ids).1 scene_id body_poses
          camera_poses =
        ({ s with
            mSceneMap := s.mSceneMap.set scene_id
              { info with
                orderedObjects := objs.map some
                orderedCameras := cams
                nodes := writePoses info.nodes
                  (objs.zip body_poses ++ cams.zip camera_poses) } }, .ok ()) ∧
      (∀ i h pose, objs[i]? = some h → body_poses[i]? = some pose →
        h ∉ objs.drop (i + 1) →
        poseOf (writePoses info.nodes (objs.zip body_poses ++ cams.zip camera_poses)) h =
          some pose) ∧
      (∀ j h pose, cams[j]? = some h → camera_poses[j]? = some pose →
        h ∉ cams.drop (j + 1) →
        poseOf (writePoses info.nodes (objs.zip body_poses ++ cams.zip camera_poses)) h =
          some pose) ∧
      (∀ node, node ∉ objs → node ∉ cams →
        poseOf (writePoses info.nodes (objs.zip body_poses ++ cams.zip camera_poses)) node =
          poseOf info.nodes node) := by
  have hl : s.Linked := by
    rw [hs]
    exact linked_run requests _ linked_empty
  obtain ⟨hlive, hdisj⟩ := registered_live info (linked_scene s hl scene_id info hget)
    body_ids camera_ids objs cams hbodies hcameras
  obtain ⟨h1, h2, h3, h4⟩ := SetEntityOrder_then_UpdateRender_of_live s scene_id info body_ids
    camera_ids objs cams hget hbodies hcameras hlive
  refine ⟨h1, h2, h3, ?_⟩
  intro bp cp hbp hcp
  obtain ⟨g1, g2, g3, g4⟩ := h4 bp cp hbp hcp
  refine ⟨g1, ?_, g3, g4⟩
  intro i h pose hi hp hlater
  exact g2 i h pose hi hp hlater (hdisj h (List.getElem?_mem hi))

theorem SetEntityOrder_then_UpdateRender_witness :
    SetEntityOrder bodyAndCamera 1 [2] [3] =
      ({ bodyAndCamera with
          mSceneMap := bodyAndCamera.mSceneMap.set 1
            { bodyScene with orderedObjects := [0].map some, orderedCameras := [1] } },
        .ok ()) :=
  (SetEntityOrder_then_UpdateRender bodyAndCamera
    [Request.createScene 0, Request.addBodyMesh 1 2, Request.addCamera 1 640 480] 1 bodyScene
    [2] [3] [0] [1] rfl (by decide) (by decide) (by decide)).1

end RenderServer
